import Mathlib

/-!
# Shallow embedding of the Ct-o-Py convertor pipeline

This development embeds the three-stage pipeline of the repository —
`Lexer` (src/Lexer.cpp), `Parser` (src/Parser.cpp) and `Transpiler`
(src/transpiler.cpp) — as executable Lean definitions, and proves the
claims of the specification against them.

Modelling conventions:
* C++ strings are Lean `String`s; the lexer walks the source as a
  `List Char` (the remaining suffix of the input), which is equivalent to
  the `pos` index of the C++ code.  `peek()` on an exhausted input returns
  the `'\0'` sentinel, exactly as `Lexer::peek` does.
* `std::isspace/isalpha/isdigit/isalnum` are modelled for the default C
  locale on ASCII input (the only input class the program is used on).
* C++ exceptions of the parser are modelled by an explicit result type
  `PRes`: `runtime_error` and `std::out_of_range` are distinct outcomes,
  because `catch (const runtime_error&)` does not catch `out_of_range`.
* The recursive-descent parser is not structurally recursive, so parser
  functions take a fuel argument; `fuelOut` is an artifact of the
  embedding, distinct from every exception outcome.
-/

set_option maxHeartbeats 1000000

namespace CtoPy

/-- `l` occurs as a contiguous run inside the second list (substring
test on character lists). -/
def listIsInfix (needle : List Char) : List Char → Bool
  | [] => needle.isPrefixOf []
  | c :: rest => needle.isPrefixOf (c :: rest) || listIsInfix needle rest

/-- Substring test: `needle` occurs in `hay` (used to state claims about
generated output text). -/
def occurs (needle hay : String) : Bool :=
  listIsInfix needle.toList hay.toList

/-- `s` ends with the character `c` (all suffix tests in the C++ are
single-character). -/
def strEndsWith (s : String) (c : Char) : Bool :=
  s.toList.getLast? = some c

/-- `s` starts with the character `c` (all prefix tests in the C++ are
single-character: `rfind(c, 0) == 0` / one-character `substr`
comparisons). -/
def strStartsWith (s : String) (c : Char) : Bool :=
  s.toList.head? = some c

/-- Split a character list at every separator satisfying `p` (the
separators are dropped; `n` separators yield `n + 1` groups). -/
def splitCharsP (p : Char → Bool) : List Char → List (List Char)
  | [] => [[]]
  | c :: rest =>
    let r := splitCharsP p rest
    if p c then [] :: r
    else
      match r with
      | [] => [[c]]
      | g :: gs => (c :: g) :: gs

/-- Split a string on a separator character (same group structure as
`std::getline` scanning / `String.splitOn` with a one-character
separator). -/
def splitOnChar (s : String) (sep : Char) : List String :=
  (splitCharsP (fun c => c = sep) s.toList).map String.mk

/-- `std::isspace` (C locale, ASCII): space, \t, \n, \v, \f, \r. -/
def cIsSpace (c : Char) : Bool :=
  c = ' ' || c = '\t' || c = '\n' || c = '\x0b' || c = '\x0c' || c = '\r'

/-- `std::isdigit` (ASCII digits). -/
def cIsDigit (c : Char) : Bool := '0' ≤ c && c ≤ '9'

/-- `std::isalpha` (C locale, ASCII letters). -/
def cIsAlpha (c : Char) : Bool := ('a' ≤ c && c ≤ 'z') || ('A' ≤ c && c ≤ 'Z')

/-- `std::isalnum` (C locale, ASCII). -/
def cIsAlnum (c : Char) : Bool := cIsAlpha c || cIsDigit c

/-! ## Token model (src/Lexer.h) -/

/-- `enum class TokenType` of src/Lexer.h. -/
inductive TokenType where
  | Keyword | Identifier | IntegerNumber | FloatNumber
  | StringLiteral | CharLiteral | PreprocessorDirective
  | Operator | Symbol | EndOfFile | Error | Unknown | BooleanLiteral
  deriving DecidableEq, Repr

/-- `tokenTypeToString` of src/Lexer.cpp. -/
def tokenTypeToString : TokenType → String
  | .Keyword => "Keyword"
  | .Identifier => "Identifier"
  | .IntegerNumber => "IntegerNumber"
  | .FloatNumber => "FloatNumber"
  | .StringLiteral => "StringLiteral"
  | .CharLiteral => "CharLiteral"
  | .PreprocessorDirective => "PreprocessorDirective"
  | .Operator => "Operator"
  | .Symbol => "Symbol"
  | .EndOfFile => "EndOfFile"
  | .Error => "Error"
  | .BooleanLiteral => "BooleanLiteral"
  | .Unknown => "Unknown"

/-- `struct Token` of src/Lexer.h. -/
structure Token where
  type : TokenType := .Unknown
  value : String := ""
  line : Nat := 1
  col : Nat := 1
  deriving DecidableEq, Repr

/-- `Token::toString`. -/
def Token.toString (t : Token) : String :=
  tokenTypeToString t.type ++ ": " ++ t.value

/-- `struct MacroDefinition` of src/Lexer.h. -/
structure MacroDefinition where
  name : String := ""
  isFunctionLike : Bool := false
  parameters : List String := []
  body : String := ""
  line : Nat := 0
  valid : Bool := true
  deriving DecidableEq, Repr

/-! ## Lexer state and primitive operations (src/Lexer.cpp)

The C++ lexer holds `source`, `pos`, `line`, `col` and the accumulated
`m_definedMacros`.  We represent `source`/`pos` by the remaining suffix
`chars`; `peek_char_at k` is then `chars.getD k '\0'`. -/

structure LexState where
  chars : List Char
  line : Nat := 1
  col : Nat := 1
  macros : List MacroDefinition := []
  deriving Repr

namespace Lexer

/-- `Lexer::peek`. -/
def peek (st : LexState) : Char := st.chars.headD '\x00'

/-- `Lexer::peek_char_at`. -/
def peekAt (st : LexState) (off : Nat) : Char := st.chars.getD off '\x00'

/-- `Lexer::peek_next`. -/
def peekNext (st : LexState) : Char := peekAt st 1

/-- `Lexer::get`: consume one character, maintaining line/column. -/
def get (st : LexState) : Char × LexState :=
  match st.chars with
  | [] => ('\x00', st)
  | c :: rest =>
    if c = '\n' then
      (c, { st with chars := rest, line := st.line + 1, col := 1 })
    else
      (c, { st with chars := rest, col := st.col + 1 })

@[simp] theorem get_chars_nil (st : LexState) (h : st.chars = []) :
    (get st).2 = st := by simp [get, h]

theorem get_chars_cons (st : LexState) (c : Char) (rest : List Char)
    (h : st.chars = c :: rest) : (get st).2.chars = rest := by
  rcases st with ⟨chars, line, col, macros⟩
  simp only at h
  subst h
  simp only [get]
  split <;> rfl

theorem get_length_le (st : LexState) :
    (get st).2.chars.length ≤ st.chars.length := by
  rcases st with ⟨chars, line, col, macros⟩
  cases chars with
  | nil => simp [get]
  | cons c rest =>
    have := get_chars_cons ⟨c :: rest, line, col, macros⟩ c rest rfl
    simp [this]

theorem get_length_lt (st : LexState) (h : st.chars ≠ []) :
    (get st).2.chars.length < st.chars.length := by
  rcases st with ⟨chars, line, col, macros⟩
  cases chars with
  | nil => simp at h
  | cons c rest =>
    have := get_chars_cons ⟨c :: rest, line, col, macros⟩ c rest rfl
    simp [this]

theorem chars_ne_nil_of_peek {st : LexState} (h : peek st ≠ '\x00') :
    st.chars ≠ [] := by
  intro hnil
  simp [peek, hnil] at h

theorem get_lt_of_peek {st : LexState} (h : peek st ≠ '\x00') :
    (get st).2.chars.length < st.chars.length :=
  get_length_lt st (chars_ne_nil_of_peek h)

/-!
Each scanning loop of the C++ lexer consumes one or two characters per
iteration from the front of the remaining input.  Such a loop is embedded
by structural recursion on a copy of the remaining character list
(invoked as `...Go st.chars st`): the list drives the recursion while the
`LexState` is consumed with `get` exactly as the C++ loop body does, so
at every call the head of the list is `peek st` and the list after a
`get` is the state's `chars`.  The three loops whose single iteration can
consume an unbounded amount of input (the `,` branch of the macro
parameter list skips whitespace; the whitespace/comment/directive skip
phase; the `tokenize` loop itself) instead take `chars.length + 1` as
fuel; the accompanying `..._irrel` lemmas prove the fuel is immaterial as
long as it exceeds the input length, i.e. the fuelled embedding computes
what the unbounded C++ loop computes.
-/

/-- The loop of `Lexer::skipWhitespace`. -/
def skipWhitespaceGo : List Char → LexState → LexState
  | [], st => st
  | c :: rest, st =>
    if cIsSpace c then skipWhitespaceGo rest (get st).2 else st

/-- `Lexer::skipWhitespace`. -/
def skipWhitespace (st : LexState) : LexState := skipWhitespaceGo st.chars st

theorem skipWhitespaceGo_le (l : List Char) : ∀ st : LexState,
    (skipWhitespaceGo l st).chars.length ≤ st.chars.length := by
  induction l with
  | nil => intro st; exact le_refl _
  | cons c rest ih =>
    intro st
    unfold skipWhitespaceGo
    split
    · exact le_trans (ih (get st).2) (get_length_le st)
    · exact le_refl _

theorem skipWhitespace_length_le (st : LexState) :
    (skipWhitespace st).chars.length ≤ st.chars.length :=
  skipWhitespaceGo_le st.chars st

/-- The scan-to-end-of-line loop inside `Lexer::skipSingleLineComment`
(`while (peek() != '\n' && peek() != '\0') get();`). -/
def skipToLineEndGo : List Char → LexState → LexState
  | [], st => st
  | c :: rest, st =>
    if c ≠ '\n' ∧ c ≠ '\x00' then skipToLineEndGo rest (get st).2 else st

def skipToLineEnd (st : LexState) : LexState := skipToLineEndGo st.chars st

theorem skipToLineEndGo_le (l : List Char) : ∀ st : LexState,
    (skipToLineEndGo l st).chars.length ≤ st.chars.length := by
  induction l with
  | nil => intro st; exact le_refl _
  | cons c rest ih =>
    intro st
    unfold skipToLineEndGo
    split
    · exact le_trans (ih (get st).2) (get_length_le st)
    · exact le_refl _

theorem skipToLineEnd_le (st : LexState) :
    (skipToLineEnd st).chars.length ≤ st.chars.length :=
  skipToLineEndGo_le st.chars st

/-- `Lexer::skipSingleLineComment`. -/
def skipSingleLineComment (st : LexState) : LexState :=
  let st1 := (get (get st).2).2
  let st2 := skipToLineEnd st1
  if peek st2 = '\n' then (get st2).2 else st2

theorem skipSingleLineComment_le (st : LexState) :
    (skipSingleLineComment st).chars.length ≤ st.chars.length := by
  unfold skipSingleLineComment
  dsimp only
  have h1 : (skipToLineEnd (get (get st).2).2).chars.length ≤
      st.chars.length :=
    le_trans (skipToLineEnd_le _)
      (le_trans (get_length_le _) (get_length_le st))
  split
  · exact le_trans (get_length_le _) h1
  · exact h1

theorem skipSingleLineComment_lt (st : LexState) (h : st.chars ≠ []) :
    (skipSingleLineComment st).chars.length < st.chars.length := by
  unfold skipSingleLineComment
  dsimp only
  have h1 : (skipToLineEnd (get (get st).2).2).chars.length <
      st.chars.length :=
    lt_of_le_of_lt (le_trans (skipToLineEnd_le _) (get_length_le _))
      (get_length_lt st h)
  split
  · exact lt_of_le_of_lt (get_length_le _) h1
  · exact h1

/-- The body loop of `Lexer::skipMultiLineComment` (scan for the closing
delimiter, tolerating an unterminated comment). -/
def skipMultiBodyGo : List Char → LexState → LexState
  | [], st => st
  | c :: rest, st =>
    if c = '\x00' then st
    else if c = '*' ∧ peekNext st = '/' then (get (get st).2).2
    else skipMultiBodyGo rest (get st).2

/-- `Lexer::skipMultiLineComment`. -/
def skipMultiLineComment (st : LexState) : LexState :=
  skipMultiBodyGo (get (get st).2).2.chars (get (get st).2).2

theorem skipMultiBodyGo_le (l : List Char) : ∀ st : LexState,
    (skipMultiBodyGo l st).chars.length ≤ st.chars.length := by
  induction l with
  | nil => intro st; exact le_refl _
  | cons c rest ih =>
    intro st
    unfold skipMultiBodyGo
    split
    · exact le_refl _
    · split
      · exact le_trans (get_length_le _) (get_length_le st)
      · exact le_trans (ih (get st).2) (get_length_le st)

theorem skipMultiLineComment_le (st : LexState) :
    (skipMultiLineComment st).chars.length ≤ st.chars.length := by
  unfold skipMultiLineComment
  exact le_trans (skipMultiBodyGo_le _ _)
    (le_trans (get_length_le _) (get_length_le st))

theorem skipMultiLineComment_lt (st : LexState) (h : st.chars ≠ []) :
    (skipMultiLineComment st).chars.length < st.chars.length := by
  unfold skipMultiLineComment
  exact lt_of_le_of_lt (le_trans (skipMultiBodyGo_le _ _) (get_length_le _))
    (get_length_lt st h)

/-- Escape table of `Lexer::lexStringLiteral` (the `switch` on the char
after a backslash; an unrecognized escape passes the char through —
note: no `'0'` case and no single-quote case). -/
def stringEscapeChar (c : Char) : Char :=
  match c with
  | 'n' => '\n'
  | 't' => '\t'
  | '"' => '"'
  | '\\' => '\\'
  | 'r' => '\r'
  | 'b' => '\x08'
  | 'f' => '\x0c'
  | other => other

/-- Escape table of `Lexer::lexCharacterLiteral` (differs from the string
table: single quote instead of double quote; also no `'0'` case). -/
def charEscapeChar (c : Char) : Char :=
  match c with
  | 'n' => '\n'
  | 't' => '\t'
  | '\'' => '\''
  | '\\' => '\\'
  | 'r' => '\r'
  | 'b' => '\x08'
  | 'f' => '\x0c'
  | other => other

/-- The scanning loop of `Lexer::lexStringLiteral` (opening quote already
consumed; `sl`/`sc` are the token's recorded start position).  The loop
runs while `peek()` is neither `'"'` nor `'\0'`; a backslash consumes the
following character through the escape table.  In the one-element arm the
character after a backslash is `'\0'` (end of input), so only the
unterminated-escape branch remains. -/
def lexStringBodyGo : List Char → LexState → Nat → Nat → String →
    Token × LexState
  | [], st, sl, sc, value =>
    (⟨.Error, "Unterminated string literal: \"" ++ value, sl, sc⟩, st)
  | c :: [], st, sl, sc, value =>
    if c = '"' then (⟨.StringLiteral, value, sl, sc⟩, (get st).2)
    else if c = '\x00' then
      (⟨.Error, "Unterminated string literal: \"" ++ value, sl, sc⟩, st)
    else if c = '\\' then
      (⟨.Error, "Unterminated escape sequence in string literal: \"" ++
        value, sl, sc⟩, (get st).2)
    else lexStringBodyGo [] (get st).2 sl sc (value.push c)
  | c :: e :: rest2, st, sl, sc, value =>
    if c = '"' then (⟨.StringLiteral, value, sl, sc⟩, (get st).2)
    else if c = '\x00' then
      (⟨.Error, "Unterminated string literal: \"" ++ value, sl, sc⟩, st)
    else if c = '\\' then
      if e = '\x00' then
        (⟨.Error, "Unterminated escape sequence in string literal: \"" ++
          value, sl, sc⟩, (get st).2)
      else
        lexStringBodyGo rest2 (get (get st).2).2 sl sc
          (value.push (stringEscapeChar e))
    else lexStringBodyGo (e :: rest2) (get st).2 sl sc (value.push c)

/-- `Lexer::lexStringLiteral`. -/
def lexStringLiteral (st : LexState) : Token × LexState :=
  let st1 := (get st).2
  lexStringBodyGo st1.chars st1 st.line st.col ""

theorem lexStringBodyGo_le_aux : ∀ (n : Nat) (l : List Char),
    l.length ≤ n → ∀ (st : LexState) (sl sc : Nat) (value : String),
    (lexStringBodyGo l st sl sc value).2.chars.length ≤ st.chars.length := by
  intro n
  induction n with
  | zero =>
    intro l hl st sl sc value
    have hnil : l = [] := List.length_eq_zero.mp (Nat.le_zero.mp hl)
    subst hnil
    exact le_refl _
  | succ n ih =>
    intro l hl st sl sc value
    rcases l with _ | ⟨c, _ | ⟨e, rest2⟩⟩
    · exact le_refl _
    · unfold lexStringBodyGo
      split
      · exact get_length_le st
      · split
        · exact le_refl _
        · split
          · exact get_length_le st
          · exact le_trans (ih [] (by simp) _ sl sc _) (get_length_le st)
    · unfold lexStringBodyGo
      simp only [List.length_cons] at hl
      split
      · exact get_length_le st
      · split
        · exact le_refl _
        · split
          · split
            · exact get_length_le st
            · exact le_trans (ih rest2 (by omega) _ sl sc _)
                (le_trans (get_length_le _) (get_length_le st))
          · exact le_trans (ih (e :: rest2) (by simp; omega) _ sl sc _)
              (get_length_le st)

theorem lexStringBodyGo_le (l : List Char) (st : LexState) (sl sc : Nat)
    (value : String) :
    (lexStringBodyGo l st sl sc value).2.chars.length ≤ st.chars.length :=
  lexStringBodyGo_le_aux l.length l (le_refl _) st sl sc value

theorem lexStringLiteral_lt (st : LexState) (h : st.chars ≠ []) :
    (lexStringLiteral st).2.chars.length < st.chars.length := by
  unfold lexStringLiteral
  exact lt_of_le_of_lt (lexStringBodyGo_le _ _ _ _ _) (get_length_lt st h)

/-- The scan-ahead loop of `Lexer::lexCharacterLiteral` (searching for the
closing quote after the first character). -/
def lexCharRestGo : List Char → LexState → String → String × LexState
  | [], st, acc => (acc, st)
  | c :: rest, st, acc =>
    if c ≠ '\'' ∧ c ≠ '\x00' ∧ c ≠ '\n' then
      lexCharRestGo rest (get st).2 (acc.push c)
    else (acc, st)

def lexCharRest (st : LexState) (acc : String) : String × LexState :=
  lexCharRestGo st.chars st acc

theorem lexCharRestGo_le (l : List Char) : ∀ (st : LexState) (acc : String),
    (lexCharRestGo l st acc).2.chars.length ≤ st.chars.length := by
  induction l with
  | nil => intro st acc; exact le_refl _
  | cons c rest ih =>
    intro st acc
    unfold lexCharRestGo
    split
    · exact le_trans (ih (get st).2 _) (get_length_le st)
    · exact le_refl _

theorem lexCharRest_le (st : LexState) (acc : String) :
    (lexCharRest st acc).2.chars.length ≤ st.chars.length :=
  lexCharRestGo_le st.chars st acc

/-- Closing-quote handling of `Lexer::lexCharacterLiteral` after the first
(possibly escaped) character has been read into `value`. -/
def lexCharClose (st : LexState) (sl sc : Nat) (value : String) :
    Token × LexState :=
  if peek st = '\'' then
    (⟨.CharLiteral, value, sl, sc⟩, (get st).2)
  else
    let r := lexCharRest st ""
    if peek r.2 = '\'' then
      (⟨.CharLiteral, value ++ r.1, sl, sc⟩, (get r.2).2)
    else
      (⟨.Error, "Unterminated character literal: '" ++ value ++ r.1, sl, sc⟩,
        r.2)

theorem lexCharClose_le (st : LexState) (sl sc : Nat) (value : String) :
    (lexCharClose st sl sc value).2.chars.length ≤ st.chars.length := by
  unfold lexCharClose
  dsimp only
  repeat' split
  all_goals
    first
    | exact get_length_le st
    | exact le_trans (get_length_le _) (lexCharRest_le st "")
    | exact lexCharRest_le st ""

/-- `Lexer::lexCharacterLiteral`. -/
def lexCharacterLiteral (st0 : LexState) : Token × LexState :=
  let sl := st0.line
  let sc := st0.col
  let st := (get st0).2
  if peek st = '\'' then
    (⟨.Error, "Empty character literal", sl, sc⟩, (get st).2)
  else if peek st = '\x00' then
    (⟨.Error, "Unterminated character literal (EOF after ')", sl, sc⟩, st)
  else if peek st = '\\' then
    let st1 := (get st).2
    let e := peek st1
    if e = '\x00' then
      (⟨.Error, "Unterminated escape sequence in char literal", sl, sc⟩, st1)
    else
      lexCharClose (get st1).2 sl sc (String.singleton (charEscapeChar e))
  else
    lexCharClose (get st).2 sl sc (String.singleton (peek st))

theorem lexCharacterLiteral_lt (st : LexState) (h : st.chars ≠ []) :
    (lexCharacterLiteral st).2.chars.length < st.chars.length := by
  unfold lexCharacterLiteral
  dsimp only
  have hg : (get st).2.chars.length < st.chars.length := get_length_lt st h
  repeat' split
  all_goals
    first
    | exact hg
    | exact lt_of_le_of_lt (get_length_le _) hg
    | exact lt_of_le_of_lt
        (le_trans (lexCharClose_le _ _ _ _)
          (le_trans (get_length_le _) (get_length_le _))) hg
    | exact lt_of_le_of_lt
        (le_trans (lexCharClose_le _ _ _ _) (get_length_le _)) hg

theorem peek_ne_null_of_digit {st : LexState} (h : cIsDigit (peek st)) :
    peek st ≠ '\x00' := by
  intro hz
  rw [hz] at h
  simp [cIsDigit] at h

/-- Digit-run loop (`while (isdigit(peek())) num_str += get();`). -/
def takeDigitsGo : List Char → LexState → String → String × LexState
  | [], st, acc => (acc, st)
  | c :: rest, st, acc =>
    if cIsDigit c then takeDigitsGo rest (get st).2 (acc.push c)
    else (acc, st)

def takeDigits (st : LexState) (acc : String) : String × LexState :=
  takeDigitsGo st.chars st acc

theorem takeDigitsGo_le (l : List Char) : ∀ (st : LexState) (acc : String),
    (takeDigitsGo l st acc).2.chars.length ≤ st.chars.length := by
  induction l with
  | nil => intro st acc; exact le_refl _
  | cons c rest ih =>
    intro st acc
    unfold takeDigitsGo
    split
    · exact le_trans (ih (get st).2 _) (get_length_le st)
    · exact le_refl _

theorem takeDigits_le (st : LexState) (acc : String) :
    (takeDigits st acc).2.chars.length ≤ st.chars.length :=
  takeDigitsGo_le st.chars st acc

theorem takeDigits_lt (st : LexState) (acc : String)
    (h : cIsDigit (peek st)) :
    (takeDigits st acc).2.chars.length < st.chars.length := by
  have hne : st.chars ≠ [] := chars_ne_nil_of_peek (peek_ne_null_of_digit h)
  have hglt := get_length_lt st hne
  unfold takeDigits
  rcases hch : st.chars with _ | ⟨c, rest⟩
  · exact absurd hch hne
  · have hc : cIsDigit c := by
      simp only [peek, hch, List.headD_cons] at h
      exact h
    unfold takeDigitsGo
    rw [if_pos hc]
    rw [hch] at hglt
    exact lt_of_le_of_lt (takeDigitsGo_le _ _ _) hglt

/-- Final classification of `Lexer::lexNumber` (the error guard and the
float/integer decision at the end of the function). -/
def finishNumber (numStr : String) (isFloat : Bool) (sl sc : Nat)
    (st : LexState) : Token × LexState :=
  if numStr = "" ∨ (numStr = "." ∧ isFloat = false) then
    (⟨.Error, "Invalid number tokenization state", sl, sc⟩, st)
  else if isFloat then (⟨.FloatNumber, numStr, sl, sc⟩, st)
  else (⟨.IntegerNumber, numStr, sl, sc⟩, st)

@[simp] theorem finishNumber_state (numStr : String) (isFloat : Bool)
    (sl sc : Nat) (st : LexState) :
    (finishNumber numStr isFloat sl sc st).2 = st := by
  unfold finishNumber
  split
  · rfl
  · split <;> rfl

/-- Part 3 (exponent) of `Lexer::lexNumber`. -/
def lexNumberExponent (st : LexState) (sl sc : Nat) (numStr : String)
    (isFloat : Bool) : Token × LexState :=
  if peek st = 'e' ∨ peek st = 'E' then
    let cAfterE := peekNext st
    let validExp := cIsDigit cAfterE ||
      ((cAfterE = '+' || cAfterE = '-') && cIsDigit (peekAt st 2))
    if validExp then
      let st1 := (get st).2
      let ns := numStr.push (peek st)
      let sr : String × LexState :=
        if peek st1 = '+' ∨ peek st1 = '-' then
          (ns.push (peek st1), (get st1).2)
        else (ns, st1)
      if ¬ cIsDigit (peek sr.2) then
        (⟨.Error, "Malformed exponent in number (expected digits): " ++ sr.1,
          sl, sc⟩, sr.2)
      else
        let dr := takeDigits sr.2 sr.1
        finishNumber dr.1 true sl sc dr.2
    else finishNumber numStr isFloat sl sc st
  else finishNumber numStr isFloat sl sc st

theorem lexNumberExponent_le (st : LexState) (sl sc : Nat) (numStr : String)
    (isFloat : Bool) :
    (lexNumberExponent st sl sc numStr isFloat).2.chars.length ≤
      st.chars.length := by
  unfold lexNumberExponent
  dsimp only
  repeat' split
  all_goals try simp only [finishNumber_state]
  all_goals
    first
    | exact le_refl _
    | exact get_length_le st
    | exact le_trans (get_length_le _) (get_length_le st)
    | exact le_trans (takeDigits_le _ _) (get_length_le st)
    | exact le_trans (takeDigits_le _ _)
        (le_trans (get_length_le _) (get_length_le st))

/-- `Lexer::lexNumber`. -/
def lexNumber (st : LexState) : Token × LexState :=
  let sl := st.line
  let sc := st.col
  if peek st = '.' then
    let d1 := (get st).1
    let st1 := (get st).2
    let dr := takeDigits st1 (String.singleton d1)
    lexNumberExponent dr.2 sl sc dr.1 true
  else
    let dr := takeDigits st ""
    let st1 := dr.2
    if peek st1 = '.' then
      let dotPart : Bool :=
        if cIsDigit (peekNext st1) then true
        else
          let cAfterDot := peekNext st1
          if cAfterDot = 'e' ∨ cAfterDot = 'E' then
            let expCh := peekAt st1 2
            let signOrDigit :=
              if expCh = '+' ∨ expCh = '-' then peekAt st1 3 else expCh
            cIsDigit signOrDigit
          else false
      if dotPart then
        let d := (get st1).1
        let st2 := (get st1).2
        let dr2 := takeDigits st2 (dr.1.push d)
        lexNumberExponent dr2.2 sl sc dr2.1 true
      else
        (⟨.IntegerNumber, dr.1, sl, sc⟩, st1)
    else
      lexNumberExponent st1 sl sc dr.1 false

theorem lexNumber_lt (st : LexState)
    (h : cIsDigit (peek st) ∨ (peek st = '.' ∧ cIsDigit (peekNext st))) :
    (lexNumber st).2.chars.length < st.chars.length := by
  have hne : peek st ≠ '\x00' := by
    rcases h with h | h
    · exact peek_ne_null_of_digit h
    · rw [h.1]
      decide
  unfold lexNumber
  dsimp only
  split
  · exact lt_of_le_of_lt
      (le_trans (lexNumberExponent_le _ _ _ _ _) (takeDigits_le _ _))
      (get_lt_of_peek hne)
  · rename_i hdot
    have hdig : cIsDigit (peek st) := by
      rcases h with h | h
      · exact h
      · exact absurd h.1 hdot
    have hstrict : (takeDigits st "").2.chars.length < st.chars.length :=
      takeDigits_lt st "" hdig
    repeat' split
    all_goals
      first
      | exact hstrict
      | exact lt_of_le_of_lt
          (le_trans (lexNumberExponent_le _ _ _ _ _)
            (le_trans (takeDigits_le _ _) (get_length_le _))) hstrict
      | exact lt_of_le_of_lt (lexNumberExponent_le _ _ _ _ _) hstrict

/-- `trimWhitespace` helper of src/Lexer.cpp: drop leading and trailing
`isspace` characters (empty when nothing remains). -/
def trimWhitespace (s : String) : String :=
  String.mk
    (((s.toList.dropWhile (fun c => cIsSpace c)).reverse.dropWhile
      (fun c => cIsSpace c)).reverse)

/-- `while (isalnum(peek())) name += get();` (directive-name loop). -/
def takeAlnumGo : List Char → LexState → String → String × LexState
  | [], st, acc => (acc, st)
  | c :: rest, st, acc =>
    if cIsAlnum c then takeAlnumGo rest (get st).2 (acc.push c)
    else (acc, st)

def takeAlnum (st : LexState) (acc : String) : String × LexState :=
  takeAlnumGo st.chars st acc

theorem takeAlnumGo_le (l : List Char) : ∀ (st : LexState) (acc : String),
    (takeAlnumGo l st acc).2.chars.length ≤ st.chars.length := by
  induction l with
  | nil => intro st acc; exact le_refl _
  | cons c rest ih =>
    intro st acc
    unfold takeAlnumGo
    split
    · exact le_trans (ih (get st).2 _) (get_length_le st)
    · exact le_refl _

theorem takeAlnum_le (st : LexState) (acc : String) :
    (takeAlnum st acc).2.chars.length ≤ st.chars.length :=
  takeAlnumGo_le st.chars st acc

theorem peek_ne_null_of_name {st : LexState}
    (h : cIsAlnum (peek st) || peek st = '_') : peek st ≠ '\x00' := by
  intro hz
  rw [hz] at h
  simp [cIsAlnum, cIsAlpha, cIsDigit] at h

/-- `while (isalnum(peek()) || peek() == '_') value += get();`
(macro-name and identifier loop). -/
def takeNameCharsGo : List Char → LexState → String → String × LexState
  | [], st, acc => (acc, st)
  | c :: rest, st, acc =>
    if cIsAlnum c || c = '_' then
      takeNameCharsGo rest (get st).2 (acc.push c)
    else (acc, st)

def takeNameChars (st : LexState) (acc : String) : String × LexState :=
  takeNameCharsGo st.chars st acc

theorem takeNameCharsGo_le (l : List Char) :
    ∀ (st : LexState) (acc : String),
    (takeNameCharsGo l st acc).2.chars.length ≤ st.chars.length := by
  induction l with
  | nil => intro st acc; exact le_refl _
  | cons c rest ih =>
    intro st acc
    unfold takeNameCharsGo
    split
    · exact le_trans (ih (get st).2 _) (get_length_le st)
    · exact le_refl _

theorem takeNameChars_le (st : LexState) (acc : String) :
    (takeNameChars st acc).2.chars.length ≤ st.chars.length :=
  takeNameCharsGo_le st.chars st acc

theorem takeNameChars_lt (st : LexState) (acc : String)
    (h : cIsAlnum (peek st) || peek st = '_') :
    (takeNameChars st acc).2.chars.length < st.chars.length := by
  have hne : st.chars ≠ [] := chars_ne_nil_of_peek (peek_ne_null_of_name h)
  have hglt := get_length_lt st hne
  unfold takeNameChars
  rcases hch : st.chars with _ | ⟨c, rest⟩
  · exact absurd hch hne
  · have hc : (cIsAlnum c || c = '_') = true := by
      simp only [peek, hch, List.headD_cons] at h
      exact h
    unfold takeNameCharsGo
    rw [if_pos hc]
    rw [hch] at hglt
    exact lt_of_le_of_lt (takeNameCharsGo_le _ _ _) hglt

/-- The parameter-list loop of `Lexer::processPreprocessorDirective`
(inside the function-like `#define` branch).  Mirrors the C++ loop
`while (peek() != '\0') { ... }` with its `break`s on `)` and newline.
The `,` branch skips whitespace (an unbounded amount) before the next
iteration, so this loop is fuelled; `macroParamsFuel_irrel` shows the
fuel is immaterial once it exceeds the remaining input length. -/
def macroParamsFuel : Nat → LexState → MacroDefinition → String →
    MacroDefinition × LexState
  | 0, st, m, _ => (m, st)
  | fuel + 1, st, m, buf =>
    if peek st = '\x00' then (m, st)
    else if peek st = ')' then
      (if buf ≠ "" then
          { m with parameters := m.parameters ++ [trimWhitespace buf] }
        else m, st)
    else if peek st = ',' then
      let m1 :=
        if buf ≠ "" then
          { m with parameters := m.parameters ++ [trimWhitespace buf] }
        else { m with valid := false }
      macroParamsFuel fuel (skipWhitespace (get st).2) m1 ""
    else if peek st = '\\' ∧ peekNext st = '\n' then
      macroParamsFuel fuel (get (get st).2).2 m ((buf.push (peek st)).push '\n')
    else if peek st = '\n' then ({ m with valid := false }, st)
    else macroParamsFuel fuel (get st).2 m (buf.push (peek st))

def macroParams (st : LexState) (m : MacroDefinition) (buf : String) :
    MacroDefinition × LexState :=
  macroParamsFuel (st.chars.length + 1) st m buf

theorem macroParamsFuel_le : ∀ (fuel : Nat) (st : LexState)
    (m : MacroDefinition) (buf : String),
    (macroParamsFuel fuel st m buf).2.chars.length ≤ st.chars.length := by
  intro fuel
  induction fuel with
  | zero => intro st m buf; exact le_refl _
  | succ fuel ih =>
    intro st m buf
    unfold macroParamsFuel
    repeat' split
    all_goals
      first
      | exact le_refl _
      | exact le_trans (ih _ _ _)
          (le_trans (skipWhitespace_length_le _) (get_length_le st))
      | exact le_trans (ih _ _ _)
          (le_trans (get_length_le _) (get_length_le st))
      | exact le_trans (ih _ _ _) (get_length_le st)

theorem macroParams_le (st : LexState) (m : MacroDefinition) (buf : String) :
    (macroParams st m buf).2.chars.length ≤ st.chars.length :=
  macroParamsFuel_le _ st m buf

/-- Every iteration of the C++ parameter-list loop strictly consumes
input, so any fuel exceeding the input length computes the fixpoint the
unbounded loop computes. -/
theorem macroParamsFuel_irrel : ∀ (n : Nat) (st : LexState),
    st.chars.length ≤ n →
    ∀ (f g : Nat) (m : MacroDefinition) (buf : String),
    st.chars.length < f → st.chars.length < g →
    macroParamsFuel f st m buf = macroParamsFuel g st m buf := by
  intro n
  induction n with
  | zero =>
    intro st hle f g m buf hf hg
    obtain ⟨f1, rfl⟩ : ∃ f1, f = f1 + 1 := ⟨f - 1, by omega⟩
    obtain ⟨g1, rfl⟩ : ∃ g1, g = g1 + 1 := ⟨g - 1, by omega⟩
    have hnil : st.chars = [] := List.length_eq_zero.mp (Nat.le_zero.mp hle)
    have hp : peek st = '\x00' := by simp [peek, hnil]
    unfold macroParamsFuel
    rw [if_pos hp, if_pos hp]
  | succ n ih =>
    intro st hle f g m buf hf hg
    obtain ⟨f1, rfl⟩ : ∃ f1, f = f1 + 1 := ⟨f - 1, by omega⟩
    obtain ⟨g1, rfl⟩ : ∃ g1, g = g1 + 1 := ⟨g - 1, by omega⟩
    unfold macroParamsFuel
    by_cases h0 : peek st = '\x00'
    · rw [if_pos h0, if_pos h0]
    · rw [if_neg h0, if_neg h0]
      have hglt := get_length_lt st (chars_ne_nil_of_peek h0)
      by_cases h1 : peek st = ')'
      · rw [if_pos h1, if_pos h1]
      · rw [if_neg h1, if_neg h1]
        by_cases h2 : peek st = ','
        · rw [if_pos h2, if_pos h2]
          dsimp only
          have hsw := skipWhitespace_length_le (get st).2
          exact ih _ (by omega) f1 g1 _ "" (by omega) (by omega)
        · rw [if_neg h2, if_neg h2]
          by_cases h3 : peek st = '\\' ∧ peekNext st = '\n'
          · rw [if_pos h3, if_pos h3]
            have hgg := get_length_le (get st).2
            exact ih _ (by omega) f1 g1 m _ (by omega) (by omega)
          · rw [if_neg h3, if_neg h3]
            by_cases h4 : peek st = '\n'
            · rw [if_pos h4, if_pos h4]
            · rw [if_neg h4, if_neg h4]
              exact ih _ (by omega) f1 g1 m _ (by omega) (by omega)

/-- The function-like-macro header handling of
`Lexer::processPreprocessorDirective` (step 2: `(` after the name). -/
def macroAfterName (st : LexState) (m : MacroDefinition) :
    MacroDefinition × LexState :=
  if peek st = '(' then
    let m0 := { m with isFunctionLike := true }
    let st1 := skipWhitespace (get st).2
    let r := if peek st1 ≠ ')' then macroParams st1 m0 "" else (m0, st1)
    if peek r.2 = ')' then (r.1, (get r.2).2)
    else ({ r.1 with valid := false }, r.2)
  else (m, st)

theorem macroAfterName_le (st : LexState) (m : MacroDefinition) :
    (macroAfterName st m).2.chars.length ≤ st.chars.length := by
  unfold macroAfterName
  dsimp only
  repeat' split
  all_goals
    first
    | exact le_refl _
    | exact le_trans (get_length_le _)
        (le_trans (macroParams_le _ _ _)
          (le_trans (skipWhitespace_length_le _) (get_length_le st)))
    | exact le_trans (macroParams_le _ _ _)
        (le_trans (skipWhitespace_length_le _) (get_length_le st))
    | exact le_trans (get_length_le _)
        (le_trans (skipWhitespace_length_le _) (get_length_le st))
    | exact le_trans (skipWhitespace_length_le _) (get_length_le st)

/-- The macro-body loop of `Lexer::processPreprocessorDirective`
(step 3: rest of the logical line, backslash+newline folded to a space).
In the one-element arm the character after the head is `'\0'`, so the
backslash-newline test is necessarily false and only the remaining two
branches of the C++ loop body are replayed. -/
def macroBodyGo : List Char → LexState → String → String × LexState
  | [], st, acc => (acc, st)
  | c :: [], st, acc =>
    if c = '\x00' then (acc, st)
    else if c = '\n' then (acc, (get st).2)
    else macroBodyGo [] (get st).2 (acc.push c)
  | c :: e :: rest2, st, acc =>
    if c = '\x00' then (acc, st)
    else if c = '\\' ∧ e = '\n' then
      macroBodyGo rest2 (get (get st).2).2 (acc.push ' ')
    else if c = '\n' then (acc, (get st).2)
    else macroBodyGo (e :: rest2) (get st).2 (acc.push c)

def macroBody (st : LexState) (acc : String) : String × LexState :=
  macroBodyGo st.chars st acc

theorem macroBodyGo_le_aux : ∀ (n : Nat) (l : List Char), l.length ≤ n →
    ∀ (st : LexState) (acc : String),
    (macroBodyGo l st acc).2.chars.length ≤ st.chars.length := by
  intro n
  induction n with
  | zero =>
    intro l hl st acc
    have hnil : l = [] := List.length_eq_zero.mp (Nat.le_zero.mp hl)
    subst hnil
    exact le_refl _
  | succ n ih =>
    intro l hl st acc
    rcases l with _ | ⟨c, _ | ⟨e, rest2⟩⟩
    · exact le_refl _
    · unfold macroBodyGo
      split
      · exact le_refl _
      · split
        · exact get_length_le st
        · exact le_trans (ih [] (by simp) _ _) (get_length_le st)
    · unfold macroBodyGo
      simp only [List.length_cons] at hl
      split
      · exact le_refl _
      · split
        · exact le_trans (ih rest2 (by omega) _ _)
            (le_trans (get_length_le _) (get_length_le st))
        · split
          · exact get_length_le st
          · exact le_trans (ih (e :: rest2) (by simp; omega) _ _)
              (get_length_le st)

theorem macroBody_le (st : LexState) (acc : String) :
    (macroBody st acc).2.chars.length ≤ st.chars.length :=
  macroBodyGo_le_aux st.chars.length st.chars (le_refl _) st acc

/-- The skip-to-end-of-logical-line loop for directives other than
`define`.  In the one-element arm the character after the head is `'\0'`,
so the backslash-newline test is necessarily false. -/
def skipDirectiveLineGo : List Char → LexState → LexState
  | [], st => st
  | c :: [], st =>
    if c = '\x00' then st
    else if c = '\n' then (get st).2
    else skipDirectiveLineGo [] (get st).2
  | c :: e :: rest2, st =>
    if c = '\x00' then st
    else if c = '\\' ∧ e = '\n' then
      skipDirectiveLineGo rest2 (get (get st).2).2
    else if c = '\n' then (get st).2
    else skipDirectiveLineGo (e :: rest2) (get st).2

def skipDirectiveLine (st : LexState) : LexState :=
  skipDirectiveLineGo st.chars st

theorem skipDirectiveLineGo_le_aux : ∀ (n : Nat) (l : List Char),
    l.length ≤ n → ∀ st : LexState,
    (skipDirectiveLineGo l st).chars.length ≤ st.chars.length := by
  intro n
  induction n with
  | zero =>
    intro l hl st
    have hnil : l = [] := List.length_eq_zero.mp (Nat.le_zero.mp hl)
    subst hnil
    exact le_refl _
  | succ n ih =>
    intro l hl st
    rcases l with _ | ⟨c, _ | ⟨e, rest2⟩⟩
    · exact le_refl _
    · unfold skipDirectiveLineGo
      split
      · exact le_refl _
      · split
        · exact get_length_le st
        · exact le_trans (ih [] (by simp) _) (get_length_le st)
    · unfold skipDirectiveLineGo
      simp only [List.length_cons] at hl
      split
      · exact le_refl _
      · split
        · exact le_trans (ih rest2 (by omega) _)
            (le_trans (get_length_le _) (get_length_le st))
        · split
          · exact get_length_le st
          · exact le_trans (ih (e :: rest2) (by simp; omega) _)
              (get_length_le st)

theorem skipDirectiveLine_le (st : LexState) :
    (skipDirectiveLine st).chars.length ≤ st.chars.length :=
  skipDirectiveLineGo_le_aux st.chars.length st.chars (le_refl _) st

/-- Bad-macro-name recovery of `Lexer::processPreprocessorDirective`:
`while (peek() != '\n' && peek() != '\0') get(); if (peek() == '\n') get();` -/
def consumeRestOfLine (st : LexState) : LexState :=
  let st1 := skipToLineEnd st
  if peek st1 = '\n' then (get st1).2 else st1

theorem consumeRestOfLine_le (st : LexState) :
    (consumeRestOfLine st).chars.length ≤ st.chars.length := by
  unfold consumeRestOfLine
  dsimp only
  split
  · exact le_trans (get_length_le _) (skipToLineEnd_le st)
  · exact skipToLineEnd_le st

/-- The bad-macro-name branch of `Lexer::processPreprocessorDirective`
(`#define` followed by something that cannot start a name): an invalid
`MacroDefinition` is recorded and the rest of the line consumed. -/
def defineBadName (dLine : Nat) (st : LexState) : LexState :=
  let m : MacroDefinition := { line := dLine, valid := false }
  let st1 := consumeRestOfLine st
  { st1 with macros := st1.macros ++ [m] }

theorem defineBadName_le (dLine : Nat) (st : LexState) :
    (defineBadName dLine st).chars.length ≤ st.chars.length := by
  unfold defineBadName
  exact consumeRestOfLine_le st

/-- The good-macro-name branch of `Lexer::processPreprocessorDirective`:
name, optional parameter list, body; the macro is recorded only when
still `valid`. -/
def defineGoodName (dLine : Nat) (st : LexState) : LexState :=
  let nm := takeNameChars st ""
  let r := macroAfterName nm.2 { line := dLine, name := nm.1 }
  let st2 := skipWhitespace r.2
  let br := macroBody st2 ""
  let m0 := { r.1 with body := trimWhitespace br.1 }
  let m := if m0.name = "" then { m0 with valid := false } else m0
  if m.valid then { br.2 with macros := br.2.macros ++ [m] } else br.2

theorem defineGoodName_le (dLine : Nat) (st : LexState) :
    (defineGoodName dLine st).chars.length ≤ st.chars.length := by
  unfold defineGoodName
  have hch : (macroBody (skipWhitespace (macroAfterName (takeNameChars st "").2
      { line := dLine, name := (takeNameChars st "").1 }).2) "").2.chars.length ≤
      st.chars.length :=
    le_trans (macroBody_le _ _)
      (le_trans (skipWhitespace_length_le _)
        (le_trans (macroAfterName_le _ _) (takeNameChars_le _ _)))
  dsimp only
  repeat' split
  all_goals exact hch

/-- The `define` branch of `Lexer::processPreprocessorDirective`. -/
def defineDirective (dLine : Nat) (st0 : LexState) : LexState :=
  let st := skipWhitespace st0
  if ¬ (cIsAlpha (peek st) || peek st = '_') then defineBadName dLine st
  else defineGoodName dLine st

theorem defineDirective_le (dLine : Nat) (st : LexState) :
    (defineDirective dLine st).chars.length ≤ st.chars.length := by
  unfold defineDirective
  dsimp only
  split
  · exact le_trans (defineBadName_le _ _) (skipWhitespace_length_le st)
  · exact le_trans (defineGoodName_le _ _) (skipWhitespace_length_le st)

/-- `Lexer::processPreprocessorDirective`.  Note the asymmetry that claim
C1 is about: only the bad-macro-name branch appends the invalid
`MacroDefinition` to the macro list; every later failure (`valid = false`)
causes the macro to be skipped entirely. -/
def processPreprocessorDirective (st0 : LexState) : LexState :=
  let dLine := st0.line
  let st := skipWhitespace (get st0).2
  let nr := takeAlnum st ""
  if nr.1 = "define" then defineDirective dLine nr.2
  else skipDirectiveLine nr.2

theorem processPreprocessorDirective_le (st : LexState) :
    (processPreprocessorDirective st).chars.length ≤ st.chars.length := by
  unfold processPreprocessorDirective
  have h0 : ((takeAlnum (skipWhitespace (get st).2) "").2).chars.length ≤
      st.chars.length :=
    le_trans (takeAlnum_le _ _)
      (le_trans (skipWhitespace_length_le _) (get_length_le st))
  dsimp only
  split
  · exact le_trans (defineDirective_le _ _) h0
  · exact le_trans (skipDirectiveLine_le _) h0

theorem processPreprocessorDirective_lt (st : LexState)
    (h : st.chars ≠ []) :
    (processPreprocessorDirective st).chars.length < st.chars.length := by
  unfold processPreprocessorDirective
  have h0 : ((takeAlnum (skipWhitespace (get st).2) "").2).chars.length <
      st.chars.length :=
    lt_of_le_of_lt
      (le_trans (takeAlnum_le _ _) (skipWhitespace_length_le _))
      (get_length_lt st h)
  dsimp only
  split
  · exact lt_of_le_of_lt (defineDirective_le _ _) h0
  · exact lt_of_le_of_lt (skipDirectiveLine_le _) h0

/-- Consume `n` characters (used for the 1/2/3-character operator forms). -/
def adv (st : LexState) : Nat → LexState
  | 0 => st
  | n + 1 => adv (get st).2 n

theorem adv_le (n : Nat) : ∀ st : LexState,
    (adv st n).chars.length ≤ st.chars.length := by
  induction n with
  | zero => intro st; exact le_refl _
  | succ n ih =>
    intro st
    exact le_trans (ih (get st).2) (get_length_le st)

theorem adv_lt (st : LexState) (n : Nat) (h : st.chars ≠ []) :
    (adv st (n + 1)).chars.length < st.chars.length :=
  lt_of_le_of_lt (adv_le n (get st).2) (get_length_lt st h)

/-- The three-character operator forms of `Lexer::tryLexOperator`. -/
def threeCharOps : List String := ["...", "<<=", ">>="]

/-- The two-character operator forms of `Lexer::tryLexOperator`, in source
order (they are mutually exclusive, so the order is immaterial). -/
def twoCharOps : List String :=
  ["==", "!=", "<=", ">=", "+=", "-=", "*=", "/=", "%=", "&&", "||", "->",
   "++", "--", "<<", ">>", "&=", "|=", "^=", ".*", "::"]

/-- The single-character operators of `Lexer::tryLexOperator`. -/
def singleCharOps : List Char :=
  ['+', '-', '*', '/', '%', '=', '!', '<', '>', '&', '|', '^', '~', '.',
   '?', ':']

/-- `Lexer::tryLexOperator`: longest-match operator recognition
(3-character, then 2-character, then single-character); returns an
`Unknown` token without consuming anything when no operator matches.
The C++ cascade compares `op_str` (built from `peek()`/`peek_next()`)
and `peek_char_at(2)` against the fixed forms; since no operator form
contains `'\0'`, comparing the padded strings against the tables is
exactly the same cascade. -/
def tryLexOperator (st : LexState) : Token × LexState :=
  let sl := st.line
  let sc := st.col
  let c1 := peek st
  let c2 := peekNext st
  let c3 := peekAt st 2
  if String.mk [c1, c2, c3] ∈ threeCharOps then
    (⟨.Operator, String.mk [c1, c2, c3], sl, sc⟩, adv st 3)
  else if String.mk [c1, c2] ∈ twoCharOps then
    (⟨.Operator, String.mk [c1, c2], sl, sc⟩, adv st 2)
  else if c1 ∈ singleCharOps then
    (⟨.Operator, String.singleton c1, sl, sc⟩, adv st 1)
  else (⟨.Unknown, "", sl, sc⟩, st)

theorem ne_nil_of_mem3 {st : LexState}
    (h : String.mk [peek st, peekNext st, peekAt st 2] ∈ threeCharOps) :
    st.chars ≠ [] := by
  intro hnil
  simp only [peek, peekNext, peekAt, hnil, List.headD_nil, List.getD] at h
  exact absurd h (by decide)

theorem ne_nil_of_mem2 {st : LexState}
    (h : String.mk [peek st, peekNext st] ∈ twoCharOps) :
    st.chars ≠ [] := by
  intro hnil
  simp only [peek, peekNext, peekAt, hnil, List.headD_nil, List.getD] at h
  exact absurd h (by decide)

theorem ne_nil_of_mem1 {st : LexState} (h : peek st ∈ singleCharOps) :
    st.chars ≠ [] := by
  intro hnil
  simp only [peek, hnil, List.headD_nil] at h
  exact absurd h (by decide)

theorem tryLexOperator_cases (st : LexState) :
    ((tryLexOperator st).1.type = .Unknown ∧ (tryLexOperator st).2 = st) ∨
      (tryLexOperator st).2.chars.length < st.chars.length := by
  unfold tryLexOperator
  dsimp only
  repeat' split
  all_goals
    first
    | exact Or.inl ⟨rfl, rfl⟩
    | exact Or.inr (adv_lt st _ (ne_nil_of_mem3 (by assumption)))
    | exact Or.inr (adv_lt st _ (ne_nil_of_mem2 (by assumption)))
    | exact Or.inr (adv_lt st _ (ne_nil_of_mem1 (by assumption)))

/-- The fixed keyword table of `Lexer::nextToken`. -/
def keywords : List String :=
  ["auto", "break", "case", "char", "const", "continue", "default", "do",
   "double", "else", "enum", "extern", "float", "for", "goto", "if", "int",
   "long", "register", "return", "short", "signed", "sizeof", "static",
   "struct", "switch", "typedef", "union", "unsigned", "void", "volatile",
   "while", "bool", "true", "false"]

/-- The skipping loop at the top of `Lexer::nextToken`: whitespace,
preprocessor directives, `//` and `/* */` comments, repeated until none
applies.  A directive or comment can consume an unbounded amount of
input, so the loop is fuelled; `skipPhaseFuel_irrel` shows the fuel is
immaterial once it exceeds the remaining input length. -/
def skipPhaseFuel : Nat → LexState → LexState
  | 0, st => st
  | fuel + 1, st =>
    let st1 := skipWhitespace st
    if peek st1 = '#' then skipPhaseFuel fuel (processPreprocessorDirective st1)
    else if peek st1 = '/' ∧ peekNext st1 = '/' then
      skipPhaseFuel fuel (skipSingleLineComment st1)
    else if peek st1 = '/' ∧ peekNext st1 = '*' then
      skipPhaseFuel fuel (skipMultiLineComment st1)
    else st1

def skipPhase (st : LexState) : LexState :=
  skipPhaseFuel (st.chars.length + 1) st

theorem skipPhaseFuel_le : ∀ (fuel : Nat) (st : LexState),
    (skipPhaseFuel fuel st).chars.length ≤ st.chars.length := by
  intro fuel
  induction fuel with
  | zero => intro st; exact le_refl _
  | succ fuel ih =>
    intro st
    unfold skipPhaseFuel
    dsimp only
    repeat' split
    all_goals
      first
      | exact skipWhitespace_length_le st
      | exact le_trans (ih _)
          (le_trans (processPreprocessorDirective_le _)
            (skipWhitespace_length_le st))
      | exact le_trans (ih _)
          (le_trans (skipSingleLineComment_le _) (skipWhitespace_length_le st))
      | exact le_trans (ih _)
          (le_trans (skipMultiLineComment_le _) (skipWhitespace_length_le st))

theorem skipPhase_le (st : LexState) :
    (skipPhase st).chars.length ≤ st.chars.length :=
  skipPhaseFuel_le _ st

/-- Every iteration of the C++ skipping loop (a directive or a comment)
strictly consumes input, so any fuel exceeding the input length computes
the fixpoint the unbounded loop computes. -/
theorem skipPhaseFuel_irrel : ∀ (n : Nat) (st : LexState),
    st.chars.length ≤ n → ∀ (f g : Nat),
    st.chars.length < f → st.chars.length < g →
    skipPhaseFuel f st = skipPhaseFuel g st := by
  intro n
  induction n with
  | zero =>
    intro st hle f g hf hg
    obtain ⟨f1, rfl⟩ : ∃ f1, f = f1 + 1 := ⟨f - 1, by omega⟩
    obtain ⟨g1, rfl⟩ : ∃ g1, g = g1 + 1 := ⟨g - 1, by omega⟩
    have hnil : st.chars = [] := List.length_eq_zero.mp (Nat.le_zero.mp hle)
    have hsw : skipWhitespace st = st := by
      unfold skipWhitespace
      rw [hnil]
      rfl
    have hp : peek st = '\x00' := by simp [peek, hnil]
    unfold skipPhaseFuel
    dsimp only
    rw [hsw, hp]
    simp
  | succ n ih =>
    intro st hle f g hf hg
    obtain ⟨f1, rfl⟩ : ∃ f1, f = f1 + 1 := ⟨f - 1, by omega⟩
    obtain ⟨g1, rfl⟩ : ∃ g1, g = g1 + 1 := ⟨g - 1, by omega⟩
    unfold skipPhaseFuel
    dsimp only
    have hswle := skipWhitespace_length_le st
    by_cases h1 : peek (skipWhitespace st) = '#'
    · rw [if_pos h1, if_pos h1]
      have hlt : (processPreprocessorDirective
          (skipWhitespace st)).chars.length < st.chars.length :=
        lt_of_lt_of_le
          (processPreprocessorDirective_lt _
            (chars_ne_nil_of_peek (by rw [h1]; decide)))
          hswle
      exact ih _ (by omega) f1 g1 (by omega) (by omega)
    · rw [if_neg h1, if_neg h1]
      by_cases h2 : peek (skipWhitespace st) = '/' ∧
          peekNext (skipWhitespace st) = '/'
      · rw [if_pos h2, if_pos h2]
        have hlt : (skipSingleLineComment
            (skipWhitespace st)).chars.length < st.chars.length :=
          lt_of_lt_of_le
            (skipSingleLineComment_lt _
              (chars_ne_nil_of_peek (by rw [h2.1]; decide)))
            hswle
        exact ih _ (by omega) f1 g1 (by omega) (by omega)
      · rw [if_neg h2, if_neg h2]
        by_cases h3 : peek (skipWhitespace st) = '/' ∧
            peekNext (skipWhitespace st) = '*'
        · rw [if_pos h3, if_pos h3]
          have hlt : (skipMultiLineComment
              (skipWhitespace st)).chars.length < st.chars.length :=
            lt_of_lt_of_le
              (skipMultiLineComment_lt _
                (chars_ne_nil_of_peek (by rw [h3.1]; decide)))
              hswle
          exact ih _ (by omega) f1 g1 (by omega) (by omega)
        · rw [if_neg h3, if_neg h3]

theorem nameStart_alnum {c : Char} (h : cIsAlpha c || c = '_') :
    (cIsAlnum c || c = '_') = true := by
  rcases Bool.or_eq_true_iff.mp h with h | h
  · simp [cIsAlnum, h]
  · simp [h]

/-- The token dispatch of `Lexer::nextToken`, after the skipping phase:
end of input, string literal, character literal, keyword/identifier,
number, operator, punctuation symbol, or an `Error` token consuming one
character. -/
def dispatchToken (st : LexState) : Token × LexState :=
  let sl := st.line
  let sc := st.col
  let c := peek st
  if c = '\x00' then (⟨.EndOfFile, "", sl, sc⟩, st)
  else if c = '"' then lexStringLiteral st
  else if c = '\'' then lexCharacterLiteral st
  else if cIsAlpha c || c = '_' then
    let r := takeNameChars st ""
    if r.1 ∈ keywords then
      if r.1 = "true" ∨ r.1 = "false" then
        (⟨.BooleanLiteral, r.1, sl, sc⟩, r.2)
      else (⟨.Keyword, r.1, sl, sc⟩, r.2)
    else (⟨.Identifier, r.1, sl, sc⟩, r.2)
  else if cIsDigit c || (c = '.' ∧ cIsDigit (peekNext st)) then lexNumber st
  else
    let op := tryLexOperator st
    if op.1.type ≠ .Unknown then op
    else if c = ';' ∨ c = ',' ∨ c = '(' ∨ c = ')' ∨ c = '{' ∨ c = '}' ∨
        c = '[' ∨ c = ']' then
      (⟨.Symbol, String.singleton c, sl, sc⟩, (get st).2)
    else
      (⟨.Error, "Unrecognized character: " ++ String.singleton c, sl, sc⟩,
        (get st).2)

/-- `Lexer::nextToken`: skip whitespace/directives/comments, then
dispatch on the next character. -/
def nextToken (st0 : LexState) : Token × LexState :=
  dispatchToken (skipPhase st0)

theorem dispatchToken_progress (st : LexState) :
    (dispatchToken st).1.type = .EndOfFile ∨
      (dispatchToken st).2.chars.length < st.chars.length := by
  unfold dispatchToken
  dsimp only
  split
  · exact Or.inl rfl
  · rename_i h0
    have hne : st.chars ≠ [] := chars_ne_nil_of_peek h0
    split
    · exact Or.inr (lexStringLiteral_lt st hne)
    · split
      · exact Or.inr (lexCharacterLiteral_lt st hne)
      · split
        · rename_i h3
          have hlt : (takeNameChars st "").2.chars.length < st.chars.length :=
            takeNameChars_lt st "" (nameStart_alnum h3)
          split
          · split
            · exact Or.inr hlt
            · exact Or.inr hlt
          · exact Or.inr hlt
        · split
          · rename_i h4
            refine Or.inr (lexNumber_lt st ?hnum)
            rcases Bool.or_eq_true_iff.mp h4 with h | h
            · exact Or.inl h
            · exact Or.inr (of_decide_eq_true h)
          · split
            · rename_i h5
              rcases tryLexOperator_cases st with ⟨hu, _⟩ | hlt
              · exact absurd hu h5
              · exact Or.inr hlt
            · split
              · exact Or.inr (get_length_lt st hne)
              · exact Or.inr (get_length_lt st hne)

/-- Every `nextToken` call either returns the EndOfFile token or strictly
consumes input (the termination argument of `tokenize`, and half of
claim C8). -/
theorem nextToken_progress (st : LexState) :
    (nextToken st).1.type = .EndOfFile ∨
      (nextToken st).2.chars.length < st.chars.length := by
  unfold nextToken
  rcases dispatchToken_progress (skipPhase st) with h | h
  · exact Or.inl h
  · exact Or.inr (lt_of_lt_of_le h (skipPhase_le st))

/-- The `do { token = nextToken(); tokens.push_back(token); } while
(token.type != EndOfFile)` loop of `Lexer::tokenize`, fuelled by the
remaining input length (each non-EndOfFile `nextToken` strictly consumes
input, so the fuel supplied by `tokenizeLoop` is never exhausted:
`tokenizeFuel_irrel`). -/
def tokenizeFuel : Nat → LexState → List Token × LexState
  | 0, st => ([], st)
  | fuel + 1, st =>
    let r := nextToken st
    if r.1.type = .EndOfFile then ([r.1], r.2)
    else
      let rest := tokenizeFuel fuel r.2
      (r.1 :: rest.1, rest.2)

def tokenizeLoop (st : LexState) : List Token × LexState :=
  tokenizeFuel (st.chars.length + 1) st

/-- `Lexer::tokenize` plus the `getDefinedMacros` accessor: the token
list and the accumulated `#define` macro list. -/
def tokenize (source : String) : List Token × List MacroDefinition :=
  let r := tokenizeLoop { chars := source.toList }
  (r.1, r.2.macros)

/-- Every non-EndOfFile `nextToken` strictly consumes input, so any fuel
exceeding the input length makes `tokenizeFuel` compute what the
unbounded C++ `do`/`while` loop computes. -/
theorem tokenizeFuel_irrel : ∀ (n : Nat) (st : LexState),
    st.chars.length ≤ n → ∀ (f g : Nat),
    st.chars.length < f → st.chars.length < g →
    tokenizeFuel f st = tokenizeFuel g st := by
  intro n
  induction n with
  | zero =>
    intro st hle f g hf hg
    obtain ⟨f1, rfl⟩ : ∃ f1, f = f1 + 1 := ⟨f - 1, by omega⟩
    obtain ⟨g1, rfl⟩ : ∃ g1, g = g1 + 1 := ⟨g - 1, by omega⟩
    have hnil : st.chars = [] := List.length_eq_zero.mp (Nat.le_zero.mp hle)
    have heof : (nextToken st).1.type = .EndOfFile := by
      rcases nextToken_progress st with h | h
      · exact h
      · rw [hnil] at h
        exact absurd h (by simp)
    unfold tokenizeFuel
    dsimp only
    rw [if_pos heof, if_pos heof]
  | succ n ih =>
    intro st hle f g hf hg
    obtain ⟨f1, rfl⟩ : ∃ f1, f = f1 + 1 := ⟨f - 1, by omega⟩
    obtain ⟨g1, rfl⟩ : ∃ g1, g = g1 + 1 := ⟨g - 1, by omega⟩
    unfold tokenizeFuel
    dsimp only
    by_cases he : (nextToken st).1.type = .EndOfFile
    · rw [if_pos he, if_pos he]
    · rw [if_neg he, if_neg he]
      have hlt : (nextToken st).2.chars.length < st.chars.length := by
        rcases nextToken_progress st with h | h
        · exact absurd h he
        · exact h
      rw [ih _ (by omega) f1 g1 (by omega) (by omega)]

end Lexer

/-! ## AST node model (src/Parser.h)

The C++ AST is a class hierarchy with a generic `children` vector kept
consistent with variant-specific named fields (the spec's invariant §3:
the named fields are authoritative).  We model it as a closed sum type
whose constructor fields are exactly those named fields.  One subtype
relation matters to the code: `ArrayDeclarationNode` derives from
`VariableDeclarationNode` (an `ArrayDeclarationNode` passes a
`dynamic_pointer_cast<VariableDeclarationNode>` with `getName()` its name
and `getInitializer()` null, since the parser never adds children to it);
match arms that model such casts accept both constructors.
`AssignmentStatementNode` is dead code (never produced by the parser,
never handled by the generator) and is omitted. -/

inductive Expr where
  | binary (op : String) (left right : Expr)
  | unary (op : String) (operand : Expr)
  | arraySub (arr idx : Expr)
  | ident (name : String)
  | number (value : String)
  | stringLit (value : String)
  | charLit (value : String)
  | boolLit (value : Bool)
  | funcCall (name : String) (args : List Expr)
  | assign (lval rval : Expr)

/-- `struct Parameter` used by `Parser::parseFunctionDeclaration` and
`Transpiler::transpileFunctionDeclaration` (spec §3:
`{name, type, is_array}`). -/
structure Param where
  name : String
  type : String
  isArray : Bool := false
  deriving DecidableEq, Repr

inductive Stmt where
  | block (stmts : List Stmt)
  | exprStmt (e : Expr)
  | printfS (fmt : Expr) (args : List Expr)
  | scanfS (fmt : Expr) (args : List Expr)
  | ifS (cond : Expr) (thenB : Stmt) (elseB : Option Stmt)
  | whileS (cond : Expr) (body : Stmt)
  | forS (init : Option Stmt) (cond : Option Expr) (inc : Option Expr)
      (body : Option Stmt)
  | ret (value : Option Expr)
  | brk
  | cont
  | varDecl (name declType : String) (init : Option Expr)
  | arrayDecl (name declType : String) (size : Expr)
  | funcDecl (name retType : String) (params : List Param)
      (body : Option (List Stmt))

/-- `ProgramNode`: the root, holding the top-level statements. -/
structure ProgramNode where
  stmts : List Stmt

/-- The `type_name` string each node constructor stores (used in the
invalid-assignment-target error message). -/
def Expr.typeName : Expr → String
  | .binary .. => "BinaryExpressionNode"
  | .unary .. => "UnaryExpressionNode"
  | .arraySub .. => "ArraySubscriptNode"
  | .ident .. => "IdentifierNode"
  | .number .. => "NumberNode"
  | .stringLit .. => "StringLiteralNode"
  | .charLit .. => "CharLiteralNode"
  | .boolLit .. => "BooleanNode"
  | .funcCall .. => "FunctionCallNode"
  | .assign .. => "AssignmentNode"

/-! ## Parser (src/Parser.cpp)

Exception model: `runtime_error` (`.rt`) and `std::out_of_range` (`.oor`)
are distinct outcomes because `catch (const runtime_error&)` does not
catch `out_of_range`.  State (`current`) is threaded alongside the
outcome, as C++ mutation survives an unwinding exception.  `fuelOut` is
an embedding artifact (the recursion is not structural); it is distinct
from both exception outcomes. -/

inductive PRes (α : Type) where
  | ok (a : α)
  | rt (msg : String)
  | oor (msg : String)
  | fuelOut
  deriving DecidableEq, Repr

/-- Exception-propagating sequencing: run the continuation only on a
normal result, preserving the state reached when an exception unwinds. -/
def pbind {α β : Type} (r : PRes α × Nat) (k : α → Nat → PRes β × Nat) :
    PRes β × Nat :=
  match r with
  | (.ok a, cur) => k a cur
  | (.rt m, cur) => (.rt m, cur)
  | (.oor m, cur) => (.oor m, cur)
  | (.fuelOut, cur) => (.fuelOut, cur)

namespace Parser

/-- Default-constructed `Token` (only read on paths the C++ invariant
`current ≤ tokens.size()` makes unreachable). -/
def defTok : Token := {}

/-- `Parser::isAtEnd`. -/
def isAtEnd (tks : List Token) (cur : Nat) : Bool :=
  cur ≥ tks.length || (tks.getD cur defTok).type = .EndOfFile

/-- `Parser::peek` (only ever called with offsets 0 and 1): in-bounds
access, else the trailing EndOfFile token if there is one, else an
`std::out_of_range` throw. -/
def peekTok (tks : List Token) (cur off : Nat) : PRes Token :=
  if cur + off < tks.length then .ok (tks.getD (cur + off) defTok)
  else if tks ≠ [] ∧ (tks.getLastD defTok).type = .EndOfFile then
    .ok (tks.getLastD defTok)
  else
    .oor ("Peek offset out of bounds for token stream (index: " ++
      toString (cur + off) ++ ", size: " ++ toString tks.length ++ ").")

/-- `Parser::previous`: throws `out_of_range` at index 0. -/
def previousTok (tks : List Token) (cur : Nat) : PRes Token :=
  if cur = 0 then .oor "No previous token at the beginning of the stream."
  else .ok (tks.getD (cur - 1) defTok)

/-- `Parser::advance`: `if (!isAtEnd()) current++; return previous();`. -/
def advanceTok (tks : List Token) (cur : Nat) : PRes Token × Nat :=
  let cur' := if isAtEnd tks cur then cur else cur + 1
  (previousTok tks cur', cur')

/-- `Parser::check(type)`. -/
def check (tks : List Token) (cur : Nat) (ty : TokenType) : Bool :=
  !isAtEnd tks cur && (tks.getD cur defTok).type = ty

/-- `Parser::check(type, value)`. -/
def checkV (tks : List Token) (cur : Nat) (ty : TokenType) (v : String) :
    Bool :=
  !isAtEnd tks cur && (tks.getD cur defTok).type = ty &&
    (tks.getD cur defTok).value = v

/-- `Parser::match(type)`: on success the new index is `cur + 1` (the
`advance` inside cannot throw, because a successful `check` implies
`!isAtEnd`). -/
def matchT (tks : List Token) (cur : Nat) (ty : TokenType) : Bool × Nat :=
  if check tks cur ty then (true, cur + 1) else (false, cur)

/-- `Parser::match(type, value)`. -/
def matchV (tks : List Token) (cur : Nat) (ty : TokenType) (v : String) :
    Bool × Nat :=
  if checkV tks cur ty v then (true, cur + 1) else (false, cur)

/-- Error-message tail shared by both `consume` overloads. -/
def consumeMsgTail (tks : List Token) (cur : Nat) (forValue : Bool) :
    String :=
  (if !isAtEnd tks cur then
      ", but got " ++ (tks.getD cur defTok).toString ++
        " (type: " ++ tokenTypeToString (tks.getD cur defTok).type ++
        (if forValue then
            ", value: '" ++ (tks.getD cur defTok).value ++ "'"
          else "") ++
        ", line: " ++ toString (tks.getD cur defTok).line ++ ")"
    else ", but found end of file.") ++
  " (at token index " ++ toString cur ++ ")"

/-- `Parser::consume(type, message)`. -/
def consumeT (tks : List Token) (cur : Nat) (ty : TokenType)
    (message : String) : PRes Token × Nat :=
  if check tks cur ty then (.ok (tks.getD cur defTok), cur + 1)
  else
    (.rt (message ++ " Expected " ++ tokenTypeToString ty ++
      consumeMsgTail tks cur false), cur)

/-- `Parser::consume(type, value, message)`. -/
def consumeV (tks : List Token) (cur : Nat) (ty : TokenType) (v : String)
    (message : String) : PRes Unit × Nat :=
  if checkV tks cur ty v then (.ok (), cur + 1)
  else
    (.rt (message ++ " Expected '" ++ v ++ "' (type " ++
      tokenTypeToString ty ++ ")" ++ consumeMsgTail tks cur true), cur)

/-- The boundary test of `Parser::synchronize`'s `switch`. -/
def syncStop (tks : List Token) (cur : Nat) : Bool :=
  let t := tks.getD cur defTok
  match t.type with
  | .Keyword =>
    t.value = "if" || t.value = "while" || t.value = "for" ||
    t.value = "return" || t.value = "break" || t.value = "continue" ||
    t.value = "print" || t.value = "int" || t.value = "float" ||
    t.value = "char" || t.value = "bool" || t.value = "string" ||
    t.value = "void"
  | .Identifier =>
    (t.value = "printf" || t.value = "scanf") &&
    (decide (cur + 1 < tks.length) &&
      ((tks.getD (cur + 1) defTok).type = .Symbol &&
        (tks.getD (cur + 1) defTok).value = "("))
  | .Symbol => t.value = "\x7b" || t.value = "\x7d"
  | _ => false

/-- The `while (!isAtEnd())` loop of `Parser::synchronize` (never throws:
`peek()` is only reached when `!isAtEnd()`, and `tokens[current-1]` is an
unchecked `vector::operator[]` access that the loop structure keeps in
bounds). -/
def syncLoopFuel (tks : List Token) : Nat → Nat → Nat
  | 0, cur => cur
  | fuel + 1, cur =>
    if isAtEnd tks cur then cur
    else if cur > 0 ∧ (tks.getD (cur - 1) defTok).type = .Symbol ∧
        (tks.getD (cur - 1) defTok).value = ";" then cur
    else if syncStop tks cur then cur
    else syncLoopFuel tks fuel (cur + 1)

def syncLoop (tks : List Token) (cur : Nat) : Nat :=
  syncLoopFuel tks (tks.length + 1) cur

/-- Each iteration of the synchronize loop advances `current`, and the
loop stops at the end of the token list, so any fuel exceeding the
remaining token count computes the fixpoint of the unbounded C++
loop. -/
theorem syncLoopFuel_irrel (tks : List Token) : ∀ (n cur : Nat),
    tks.length - cur ≤ n → ∀ f g,
    tks.length - cur < f → tks.length - cur < g →
    syncLoopFuel tks f cur = syncLoopFuel tks g cur := by
  intro n
  induction n with
  | zero =>
    intro cur hle f g hf hg
    obtain ⟨f1, rfl⟩ : ∃ f1, f = f1 + 1 := ⟨f - 1, by omega⟩
    obtain ⟨g1, rfl⟩ : ∃ g1, g = g1 + 1 := ⟨g - 1, by omega⟩
    have hend : isAtEnd tks cur = true := by
      simp only [isAtEnd, Bool.or_eq_true, decide_eq_true_eq]
      omega
    unfold syncLoopFuel
    rw [if_pos hend, if_pos hend]
  | succ n ih =>
    intro cur hle f g hf hg
    obtain ⟨f1, rfl⟩ : ∃ f1, f = f1 + 1 := ⟨f - 1, by omega⟩
    obtain ⟨g1, rfl⟩ : ∃ g1, g = g1 + 1 := ⟨g - 1, by omega⟩
    unfold syncLoopFuel
    by_cases h0 : isAtEnd tks cur = true
    · rw [if_pos h0, if_pos h0]
    · rw [if_neg h0, if_neg h0]
      have hlt : cur < tks.length := by
        simp only [isAtEnd, Bool.or_eq_true, decide_eq_true_eq] at h0
        push_neg at h0
        omega
      by_cases h1 : cur > 0 ∧ (tks.getD (cur - 1) defTok).type = .Symbol ∧
          (tks.getD (cur - 1) defTok).value = ";"
      · rw [if_pos h1, if_pos h1]
      · rw [if_neg h1, if_neg h1]
        by_cases h2 : syncStop tks cur = true
        · rw [if_pos h2, if_pos h2]
        · rw [if_neg h2, if_neg h2]
          exact ih (cur + 1) (by omega) f1 g1 (by omega) (by omega)

/-- `Parser::synchronize`. -/
def synchronize (tks : List Token) (cur : Nat) : Nat :=
  if isAtEnd tks cur then cur else syncLoop tks (cur + 1)

/-- `Parser::unescapeLiteralContent` on the character list. -/
def unescapeChars : List Char → List Char
  | '\\' :: c :: rest =>
    (match c with
     | 'n' => ['\n']
     | 't' => ['\t']
     | 'r' => ['\r']
     | '\\' => ['\\']
     | '\'' => ['\'']
     | '"' => ['"']
     | '0' => ['\x00']
     | other => ['\\', other]) ++ unescapeChars rest
  | ['\\'] => ['\\']
  | c :: rest => c :: unescapeChars rest
  | [] => []

/-- `Parser::unescapeLiteralContent`. -/
def unescapeLiteralContent (s : String) : String :=
  String.mk (unescapeChars s.toList)

/-- The operator scan of `Parser::parseBinaryExpression`'s loop body: the
first operator of `operators` for which `check(Operator, op) ||
check(Symbol, op)` holds. -/
def findBinOp (tks : List Token) (ops : List String) (cur : Nat) :
    Option String :=
  ops.find? (fun op => checkV tks cur .Operator op || checkV tks cur .Symbol op)

/-- The six type keywords recognized by declaration parsing. -/
def checkTypeKeyword (tks : List Token) (cur : Nat) : Bool :=
  checkV tks cur .Keyword "int" || checkV tks cur .Keyword "float" ||
  checkV tks cur .Keyword "char" || checkV tks cur .Keyword "bool" ||
  checkV tks cur .Keyword "string" || checkV tks cur .Keyword "void"

/-- The array-initializer skip loop of `Parser::parseDeclaration`:
`while (!isAtEnd() && !check(Symbol, ";")) advance();` (the `advance`
cannot throw because `!isAtEnd()` holds). -/
def skipArrayInitFuel (tks : List Token) : Nat → Nat → Nat
  | 0, cur => cur
  | fuel + 1, cur =>
    if ¬ isAtEnd tks cur ∧ ¬ checkV tks cur .Symbol ";" then
      skipArrayInitFuel tks fuel (cur + 1)
    else cur

def skipArrayInit (tks : List Token) (cur : Nat) : Nat :=
  skipArrayInitFuel tks (tks.length + 1) cur

/-- Each iteration of the array-initializer skip advances `current` and
the loop stops at the end of the token list, so any fuel exceeding the
remaining token count computes the fixpoint of the unbounded C++
loop. -/
theorem skipArrayInitFuel_irrel (tks : List Token) : ∀ (n cur : Nat),
    tks.length - cur ≤ n → ∀ f g,
    tks.length - cur < f → tks.length - cur < g →
    skipArrayInitFuel tks f cur = skipArrayInitFuel tks g cur := by
  intro n
  induction n with
  | zero =>
    intro cur hle f g hf hg
    obtain ⟨f1, rfl⟩ : ∃ f1, f = f1 + 1 := ⟨f - 1, by omega⟩
    obtain ⟨g1, rfl⟩ : ∃ g1, g = g1 + 1 := ⟨g - 1, by omega⟩
    have hend : isAtEnd tks cur = true := by
      simp only [isAtEnd, Bool.or_eq_true, decide_eq_true_eq]
      omega
    unfold skipArrayInitFuel
    rw [if_neg (fun h => h.1 hend), if_neg (fun h => h.1 hend)]
  | succ n ih =>
    intro cur hle f g hf hg
    obtain ⟨f1, rfl⟩ : ∃ f1, f = f1 + 1 := ⟨f - 1, by omega⟩
    obtain ⟨g1, rfl⟩ : ∃ g1, g = g1 + 1 := ⟨g - 1, by omega⟩
    unfold skipArrayInitFuel
    by_cases h0 : ¬ isAtEnd tks cur ∧ ¬ checkV tks cur .Symbol ";"
    · rw [if_pos h0, if_pos h0]
      have hlt : cur < tks.length := by
        have := h0.1
        simp only [isAtEnd, Bool.or_eq_true, decide_eq_true_eq] at this
        push_neg at this
        omega
      exact ih (cur + 1) (by omega) f1 g1 (by omega) (by omega)
    · rw [if_neg h0, if_neg h0]

/-- `Parser::parseBreak` (the `break` keyword is already consumed). -/
def parseBreak (tks : List Token) (cur : Nat) : PRes Stmt × Nat :=
  pbind (consumeV tks cur .Symbol ";" "Expected ';' after break statement.")
    fun _ c => (.ok .brk, c)

/-- `Parser::parseContinue`. -/
def parseContinue (tks : List Token) (cur : Nat) : PRes Stmt × Nat :=
  pbind (consumeV tks cur .Symbol ";" "Expected ';' after continue statement.")
    fun _ c => (.ok .cont, c)

section
variable (tks : List Token)

/-!
The recursive-descent functions of src/Parser.cpp.  Each takes a fuel
argument decremented on every nested call (the C++ recursion is bounded
but not structurally); `(fuel, cur) ↦ (outcome, cur')` mirrors
`(current) ↦ (result or exception, current')`.
-/

mutual

/-- `Parser::parseExpression`. -/
def parseExpression : Nat → Nat → PRes Expr × Nat
  | 0, cur => (.fuelOut, cur)
  | fuel + 1, cur => parseAssignmentExpression fuel cur
termination_by structural f c => f

/-- `Parser::parseAssignmentExpression` (right-associative; only
Identifier/ArraySubscript accepted on the left). -/
def parseAssignmentExpression : Nat → Nat → PRes Expr × Nat
  | 0, cur => (.fuelOut, cur)
  | fuel + 1, cur =>
    pbind (parseLogicalOr fuel cur) fun left cur1 =>
    let m := matchV tks cur1 .Operator "="
    if m.1 then
      let assignTok := tks.getD cur1 defTok
      pbind (parseAssignmentExpression fuel m.2) fun right cur2 =>
      match left with
      | .ident a => (.ok (.assign (.ident a) right), cur2)
      | .arraySub a i => (.ok (.assign (.arraySub a i) right), cur2)
      | other =>
        (.rt ("Invalid assignment target. Left-hand side of '=' must be an identifier or assignable expression. Got: " ++
          other.typeName ++ " near token: " ++ assignTok.toString), cur2)
    else (.ok left, m.2)
termination_by structural f c => f

/-- `Parser::parseLogicalOr`. -/
def parseLogicalOr : Nat → Nat → PRes Expr × Nat
  | 0, cur => (.fuelOut, cur)
  | fuel + 1, cur =>
    pbind (parseLogicalAnd fuel cur) fun l cur1 => orLoop fuel l cur1
termination_by structural f c => f

/-- The `parseBinaryExpression` fold loop instantiated at `\{"||"\}`. -/
def orLoop : Nat → Expr → Nat → PRes Expr × Nat
  | 0, _, cur => (.fuelOut, cur)
  | fuel + 1, left, cur =>
    match findBinOp tks ["||"] cur with
    | none => (.ok left, cur)
    | some _ =>
      let opTok := tks.getD cur defTok
      pbind (parseLogicalAnd fuel (cur + 1)) fun right cur2 =>
      orLoop fuel (.binary opTok.value left right) cur2
termination_by structural f a c => f

/-- `Parser::parseLogicalAnd`. -/
def parseLogicalAnd : Nat → Nat → PRes Expr × Nat
  | 0, cur => (.fuelOut, cur)
  | fuel + 1, cur =>
    pbind (parseEquality fuel cur) fun l cur1 => andLoop fuel l cur1
termination_by structural f c => f

/-- The fold loop at `\{"&&"\}`. -/
def andLoop : Nat → Expr → Nat → PRes Expr × Nat
  | 0, _, cur => (.fuelOut, cur)
  | fuel + 1, left, cur =>
    match findBinOp tks ["&&"] cur with
    | none => (.ok left, cur)
    | some _ =>
      let opTok := tks.getD cur defTok
      pbind (parseEquality fuel (cur + 1)) fun right cur2 =>
      andLoop fuel (.binary opTok.value left right) cur2
termination_by structural f a c => f

/-- `Parser::parseEquality`. -/
def parseEquality : Nat → Nat → PRes Expr × Nat
  | 0, cur => (.fuelOut, cur)
  | fuel + 1, cur =>
    pbind (parseComparison fuel cur) fun l cur1 => eqLoop fuel l cur1
termination_by structural f c => f

/-- The fold loop at `\{"==", "!="\}`. -/
def eqLoop : Nat → Expr → Nat → PRes Expr × Nat
  | 0, _, cur => (.fuelOut, cur)
  | fuel + 1, left, cur =>
    match findBinOp tks ["==", "!="] cur with
    | none => (.ok left, cur)
    | some _ =>
      let opTok := tks.getD cur defTok
      pbind (parseComparison fuel (cur + 1)) fun right cur2 =>
      eqLoop fuel (.binary opTok.value left right) cur2
termination_by structural f a c => f

/-- `Parser::parseComparison`. -/
def parseComparison : Nat → Nat → PRes Expr × Nat
  | 0, cur => (.fuelOut, cur)
  | fuel + 1, cur =>
    pbind (parseTerm fuel cur) fun l cur1 => cmpLoop fuel l cur1
termination_by structural f c => f

/-- The fold loop at `\{"<", ">", "<=", ">="\}`. -/
def cmpLoop : Nat → Expr → Nat → PRes Expr × Nat
  | 0, _, cur => (.fuelOut, cur)
  | fuel + 1, left, cur =>
    match findBinOp tks ["<", ">", "<=", ">="] cur with
    | none => (.ok left, cur)
    | some _ =>
      let opTok := tks.getD cur defTok
      pbind (parseTerm fuel (cur + 1)) fun right cur2 =>
      cmpLoop fuel (.binary opTok.value left right) cur2
termination_by structural f a c => f

/-- `Parser::parseTerm`. -/
def parseTerm : Nat → Nat → PRes Expr × Nat
  | 0, cur => (.fuelOut, cur)
  | fuel + 1, cur =>
    pbind (parseFactor fuel cur) fun l cur1 => termLoop fuel l cur1
termination_by structural f c => f

/-- The fold loop at `\{"+", "-"\}`. -/
def termLoop : Nat → Expr → Nat → PRes Expr × Nat
  | 0, _, cur => (.fuelOut, cur)
  | fuel + 1, left, cur =>
    match findBinOp tks ["+", "-"] cur with
    | none => (.ok left, cur)
    | some _ =>
      let opTok := tks.getD cur defTok
      pbind (parseFactor fuel (cur + 1)) fun right cur2 =>
      termLoop fuel (.binary opTok.value left right) cur2
termination_by structural f a c => f

/-- `Parser::parseFactor`. -/
def parseFactor : Nat → Nat → PRes Expr × Nat
  | 0, cur => (.fuelOut, cur)
  | fuel + 1, cur =>
    pbind (parseUnary fuel cur) fun l cur1 => factorLoop fuel l cur1
termination_by structural f c => f

/-- The fold loop at `\{"*", "/", "%"\}`. -/
def factorLoop : Nat → Expr → Nat → PRes Expr × Nat
  | 0, _, cur => (.fuelOut, cur)
  | fuel + 1, left, cur =>
    match findBinOp tks ["*", "/", "%"] cur with
    | none => (.ok left, cur)
    | some _ =>
      let opTok := tks.getD cur defTok
      pbind (parseUnary fuel (cur + 1)) fun right cur2 =>
      factorLoop fuel (.binary opTok.value left right) cur2
termination_by structural f a c => f

/-- `Parser::parseUnary` (prefix `! - & ++ --`, right-associative). -/
def parseUnary : Nat → Nat → PRes Expr × Nat
  | 0, cur => (.fuelOut, cur)
  | fuel + 1, cur =>
    if checkV tks cur .Operator "!" || checkV tks cur .Operator "-" ||
        checkV tks cur .Operator "&" || checkV tks cur .Operator "++" ||
        checkV tks cur .Operator "--" then
      let op := (tks.getD cur defTok).value
      pbind (parseUnary fuel (cur + 1)) fun operand cur2 =>
      (.ok (.unary op operand), cur2)
    else parseCall fuel cur
termination_by structural f c => f

/-- `Parser::parseCall`. -/
def parseCall : Nat → Nat → PRes Expr × Nat
  | 0, cur => (.fuelOut, cur)
  | fuel + 1, cur =>
    pbind (parsePrimary fuel cur) fun e cur1 => callLoop fuel e cur1
termination_by structural f c => f

/-- The postfix loop of `Parser::parseCall`: calls, subscripts, postfix
`++`/`--`, chained left-to-right. -/
def callLoop : Nat → Expr → Nat → PRes Expr × Nat
  | 0, _, cur => (.fuelOut, cur)
  | fuel + 1, expr, cur =>
    let m1 := matchV tks cur .Symbol "("
    if m1.1 then
      match expr with
      | .ident nm =>
        pbind
          (if ¬ checkV tks m1.2 .Symbol ")" then callArgsLoop fuel [] m1.2
           else (.ok [], m1.2)) fun args cur2 =>
        pbind (consumeV tks cur2 .Symbol ")"
            "Expected ')' after function call arguments.") fun _ cur3 =>
        callLoop fuel (.funcCall nm args) cur3
      | _ =>
        (.rt "Expression before '(' is not a simple callable identifier for function call.",
          m1.2)
    else
      let m2 := matchV tks cur .Symbol "["
      if m2.1 then
        pbind (parseExpression fuel m2.2) fun idx cur2 =>
        pbind (consumeV tks cur2 .Symbol "]" "Expected ']' after array index.")
          fun _ cur3 =>
        callLoop fuel (.arraySub expr idx) cur3
      else
        let m3 := matchV tks cur .Operator "++"
        if m3.1 then callLoop fuel (.unary "++" expr) m3.2
        else
          let m4 := matchV tks cur .Operator "--"
          if m4.1 then callLoop fuel (.unary "--" expr) m4.2
          else (.ok expr, cur)
termination_by structural f a c => f

/-- The `do \{ addChild(parseExpression()) \} while (match(","))` argument
list of a function call. -/
def callArgsLoop : Nat → List Expr → Nat → PRes (List Expr) × Nat
  | 0, _, cur => (.fuelOut, cur)
  | fuel + 1, acc, cur =>
    pbind (parseExpression fuel cur) fun a cur1 =>
    let m := matchV tks cur1 .Symbol ","
    if m.1 then callArgsLoop fuel (acc ++ [a]) m.2
    else (.ok (acc ++ [a]), m.2)
termination_by structural f a c => f

/-- The `while (match(",")) addChild(parseExpression())` argument list of
`parsePrintfStatement`/`parseScanfStatement`. -/
def commaArgsLoop : Nat → List Expr → Nat → PRes (List Expr) × Nat
  | 0, _, cur => (.fuelOut, cur)
  | fuel + 1, acc, cur =>
    let m := matchV tks cur .Symbol ","
    if m.1 then
      pbind (parseExpression fuel m.2) fun a cur1 =>
      commaArgsLoop fuel (acc ++ [a]) cur1
    else (.ok acc, m.2)
termination_by structural f a c => f

/-- `Parser::parsePrimary`. -/
def parsePrimary : Nat → Nat → PRes Expr × Nat
  | 0, cur => (.fuelOut, cur)
  | fuel + 1, cur =>
    if check tks cur .BooleanLiteral then
      let boolTok := tks.getD cur defTok
      if boolTok.value = "true" then (.ok (.boolLit true), cur + 1)
      else if boolTok.value = "false" then (.ok (.boolLit false), cur + 1)
      else
        (.rt ("Invalid boolean literal token value from lexer: " ++
          boolTok.toString), cur + 1)
    else
      let mt := matchV tks cur .Keyword "true"
      if mt.1 then (.ok (.boolLit true), mt.2)
      else
        let mf := matchV tks cur .Keyword "false"
        if mf.1 then (.ok (.boolLit false), mf.2)
        else if check tks cur .IntegerNumber || check tks cur .FloatNumber then
          (.ok (.number (tks.getD cur defTok).value), cur + 1)
        else
          let ms := matchT tks cur .StringLiteral
          if ms.1 then
            (.ok (.stringLit (unescapeLiteralContent
              (tks.getD cur defTok).value)), ms.2)
          else
            let mc := matchT tks cur .CharLiteral
            if mc.1 then
              let content := (tks.getD cur defTok).value
              let u := unescapeLiteralContent content
              if u.length ≠ 1 then
                (.rt ("Character literal content must resolve to a single character after unescaping. Got: '" ++
                  u ++ "' from original token value: " ++ content), mc.2)
              else (.ok (.charLit u), mc.2)
            else
              let mi := matchT tks cur .Identifier
              if mi.1 then (.ok (.ident (tks.getD cur defTok).value), mi.2)
              else
                let mp := matchV tks cur .Symbol "("
                if mp.1 then
                  pbind (parseExpression fuel mp.2) fun e cur2 =>
                  pbind (consumeV tks cur2 .Symbol ")"
                      "Expected ')' after grouped expression.") fun _ cur3 =>
                  (.ok e, cur3)
                else
                  match peekTok tks cur 0 with
                  | .ok t =>
                    (.rt ("Expected primary expression, but got " ++
                      t.toString ++ " (type: " ++ tokenTypeToString t.type ++
                      ", line: " ++ toString t.line ++ ")"), cur)
                  | .oor m => (.oor m, cur)
                  | .rt m => (.rt m, cur)
                  | .fuelOut => (.fuelOut, cur)
termination_by structural f c => f

/-- `Parser::parseStatement` (first-token dispatch). -/
def parseStatement : Nat → Nat → PRes Stmt × Nat
  | 0, cur => (.fuelOut, cur)
  | fuel + 1, cur =>
    let m := matchV tks cur .Keyword "if"
    if m.1 then parseIf fuel m.2 else
    let m := matchV tks cur .Keyword "while"
    if m.1 then parseWhile fuel m.2 else
    let m := matchV tks cur .Keyword "for"
    if m.1 then parseFor fuel m.2 else
    let m := matchV tks cur .Keyword "return"
    if m.1 then parseReturn fuel m.2 else
    let m := matchV tks cur .Keyword "break"
    if m.1 then parseBreak tks m.2 else
    let m := matchV tks cur .Keyword "continue"
    if m.1 then parseContinue tks m.2 else
    let m := matchV tks cur .Symbol "\x7b"
    if m.1 then
      pbind (parseBlock fuel m.2) fun ss c => (.ok (.block ss), c)
    else if checkV tks cur .Identifier "printf" then
      match peekTok tks cur 1 with
      | .ok t1 =>
        if t1.type = .Symbol ∧ t1.value = "(" then
          parsePrintfStatement fuel cur
        else parseStmtRest fuel cur
      | .oor msg => (.oor msg, cur)
      | .rt msg => (.rt msg, cur)
      | .fuelOut => (.fuelOut, cur)
    else if checkV tks cur .Identifier "scanf" then
      match peekTok tks cur 1 with
      | .ok t1 =>
        if t1.type = .Symbol ∧ t1.value = "(" then
          parseScanfStatement fuel cur
        else parseStmtRest fuel cur
      | .oor msg => (.oor msg, cur)
      | .rt msg => (.rt msg, cur)
      | .fuelOut => (.fuelOut, cur)
    else parseStmtRest fuel cur
termination_by structural f c => f

/-- Tail of the `parseStatement` dispatch (type-keyword declarations,
then the generic expression statement). -/
def parseStmtRest : Nat → Nat → PRes Stmt × Nat
  | 0, cur => (.fuelOut, cur)
  | fuel + 1, cur =>
    if checkTypeKeyword tks cur then parseDeclaration fuel cur
    else parseExpressionStatement fuel cur
termination_by structural f c => f

/-- `Parser::parsePrintfStatement`. -/
def parsePrintfStatement : Nat → Nat → PRes Stmt × Nat
  | 0, cur => (.fuelOut, cur)
  | fuel + 1, cur =>
    pbind (advanceTok tks cur) fun _ cur1 =>
    pbind (consumeV tks cur1 .Symbol "(" "Expected '(' after 'printf'.")
      fun _ cur2 =>
    if check tks cur2 .StringLiteral then
      pbind (parsePrimary fuel cur2) fun fmt cur3 =>
      pbind (commaArgsLoop fuel [] cur3) fun args cur4 =>
      pbind (consumeV tks cur4 .Symbol ")"
          "Expected ')' after printf arguments.") fun _ cur5 =>
      pbind (consumeV tks cur5 .Symbol ";"
          "Expected ';' after printf statement.") fun _ cur6 =>
      (.ok (.printfS fmt args), cur6)
    else
      match peekTok tks cur2 0 with
      | .ok t =>
        (.rt ("Expected a string literal as the first argument to printf. Got: " ++
          t.toString), cur2)
      | .oor m => (.oor m, cur2)
      | .rt m => (.rt m, cur2)
      | .fuelOut => (.fuelOut, cur2)
termination_by structural f c => f

/-- `Parser::parseScanfStatement`. -/
def parseScanfStatement : Nat → Nat → PRes Stmt × Nat
  | 0, cur => (.fuelOut, cur)
  | fuel + 1, cur =>
    pbind (advanceTok tks cur) fun _ cur1 =>
    pbind (consumeV tks cur1 .Symbol "(" "Expected '(' after 'scanf'.")
      fun _ cur2 =>
    if check tks cur2 .StringLiteral then
      pbind (parsePrimary fuel cur2) fun fmt cur3 =>
      pbind (commaArgsLoop fuel [] cur3) fun args cur4 =>
      pbind (consumeV tks cur4 .Symbol ")"
          "Expected ')' after scanf arguments.") fun _ cur5 =>
      pbind (consumeV tks cur5 .Symbol ";"
          "Expected ';' after scanf statement.") fun _ cur6 =>
      (.ok (.scanfS fmt args), cur6)
    else
      match peekTok tks cur2 0 with
      | .ok t =>
        (.rt ("Expected a string literal as the first argument to scanf. Got: " ++
          t.toString), cur2)
      | .oor m => (.oor m, cur2)
      | .rt m => (.rt m, cur2)
      | .fuelOut => (.fuelOut, cur2)
termination_by structural f c => f

/-- `Parser::parseExpressionStatement`. -/
def parseExpressionStatement : Nat → Nat → PRes Stmt × Nat
  | 0, cur => (.fuelOut, cur)
  | fuel + 1, cur =>
    pbind (parseExpression fuel cur) fun e cur1 =>
    pbind (consumeV tks cur1 .Symbol ";"
        "Expected ';' after expression statement.") fun _ cur2 =>
    (.ok (.exprStmt e), cur2)
termination_by structural f c => f

/-- `Parser::parseBlock` (the opening `\x7b` is already consumed); returns
the block's statement list. -/
def parseBlock : Nat → Nat → PRes (List Stmt) × Nat
  | 0, cur => (.fuelOut, cur)
  | fuel + 1, cur => blockLoop fuel [] cur
termination_by structural f c => f

/-- The statement loop of `parseBlock`, followed by the closing-brace
`consume`. -/
def blockLoop : Nat → List Stmt → Nat → PRes (List Stmt) × Nat
  | 0, _, cur => (.fuelOut, cur)
  | fuel + 1, acc, cur =>
    if ¬ checkV tks cur .Symbol "\x7d" ∧ ¬ isAtEnd tks cur then
      pbind (parseStatement fuel cur) fun s c => blockLoop fuel (acc ++ [s]) c
    else
      pbind (consumeV tks cur .Symbol "\x7d" "Expected '\x7d' after block.")
        fun _ c => (.ok acc, c)
termination_by structural f a c => f

/-- `Parser::parseIf`. -/
def parseIf : Nat → Nat → PRes Stmt × Nat
  | 0, cur => (.fuelOut, cur)
  | fuel + 1, cur =>
    pbind (consumeV tks cur .Symbol "(" "Expected '(' after 'if'.")
      fun _ cur1 =>
    pbind (parseExpression fuel cur1) fun cond cur2 =>
    pbind (consumeV tks cur2 .Symbol ")" "Expected ')' after if condition.")
      fun _ cur3 =>
    pbind (parseStatement fuel cur3) fun thenB cur4 =>
    let m := matchV tks cur4 .Keyword "else"
    if m.1 then
      pbind (parseStatement fuel m.2) fun elseB cur5 =>
      (.ok (.ifS cond thenB (some elseB)), cur5)
    else (.ok (.ifS cond thenB none), m.2)
termination_by structural f c => f

/-- `Parser::parseWhile`. -/
def parseWhile : Nat → Nat → PRes Stmt × Nat
  | 0, cur => (.fuelOut, cur)
  | fuel + 1, cur =>
    pbind (consumeV tks cur .Symbol "(" "Expected '(' after 'while'.")
      fun _ cur1 =>
    pbind (parseExpression fuel cur1) fun cond cur2 =>
    pbind (consumeV tks cur2 .Symbol ")" "Expected ')' after while condition.")
      fun _ cur3 =>
    pbind (parseStatement fuel cur3) fun body cur4 =>
    (.ok (.whileS cond body), cur4)
termination_by structural f c => f

/-- `Parser::parseFor`. -/
def parseFor : Nat → Nat → PRes Stmt × Nat
  | 0, cur => (.fuelOut, cur)
  | fuel + 1, cur =>
    pbind (consumeV tks cur .Symbol "(" "Expected '(' after 'for'.")
      fun _ cur1 =>
    pbind
      (if ¬ checkV tks cur1 .Symbol ";" then
        if checkV tks cur1 .Keyword "int" || checkV tks cur1 .Keyword "float" then
          pbind (parseVariableDeclaration fuel "" "" cur1) fun d c =>
            (.ok (some d), c)
        else
          pbind (parseExpressionStatement fuel cur1) fun s c =>
            (.ok (some s), c)
      else
        pbind (consumeV tks cur1 .Symbol ";"
            "Expected ';' for empty initializer in for loop.") fun _ c =>
          (.ok none, c)) fun ini cur2 =>
    pbind
      (if ¬ checkV tks cur2 .Symbol ";" then
        pbind (parseExpression fuel cur2) fun e c => (.ok (some e), c)
      else (.ok none, cur2)) fun condE cur3 =>
    pbind (consumeV tks cur3 .Symbol ";" "Expected ';' after for condition.")
      fun _ cur4 =>
    pbind
      (if ¬ checkV tks cur4 .Symbol ")" then
        pbind (parseExpression fuel cur4) fun e c => (.ok (some e), c)
      else (.ok none, cur4)) fun incE cur5 =>
    pbind (consumeV tks cur5 .Symbol ")" "Expected ')' after for clauses.")
      fun _ cur6 =>
    pbind (parseStatement fuel cur6) fun body cur7 =>
    (.ok (.forS ini condE incE (some body)), cur7)
termination_by structural f c => f

/-- `Parser::parseReturn`. -/
def parseReturn : Nat → Nat → PRes Stmt × Nat
  | 0, cur => (.fuelOut, cur)
  | fuel + 1, cur =>
    pbind
      (if ¬ checkV tks cur .Symbol ";" then
        pbind (parseExpression fuel cur) fun e c => (.ok (some e), c)
      else (.ok none, cur)) fun v cur1 =>
    pbind (consumeV tks cur1 .Symbol ";" "Expected ';' after return statement.")
      fun _ cur2 =>
    (.ok (.ret v), cur2)
termination_by structural f c => f

/-- `Parser::parseDeclaration` (array / function / scalar dispatch after
`type identifier`). -/
def parseDeclaration : Nat → Nat → PRes Stmt × Nat
  | 0, cur => (.fuelOut, cur)
  | fuel + 1, cur =>
    pbind (advanceTok tks cur) fun tTok cur1 =>
    pbind (consumeT tks cur1 .Identifier
        "Expected identifier after type in declaration.") fun idTok cur2 =>
    if checkV tks cur2 .Symbol "[" then
      pbind (advanceTok tks cur2) fun _ cur3 =>
      pbind (parseExpression fuel cur3) fun size cur4 =>
      pbind (consumeV tks cur4 .Symbol "]"
          "Expected ']' after array size in declaration.") fun _ cur5 =>
      let m := matchV tks cur5 .Operator "="
      let cur6 := if m.1 then skipArrayInit tks m.2 else m.2
      pbind (consumeV tks cur6 .Symbol ";"
          "Expected ';' after array declaration.") fun _ cur7 =>
      (.ok (.arrayDecl idTok.value tTok.value size), cur7)
    else if checkV tks cur2 .Symbol "(" then
      parseFunctionDeclaration fuel tTok.value idTok.value cur2
    else
      parseVariableDeclaration fuel tTok.value idTok.value cur2
termination_by structural f c => f

/-- `Parser::parseVariableDeclaration` (with type/identifier hints; empty
hints make it consume the type and identifier itself). -/
def parseVariableDeclaration :
    Nat → String → String → Nat → PRes Stmt × Nat
  | 0, _, _, cur => (.fuelOut, cur)
  | fuel + 1, typeHint, identHint, cur =>
    pbind
      (if typeHint = "" then
        if ¬ checkTypeKeyword tks cur then
          match peekTok tks cur 0 with
          | .ok t =>
            ((.rt ("Expected type keyword for variable declaration, got " ++
              t.toString) : PRes String), cur)
          | .oor m => (.oor m, cur)
          | .rt m => (.rt m, cur)
          | .fuelOut => (.fuelOut, cur)
        else
          pbind (advanceTok tks cur) fun t c => (.ok t.value, c)
      else (.ok typeHint, cur)) fun actualType cur1 =>
    pbind
      (if identHint = "" then
        pbind (consumeT tks cur1 .Identifier
            "Expected identifier in variable declaration.") fun t c =>
          (.ok t.value, c)
      else (.ok identHint, cur1)) fun actualIdent cur2 =>
    let m := matchV tks cur2 .Operator "="
    pbind
      (if m.1 then
        pbind (parseExpression fuel m.2) fun e c => (.ok (some e), c)
      else (.ok none, m.2)) fun ini cur3 =>
    pbind (consumeV tks cur3 .Symbol ";"
        "Expected ';' after variable declaration.") fun _ cur4 =>
    (.ok (.varDecl actualIdent actualType ini), cur4)
termination_by structural f a b c => f

/-- `Parser::parseFunctionDeclaration`. -/
def parseFunctionDeclaration :
    Nat → String → String → Nat → PRes Stmt × Nat
  | 0, _, _, cur => (.fuelOut, cur)
  | fuel + 1, returnType, identifier, cur =>
    pbind (consumeV tks cur .Symbol "("
        "Expected '(' after function name for parameters.") fun _ cur1 =>
    pbind
      (if ¬ checkV tks cur1 .Symbol ")" then funcParamsLoop fuel [] cur1
      else (.ok [], cur1)) fun params cur2 =>
    pbind (consumeV tks cur2 .Symbol ")"
        "Expected ')' after parameters or empty parameter list.")
      fun _ cur3 =>
    let m := matchV tks cur3 .Symbol "\x7b"
    if m.1 then
      pbind (parseBlock fuel m.2) fun ss cur4 =>
      (.ok (.funcDecl identifier returnType params (some ss)), cur4)
    else
      pbind (consumeV tks cur3 .Symbol ";"
          "Expected '\x7b' for function body or ';' for function prototype.")
        fun _ cur4 =>
      (.ok (.funcDecl identifier returnType params none), cur4)
termination_by structural f a b c => f

/-- The `do \{ ... \} while (match(","))` parameter loop of
`parseFunctionDeclaration`. -/
def funcParamsLoop : Nat → List Param → Nat → PRes (List Param) × Nat
  | 0, _, cur => (.fuelOut, cur)
  | fuel + 1, acc, cur =>
    if ¬ checkTypeKeyword tks cur then
      match peekTok tks cur 0 with
      | .ok t =>
        (.rt ("Expected type keyword for function parameter, got " ++
          t.toString), cur)
      | .oor m => (.oor m, cur)
      | .rt m => (.rt m, cur)
      | .fuelOut => (.fuelOut, cur)
    else
      pbind (advanceTok tks cur) fun tTok cur1 =>
      pbind (consumeT tks cur1 .Identifier "Expected parameter name.")
        fun nTok cur2 =>
      let m := matchV tks cur2 .Symbol "["
      pbind
        (if m.1 then
          pbind (consumeV tks m.2 .Symbol "]"
              "Expected ']' after '[' in array parameter declaration.")
            fun _ c => ((.ok true : PRes Bool), c)
        else (.ok false, m.2)) fun isArr cur3 =>
      let mc := matchV tks cur3 .Symbol ","
      if mc.1 then
        funcParamsLoop fuel
          (acc ++ [{ name := nTok.value, type := tTok.value,
                     isArray := isArr }]) mc.2
      else
        (.ok (acc ++ [{ name := nTok.value, type := tTok.value,
                        isArray := isArr }]), mc.2)
termination_by structural f a c => f

/-- `Parser::parseProgram`: the top-level statement loop with its
per-statement `catch (runtime_error)` and `synchronize` recovery
(`out_of_range` is not caught and propagates). -/
def parseProgram : Nat → Nat → PRes (List Stmt) × Nat
  | 0, cur => (.fuelOut, cur)
  | fuel + 1, cur => programLoop fuel [] cur
termination_by structural f c => f

/-- The `while (!isAtEnd())` loop of `parseProgram`. -/
def programLoop : Nat → List Stmt → Nat → PRes (List Stmt) × Nat
  | 0, _, cur => (.fuelOut, cur)
  | fuel + 1, acc, cur =>
    if isAtEnd tks cur then (.ok acc, cur)
    else
      match parseStatement fuel cur with
      | (.ok s, c) => programLoop fuel (acc ++ [s]) c
      | (.rt _, c) =>
        let c2 := synchronize tks c
        if isAtEnd tks c2 then (.ok acc, c2)
        else programLoop fuel acc c2
      | (.oor m, c) => (.oor m, c)
      | (.fuelOut, c) => (.fuelOut, c)
termination_by structural f a c => f

end

end

/-- `Parser::parse`: `try \{ return parseProgram(); \} catch (const
runtime_error&) \{ ...; return make_shared<ProgramNode>(); \}` — a
`runtime_error` yields an empty Program; `out_of_range` escapes to the
caller. -/
def parse (tks : List Token) (fuel : Nat) : PRes ProgramNode :=
  match parseProgram tks fuel 0 with
  | (.ok ss, _) => .ok ⟨ss⟩
  | (.rt _, _) => .ok ⟨[]⟩
  | (.oor m, _) => .oor m
  | (.fuelOut, _) => .fuelOut

end Parser

/-! ## Code generator (src/transpiler.cpp)

`Transpiler` is stateless; `generate(Program, macros) -> text` is the
composition `transpile -> transpileProgram`.  Indentation is the explicit
level threaded through every call. -/

namespace Transpiler

/-- "contains only whitespace" (the `remove_if isspace` + `empty()`
pattern used in `indent` and `transpileBlock`; true on the empty
string). -/
def isAllSpace (s : String) : Bool :=
  s.toList.all (fun c => cIsSpace c)

/-- `std::getline` over a string: the list of lines, where a trailing
newline does not produce a final empty line. -/
def getlineLines (s : String) : List String :=
  if s = "" then []
  else
    let parts := splitOnChar s '\n'
    if strEndsWith s '\n' then parts.dropLast else parts

/-- The line loop of `Transpiler::indent`: prefix every non-empty line
with `indentStr`, joining lines with newlines; tracks whether any
non-empty line was emitted. -/
def indentLinesLoop (indentStr : String) :
    List String → Bool → Bool → String → String × Bool
  | [], _, content, out => (out, content)
  | line :: rest, firstDone, content, out =>
    let line := if strEndsWith line '\r' then line.dropRight 1 else line
    let out := if firstDone then out ++ "\n" else out
    let (out, content) :=
      if line ≠ "" then (out ++ indentStr ++ line, true) else (out, content)
    indentLinesLoop indentStr rest true content out

/-- `Transpiler::indent(code_block, level_delta, add_pass_if_empty)`
(the third parameter defaults to `false` in the header). -/
def indent (code_block : String) (level_delta : Nat)
    (add_pass_if_empty : Bool := false) : String :=
  if level_delta = 0 then
    if add_pass_if_empty && isAllSpace code_block then "pass\n"
    else code_block
  else
    let indentStr := String.mk (List.replicate (level_delta * 4) ' ')
    if isAllSpace code_block && add_pass_if_empty then indentStr ++ "pass\n"
    else
      let r := indentLinesLoop indentStr (getlineLines code_block) false false ""
      if r.2 && (r.1 = "" || ¬ strEndsWith r.1 '\n') then r.1 ++ "\n"
      else if ¬ r.2 && add_pass_if_empty && ¬ isAllSpace code_block then
        if r.1 = "" then indentStr ++ "pass\n" else r.1
      else r.1

/-- Per-character escaping of `Transpiler::transpileStringLiteralNode`. -/
def pyEscapeChar (c : Char) : String :=
  if c = '"' then "\\\"" else if c = '\\' then "\\\\"
  else if c = '\n' then "\\n" else if c = '\r' then "\\r"
  else if c = '\t' then "\\t" else String.singleton c

/-- Per-character escaping of `Transpiler::transpileCharLiteralNode`. -/
def pyEscapeCharLit (c : Char) : String :=
  if c = '\'' then "\\'" else if c = '\\' then "\\\\"
  else if c = '\n' then "\\n" else if c = '\r' then "\\r"
  else if c = '\t' then "\\t" else String.singleton c

/-! `Transpiler::transpileExpression` together with the per-variant
expression transpilers (the dynamic_pointer_cast chain dispatches on
disjoint node classes, so it is a plain structural match);
`transpileExprList` is the argument-joining loop of
`transpileFunctionCallNode`. -/
mutual

/-- `Transpiler::transpileExpression`. -/
def transpileExpr : Expr → String
  | .binary op l r =>
    let left := transpileExpr l
    let right := transpileExpr r
    let op := if op = "&&" then "and" else if op = "||" then "or" else op
    "(" ++ left ++ " " ++ op ++ " " ++ right ++ ")"
  | .unary op operand =>
    let operandS := transpileExpr operand
    let op := if op = "!" then "not " else op
    if op = "&" then operandS else op ++ operandS
  | .arraySub a i => transpileExpr a ++ "[" ++ transpileExpr i ++ "]"
  | .ident n => n
  | .number v => v
  | .stringLit v => "\"" ++ String.join (v.toList.map pyEscapeChar) ++ "\""
  | .charLit v =>
    if v.length ≠ 1 then "'#ERR_CHAR'"
    else "'" ++ String.join (v.toList.map pyEscapeCharLit) ++ "'"
  | .boolLit b => if b then "True" else "False"
  | .funcCall n args =>
    n ++ "(" ++ String.intercalate ", " (transpileExprList args) ++ ")"
  | .assign l r => transpileExpr l ++ " = " ++ transpileExpr r
termination_by structural e => e

/-- Argument rendering loop of `transpileFunctionCallNode`. -/
def transpileExprList : List Expr → List String
  | [] => []
  | e :: rest => transpileExpr e :: transpileExprList rest
termination_by structural l => l

end

/-- `Transpiler::transpileExpression` on a nullable expression pointer
(`if (!expr) return "";`). -/
def transpileExprO : Option Expr → String
  | none => ""
  | some e => transpileExpr e

/-- `Transpiler::transpileVariableDeclaration`: an initializer renders as
an assignment, a bare declaration renders as nothing. -/
def transpileVariableDeclaration (name : String) (ini : Option Expr) :
    String :=
  match ini with
  | some e => name ++ " = " ++ transpileExpr e ++ "\n"
  | none => ""

/-- The format-string scan of `Transpiler::transpilePrintfStatement`:
`%%` → `%`; `%` followed by any character consumes one argument and emits
`{arg}` (skipping only that one character); `%` with no argument left (or
trailing) emits a literal `%` without skipping; `{`/`}` are doubled;
`\n`, `\t`, `"` are re-escaped; everything else is copied. -/
def printfLoop : List Char → Nat → List String → String
  | [], _, _ => ""
  | ['%'], _, _ => "%"
  | '%' :: c2 :: rest2, argIdx, pyArgs =>
    if c2 = '%' then "%" ++ printfLoop rest2 argIdx pyArgs
    else if argIdx < pyArgs.length then
      "\x7b" ++ pyArgs.getD argIdx "" ++ "\x7d" ++ printfLoop rest2 (argIdx + 1) pyArgs
    else "%" ++ printfLoop (c2 :: rest2) argIdx pyArgs
  | c :: rest, argIdx, pyArgs =>
    (if c = '{' then "\x7b\x7b"
     else if c = '}' then "\x7d\x7d"
     else if c = '\n' then "\\n"
     else if c = '\t' then "\\t"
     else if c = '"' then "\\\""
     else String.singleton c) ++ printfLoop rest argIdx pyArgs
termination_by structural l _ _ => l

/-- `Transpiler::transpilePrintfStatement`. -/
def transpilePrintfStatement (fmt : Expr) (args : List Expr) : String :=
  match fmt with
  | .stringLit formatStr =>
    let pyArgs := args.map transpileExpr
    "print(f\"" ++ printfLoop formatStr.toList 0 pyArgs ++ "\")\n"
  | _ => "# Error: printf format string is not a string literal\n"

/-- Target extraction of `Transpiler::transpileScanfStatement`: the
operand of a unary `&`, otherwise (with only a stderr warning) the
transpiled argument itself. -/
def scanfTarget (e : Expr) : String :=
  match e with
  | .unary op operand =>
    if op = "&" then transpileExpr operand
    else transpileExpr (.unary op operand)
  | other => transpileExpr other

/-- The specifier count of `transpileScanfStatement`: occurrences of `%`
not immediately followed by another `%` (each position is examined). -/
def countSpecs : List Char → Nat
  | [] => 0
  | ['%'] => 0
  | '%' :: c :: rest =>
    (if c ≠ '%' then 1 else 0) + countSpecs (c :: rest)
  | _ :: rest => countSpecs rest

/-- `istream >> string` extraction: whitespace-separated words. -/
def splitWs (s : String) : List String :=
  ((splitCharsP (fun c => cIsSpace c) s.toList).map String.mk).filter
    (· ≠ "")

/-- Position of the first `c` in `s` (`string::find`). -/
def strFindChar (s : String) (c : Char) : Option Nat :=
  s.toList.findIdx? (· = c)

/-- The `while (fs >> spec_token && ...)` loop of
`transpileScanfStatement`; returns the generated assignments and the
final `var_idx`. -/
def scanfLoop (targets : List String) (specCount : Nat) (multiple : Bool) :
    List String → Nat → String → String × Nat
  | [], varIdx, acc => (acc, varIdx)
  | w :: rest, varIdx, acc =>
    if varIdx < targets.length ∧ varIdx < specCount then
      let spec? : Option String :=
        if strStartsWith w '%' then some w
        else
          match strFindChar w '%' with
          | some p => some (String.mk (w.toList.drop p))
          | none => none
      match spec? with
      | none => scanfLoop targets specCount multiple rest varIdx acc
      | some specToken =>
        let target := targets.getD varIdx ""
        let rhs :=
          if multiple then "_temp_inputs[" ++ toString varIdx ++ "]"
          else
            "input(\"Enter value for " ++ specToken ++ " (" ++ target ++
              "): \\n\")"
        let lineOut :=
          if specToken = "%d" then target ++ " = int(" ++ rhs ++ ")\n"
          else if specToken = "%f" then target ++ " = float(" ++ rhs ++ ")\n"
          else if specToken = "%s" then target ++ " = " ++ rhs ++ "\n"
          else if specToken = "%c" then
            target ++ " = (" ++ rhs ++ ")[0] if " ++ rhs ++ " else ''\n"
          else
            target ++ " = " ++ rhs ++ " # Unhandled scanf specifier " ++
              specToken ++ "\n"
        scanfLoop targets specCount multiple rest (varIdx + 1) (acc ++ lineOut)
    else (acc, varIdx)

/-- `Transpiler::transpileScanfStatement`. -/
def transpileScanfStatement (fmt : Expr) (args : List Expr) : String :=
  match fmt with
  | .stringLit formatStr =>
    let targets := args.map scanfTarget
    let hasWs := formatStr.toList.any (fun c => c = ' ' ∨ c = '\t' ∨ c = '\n')
    let multiPct := 2 ≤ formatStr.toList.count '%'
    let multiple := (hasWs ∧ 1 < targets.length) ∨
      (1 < targets.length ∧ ¬ hasWs ∧ multiPct)
    let promptPrefix :=
      if multiple ∧ targets ≠ [] then
        let tempPrompt := "Enter values for format '" ++
          String.join (formatStr.toList.map
            (fun fc => if fc = '\n' then "\\n" else String.singleton fc)) ++ "'"
        "_temp_inputs = input(\"" ++ tempPrompt ++ "\\n\").split()\n"
      else ""
    let specCount := countSpecs formatStr.toList
    let r := scanfLoop targets specCount multiple (splitWs formatStr) 0 ""
    let acc := promptPrefix ++ r.1
    let acc :=
      if r.2 < targets.length then
        acc ++ "# Warning: Not all scanf target variables were assigned due to too few format specifiers processed.\n"
      else acc
    if r.2 < specCount ∧ multiple then
      acc ++ "# Warning: More format specifiers than provided input slots processed for _temp_inputs.\n"
    else acc
  | _ => "# Error: scanf format string is not a string literal\n"

/-- `Transpiler::transpileReturnStatement`. -/
def transpileReturnStatement (v : Option Expr) : String :=
  match v with
  | none => "return\n"
  | some e => "return " ++ transpileExpr e ++ "\n"

/-- `Transpiler::transpileArrayDeclaration`. -/
def transpileArrayDeclaration (name : String) (sizeE : Expr) : String :=
  name ++ " = [None] * (" ++ transpileExpr sizeE ++ ")" ++ "\n"

/-- `type_name` of each statement node constructor. -/
def Stmt.typeName : Stmt → String
  | .block _ => "BlockNode"
  | .exprStmt _ => "ExpressionStatementNode"
  | .printfS .. => "PrintfNode"
  | .scanfS .. => "ScanfNode"
  | .ifS .. => "IfNode"
  | .whileS .. => "WhileNode"
  | .forS .. => "ForNode"
  | .ret _ => "ReturnNode"
  | .brk => "BreakNode"
  | .cont => "ContinueNode"
  | .varDecl .. => "VariableDeclarationNode"
  | .arrayDecl .. => "ArrayDeclarationNode"
  | .funcDecl .. => "FunctionDeclarationNode"

/-- The initializer stage of `Transpiler::transpileForStatement`:
either an early-returned unsupported-initializer comment, or
`(loopVar, startValue, init_code_for_while_fallback)` (`loopVar = ""`
when the range heuristic cannot identify a loop variable;
`startValue` defaults to `"0"`).  An `ArrayDeclarationNode` passes the
`VariableDeclarationNode` cast with a null `getInitializer()`. -/
def forInitInfo (ini : Option Stmt) (lvl : Nat) :
    String ⊕ (String × String × String) :=
  match ini with
  | none => Sum.inr ("", "0", "")
  | some (.varDecl n _ i) =>
    let startValue := match i with
      | some e => transpileExpr e
      | none => "0"
    Sum.inr (n, startValue, transpileVariableDeclaration n i)
  | some (.arrayDecl n _ _) =>
    Sum.inr (n, "0", transpileVariableDeclaration n none)
  | some (.exprStmt e) =>
    let fallback := transpileExpr e ++ "\n"
    match e with
    | .assign (.ident n) r => Sum.inr (n, transpileExpr r, fallback)
    | _ => Sum.inr ("", "0", fallback)
  | some other =>
    Sum.inl (indent ("# Unsupported for-loop initializer type: " ++
      Stmt.typeName other ++ "\n") lvl)

/-- The condition stage of `transpileForStatement`:
`(stopValue, inclusive_for_range, condition_py_expr_for_while)` — the
range stop is only recognized for `loopVar < rhs` / `loopVar <= rhs`. -/
def forCondInfo (condE : Option Expr) (loopVar : String) :
    String × Bool × String :=
  match condE with
  | none => ("", false, "True")
  | some ce =>
    let condPy := transpileExpr ce
    if loopVar ≠ "" then
      match ce with
      | .binary op (.ident lname) rhs =>
        if lname = loopVar then
          if op = "<" ∨ op = "<=" then
            (transpileExpr rhs, op = "<=", condPy)
          else ("", false, condPy)
        else ("", false, condPy)
      | _ => ("", false, condPy)
    else ("", false, condPy)

/-- `std::stoi`: optional whitespace, optional sign, a non-empty digit
run; `none` models both `invalid_argument` and `out_of_range` (outside
the 32-bit int range), which the code catches identically. -/
def stoiModel (s : String) : Option Int :=
  let cs := s.toList.dropWhile (fun c => cIsSpace c)
  let signed : Int × List Char :=
    match cs with
    | '+' :: r => (1, r)
    | '-' :: r => (-1, r)
    | r => (1, r)
  let digits := signed.2.takeWhile (fun c => cIsDigit c)
  if digits = [] then none
  else
    let mag : Nat := digits.foldl (fun a c => a * 10 + (c.toNat - '0'.toNat)) 0
    let v : Int := signed.1 * (mag : Int)
    if v < -(2 ^ 31) ∨ (2 ^ 31) ≤ v then none else some v

/-- The increment stage of `transpileForStatement`:
`(step_for_range, simple_increment_for_range,
increment_py_expr_for_while)`; recognizes `loopVar = loopVar ± N` with a
`stoi`-parseable literal, and `++`/`--` on the loop variable. -/
def forIncInfo (incE : Option Expr) (loopVar : String) :
    Int × Bool × String :=
  match incE with
  | none => (1, false, "")
  | some ie =>
    let incPy := transpileExpr ie
    if loopVar ≠ "" then
      match ie with
      | .assign (.ident lname) rv =>
        if lname = loopVar then
          match rv with
          | .binary bop (.ident iname) (.number nval) =>
            if iname = loopVar then
              match stoiModel nval with
              | some v =>
                if bop = "+" then (v, true, incPy)
                else if bop = "-" then (-v, true, incPy)
                else (1, false, incPy)
              | none => (1, false, incPy)
            else (1, false, incPy)
          | _ => (1, false, incPy)
        else (1, false, incPy)
      | .assign _ _ => (1, false, incPy)
      | .unary uop operand =>
        match operand with
        | .ident oname =>
          if oname = loopVar then
            if uop = "++" then (1, true, incPy)
            else if uop = "--" then (-1, true, incPy)
            else (1, false, incPy)
          else (1, false, incPy)
        | _ => (1, false, incPy)
      | _ => (1, false, incPy)
    else (1, false, incPy)

/-- `dynamic_pointer_cast<VariableDeclarationNode>(initializer)` (true
for both `VariableDeclarationNode` and its subclass
`ArrayDeclarationNode`). -/
def isVarDeclCast : Option Stmt → Bool
  | some (.varDecl ..) => true
  | some (.arrayDecl ..) => true
  | _ => false

/-- The `if (statement_code_to_indent.empty()) return ""; return
indent(...)` tail of `transpileStatement` for leaf statements. -/
def indentNonEmpty (code : String) (lvl : Nat) : String :=
  if code = "" then "" else indent code lvl

/-- The non-recursive part of `Transpiler::transpileForStatement`: the
three heuristic stages and both renderings, with the already-rendered
body text passed in (the C++ renders the body identically in both the
range and the while branches). -/
def transpileForCore (ini : Option Stmt) (condE incE : Option Expr)
    (lvl : Nat) (bodyR : String) : String :=
  match forInitInfo ini lvl with
  | Sum.inl early => early
  | Sum.inr info =>
    let loopVar := info.1
    let startValue := info.2.1
    let initFallback := info.2.2
    let condInfo := forCondInfo condE loopVar
    let stopValue := condInfo.1
    let inclusive := condInfo.2.1
    let condPy := condInfo.2.2
    let incInfo := forIncInfo incE loopVar
    let step := incInfo.1
    let simpleInc := incInfo.2.1
    let incPy := incInfo.2.2
    let useRange := loopVar ≠ "" ∧ startValue ≠ "" ∧ stopValue ≠ "" ∧
      simpleInc ∧ step ≠ 0
    if useRange then
      let effectiveStop :=
        if inclusive then
          if 0 < step then "(" ++ stopValue ++ " + 1)"
          else if step < 0 then "(" ++ stopValue ++ " - 1)"
          else stopValue
        else stopValue
      let stepStr := if step ≠ 1 then ", " ++ toString step else ""
      indent (loopVar ++ " = " ++ startValue ++ "\n") lvl ++
      indent ("for " ++ loopVar ++ " in range(" ++ startValue ++ ", " ++
        effectiveStop ++ stepStr ++ "):\n") lvl ++
      bodyR
    else
      (if initFallback ≠ "" then indent initFallback lvl
       else if loopVar ≠ "" ∧ isVarDeclCast ini then
         indent (loopVar ++ " = " ++ startValue ++ "\n") lvl
       else "") ++
      indent ("while " ++ condPy ++ ":\n") lvl ++
      (bodyR ++
       (if incPy ≠ "" then indent (incPy ++ "\n") (lvl + 1) else ""))

/-!
The statement-level methods of `Transpiler` are mutually recursive
through helpers that receive components of a statement rather than the
statement itself, so the recursion is not structural in the AST.  The
embedding threads fuel through the block instead (structural in the
fuel), decremented at every call between the functions of the block.
Every such call strictly decreases the measure "2 * sizeOf of the
statement data held by the callee, plus a rank bit", so the fuel
supplied by the un-fuelled wrappers below — one more than that measure —
is never exhausted and the fuel-out arms returning `""` are unreachable.
-/

mutual

/-- `Transpiler::transpileStatement` (fuelled): structural statements
receive the indent level directly; leaf statements are rendered
unindented and then passed once through `indent`. -/
def transpileStmtF : Nat → Stmt → Nat → String
  | 0, _, _ => ""
  | fuel + 1, s, lvl =>
    match s with
    | .funcDecl n r ps b => transpileFunctionDeclarationF fuel n r ps b
    | .ifS c t e => transpileIfStatementF fuel c t e lvl
    | .forS i c n b => transpileForStatementF fuel i c n b lvl
    | .whileS c b => transpileWhileStatementF fuel c b lvl
    | .block ss => transpileBlockF fuel ss lvl
    | .arrayDecl n _ sz => indentNonEmpty (transpileArrayDeclaration n sz) lvl
    | .varDecl n _ i => indentNonEmpty (transpileVariableDeclaration n i) lvl
    | .exprStmt e => indentNonEmpty (transpileExpr e ++ "\n") lvl
    | .printfS f a => indentNonEmpty (transpilePrintfStatement f a) lvl
    | .scanfS f a => indentNonEmpty (transpileScanfStatement f a) lvl
    | .ret v => indentNonEmpty (transpileReturnStatement v) lvl
    | .brk => indentNonEmpty "break\n" lvl
    | .cont => indentNonEmpty "continue\n" lvl
termination_by structural f _ _ => f

/-- The per-child rendering loop of `transpileBlock` /
`transpileProgram` (fuelled). -/
def transpileStmtListF : Nat → List Stmt → Nat → String
  | 0, _, _ => ""
  | fuel + 1, ss, lvl =>
    match ss with
    | [] => ""
    | s :: rest => transpileStmtF fuel s lvl ++ transpileStmtListF fuel rest lvl
termination_by structural f _ _ => f

/-- `Transpiler::transpileBlock` (fuelled): children at
`content_indent_level`; an all-whitespace result becomes an indented
`pass`. -/
def transpileBlockF : Nat → List Stmt → Nat → String
  | 0, _, _ => ""
  | fuel + 1, ss, lvl =>
    let collected := transpileStmtListF fuel ss lvl
    if isAllSpace collected then indent "pass\n" lvl
    else collected
termination_by structural f _ _ => f

/-- `Transpiler::transpileIfStatement` (fuelled): iterative `elif` chain
at the originating level. -/
def transpileIfStatementF : Nat → Expr → Stmt → Option Stmt → Nat → String
  | 0, _, _, _, _ => ""
  | fuel + 1, cond, thenB, elseB, lvl =>
    let code := indent ("if " ++ transpileExpr cond ++ ":\n") lvl ++
      transpileStmtF fuel thenB (lvl + 1)
    elifChainF fuel code elseB lvl
termination_by structural f _ _ _ _ => f

/-- The `while (current_else_branch)` loop of `transpileIfStatement`
(fuelled). -/
def elifChainF : Nat → String → Option Stmt → Nat → String
  | 0, code, _, _ => code
  | fuel + 1, code, os, lvl =>
    match os with
    | none => code
    | some s =>
      match s with
      | .ifS c2 t2 e2 =>
        elifChainF fuel
          (code ++ indent ("elif " ++ transpileExpr c2 ++ ":\n") lvl ++
            transpileStmtF fuel t2 (lvl + 1)) e2 lvl
      | other =>
        code ++ indent "else:\n" lvl ++ transpileStmtF fuel other (lvl + 1)
termination_by structural f _ _ _ => f

/-- `Transpiler::transpileWhileStatement` (fuelled). -/
def transpileWhileStatementF : Nat → Expr → Stmt → Nat → String
  | 0, _, _, _ => ""
  | fuel + 1, cond, body, lvl =>
    indent ("while " ++ transpileExpr cond ++ ":\n") lvl ++
      transpileStmtF fuel body (lvl + 1)
termination_by structural f _ _ _ => f

/-- `Transpiler::transpileForStatement` (fuelled): the countable-loop
heuristic (three stages above), rendering `range(start, stop', step)`
when it succeeds and the initializer + `while` + re-rendered increment
fallback otherwise. -/
def transpileForStatementF : Nat → Option Stmt → Option Expr →
    Option Expr → Option Stmt → Nat → String
  | 0, _, _, _, _, _ => ""
  | fuel + 1, ini, condE, incE, body, lvl =>
    transpileForCore ini condE incE lvl
      (match body with
       | some b => transpileStmtF fuel b (lvl + 1)
       | none => indent "pass\n" (lvl + 1))
termination_by structural f _ _ _ _ _ => f

/-- `Transpiler::transpileFunctionDeclaration` (fuelled; always at top
level, parameter names only; a missing or empty body renders `pass`). -/
def transpileFunctionDeclarationF : Nat → String → String → List Param →
    Option (List Stmt) → String
  | 0, _, _, _, _ => ""
  | fuel + 1, name, _retType, params, body =>
    let header := "def " ++ name ++ "(" ++
      String.intercalate ", " (params.map (·.name)) ++ "):\n"
    let code := indent header 0
    match body with
    | some ss =>
      if ¬ ss.isEmpty then code ++ transpileBlockF fuel ss 1
      else code ++ indent "pass\n" 1
    | none => code ++ indent "pass\n" 1
termination_by structural f _ _ _ _ => f

end

/-!  A computable size measure on statements, used only to compute the
fuel handed to the fuelled block: one more than twice the size bounds
the call measure described above. -/

mutual

def stmtSize : Stmt → Nat
  | .block ss => 1 + stmtListSize ss
  | .exprStmt _ => 1
  | .printfS _ _ => 1
  | .scanfS _ _ => 1
  | .ifS _ t e => 1 + stmtSize t + optStmtSize e
  | .whileS _ b => 1 + stmtSize b
  | .forS i _ _ b => 1 + optStmtSize i + optStmtSize b
  | .ret _ => 1
  | .brk => 1
  | .cont => 1
  | .varDecl .. => 1
  | .arrayDecl .. => 1
  | .funcDecl _ _ _ b => 1 + optStmtListSize b
termination_by structural s => s

def stmtListSize : List Stmt → Nat
  | [] => 1
  | s :: rest => 1 + stmtSize s + stmtListSize rest
termination_by structural l => l

def optStmtSize : Option Stmt → Nat
  | none => 1
  | some s => 1 + stmtSize s
termination_by structural o => o

def optStmtListSize : Option (List Stmt) → Nat
  | none => 1
  | some ss => 1 + stmtListSize ss
termination_by structural o => o

end

/-- `Transpiler::transpileStatement`. -/
def transpileStmt (s : Stmt) (lvl : Nat) : String :=
  transpileStmtF (2 * stmtSize s + 2) s lvl

/-- The statement-list rendering loop at its natural fuel. -/
def transpileStmtList (ss : List Stmt) (lvl : Nat) : String :=
  transpileStmtListF (2 * stmtListSize ss + 1) ss lvl

/-- `Transpiler::transpileBlock`. -/
def transpileBlock (ss : List Stmt) (lvl : Nat) : String :=
  transpileBlockF (2 * stmtListSize ss + 2) ss lvl

/-- `Transpiler::transpileIfStatement`. -/
def transpileIfStatement (cond : Expr) (thenB : Stmt) (elseB : Option Stmt)
    (lvl : Nat) : String :=
  transpileIfStatementF (2 * (stmtSize thenB + optStmtSize elseB) + 3) cond
    thenB elseB lvl

/-- The `elif` chain loop at its natural fuel. -/
def elifChain (code : String) (os : Option Stmt) (lvl : Nat) : String :=
  elifChainF (2 * optStmtSize os + 2) code os lvl

/-- `Transpiler::transpileWhileStatement`. -/
def transpileWhileStatement (cond : Expr) (body : Stmt) (lvl : Nat) :
    String :=
  transpileWhileStatementF (2 * stmtSize body + 3) cond body lvl

/-- `Transpiler::transpileForStatement`. -/
def transpileForStatement (ini : Option Stmt) (condE : Option Expr)
    (incE : Option Expr) (body : Option Stmt) (lvl : Nat) : String :=
  transpileForStatementF (2 * optStmtSize body + 3) ini condE incE body lvl

/-- `Transpiler::transpileFunctionDeclaration`. -/
def transpileFunctionDeclaration (name retType : String)
    (params : List Param) (body : Option (List Stmt)) : String :=
  transpileFunctionDeclarationF (2 * optStmtListSize body + 3) name retType
    params body

/-- Fuel used for the nested macro-body parse (an embedding artifact:
large enough that the bounded recursive-descent parse of a token list of
this length can never run out). -/
def macroFuel (tks : List Token) : Nat := (tks.length + 1) * 64

/-- `Transpiler::transpileMacroBodyToPythonExpression`: re-tokenize and
re-parse the raw macro body as a standalone expression.  The
`catch (runtime_error)` branch that returns "None" requires
`bodyTokens.empty()`, which the earlier guards make unreachable, so a
parse failure yields the `#ERROR_PARSING_MACRO_BODY` marker.  An
`out_of_range` escaping the nested parse is not caught anywhere in C++
(the process would terminate); no claim exercises that path and it is
represented by a distinct marker, as is fuel exhaustion. -/
def transpileMacroBodyToPythonExpression (body : String)
    (_params : List String) : String :=
  if body = "" then "None"
  else
    let bodyTokens0 := (Lexer.tokenize body).1
    let bodyTokens :=
      if bodyTokens0 ≠ [] ∧
          (bodyTokens0.getLastD Parser.defTok).type = .EndOfFile then
        bodyTokens0.dropLast
      else bodyTokens0
    if bodyTokens = [] ∧ body ≠ "" ∧ isAllSpace body then "None"
    else if bodyTokens = [] ∧ body ≠ "" then "#ERROR_EMPTY_TOKENS_FOR_MACRO_BODY"
    else if bodyTokens = [] ∧ body = "" then "None"
    else
      match Parser.parseExpression bodyTokens (macroFuel bodyTokens) 0 with
      | (.ok e, _) => transpileExpr e
      | (.rt _, _) => "#ERROR_PARSING_MACRO_BODY"
      | (.oor _, _) => "#UNCAUGHT_EXCEPTION_IN_MACRO_BODY"
      | (.fuelOut, _) => "#EMBEDDING_FUEL_EXHAUSTED"

/-- The macro-definition section of `Transpiler::transpileProgram`:
invalid macros are skipped; function-like macros render as `def`s
returning the body expression, object-like macros as assignments. -/
def transpileMacros : List MacroDefinition → String
  | [] => ""
  | m :: rest =>
    (if ¬ m.valid then ""
     else if m.isFunctionLike then
       "def " ++ m.name ++ "(" ++ String.intercalate ", " m.parameters ++
         "):\n" ++
       indent ("return " ++
         transpileMacroBodyToPythonExpression m.body m.parameters ++ "\n") 1
     else
       m.name ++ " = " ++
         transpileMacroBodyToPythonExpression m.body [] ++ "\n") ++
    transpileMacros rest

/-- `Transpiler::transpileProgram`: macro section (plus a blank line when
non-empty), then the top-level statements at indent level 0. -/
def transpileProgram (p : ProgramNode) (macros : List MacroDefinition) :
    String :=
  let tm := transpileMacros macros
  (if tm ≠ "" then tm ++ "\n" else tm) ++ transpileStmtList p.stmts 0

/-- `Transpiler::transpile` — the `generate(Program, macros) -> text`
entry point. -/
def transpile (p : ProgramNode) (macros : List MacroDefinition) : String :=
  transpileProgram p macros

end Transpiler

/-! ## The end-to-end pipeline (main.cpp)

`main` reads the source, tokenizes, parses, and generates.  The parser
fuel — an embedding artifact — is ample for the token count; the
exceptional parse outcomes are surfaced as tagged strings (none of them
occurs on the pipeline runs below). -/

def pipeline (src : String) : String :=
  let r := Lexer.tokenize src
  match Parser.parse r.1 ((r.1.length + 1) * 64) with
  | .ok p => Transpiler.transpile p r.2
  | .rt m => "#PARSE_RT " ++ m
  | .oor m => "#PARSE_OOR " ++ m
  | .fuelOut => "#PARSE_FUEL_OUT"

/-! ## Claims -/

/-- The token list ends with exactly one EndOfFile token. -/
def endsWithOneEOF (ts : List Token) : Bool :=
  match ts.getLast? with
  | some e => e.type = .EndOfFile &&
      ts.dropLast.all (fun t => ¬ t.type = .EndOfFile)
  | none => false

theorem endsWithOneEOF_cons (t : Token) (ts : List Token)
    (ht : t.type ≠ .EndOfFile) (hts : endsWithOneEOF ts = true) :
    endsWithOneEOF (t :: ts) = true := by
  cases ts with
  | nil => simp [endsWithOneEOF] at hts
  | cons h tl =>
    unfold endsWithOneEOF at hts ⊢
    simp only [List.getLast?_cons_cons] at hts ⊢
    cases hgl : (h :: tl).getLast? with
    | none => rw [hgl] at hts; exact absurd hts (by simp)
    | some e =>
      rw [hgl] at hts
      simp only [Bool.and_eq_true] at hts ⊢
      refine ⟨hts.1, ?_⟩
      have hdl : (t :: h :: tl).dropLast = t :: (h :: tl).dropLast := rfl
      rw [hdl]
      simp only [List.all_cons, Bool.and_eq_true]
      exact ⟨by simpa using ht, hts.2⟩

theorem tokenizeFuel_endsOneEOF : ∀ (n : Nat) (st : LexState),
    st.chars.length ≤ n → ∀ f, st.chars.length < f →
    endsWithOneEOF (Lexer.tokenizeFuel f st).1 = true := by
  intro n
  induction n with
  | zero =>
    intro st hle f hf
    obtain ⟨f1, rfl⟩ : ∃ f1, f = f1 + 1 := ⟨f - 1, by omega⟩
    have hnil : st.chars = [] := List.length_eq_zero.mp (Nat.le_zero.mp hle)
    have heof : (Lexer.nextToken st).1.type = .EndOfFile := by
      rcases Lexer.nextToken_progress st with h | h
      · exact h
      · rw [hnil] at h
        exact absurd h (by simp)
    unfold Lexer.tokenizeFuel
    dsimp only
    rw [if_pos heof]
    simp [endsWithOneEOF, heof]
  | succ n ih =>
    intro st hle f hf
    obtain ⟨f1, rfl⟩ : ∃ f1, f = f1 + 1 := ⟨f - 1, by omega⟩
    unfold Lexer.tokenizeFuel
    dsimp only
    by_cases he : (Lexer.nextToken st).1.type = .EndOfFile
    · rw [if_pos he]
      simp [endsWithOneEOF, he]
    · rw [if_neg he]
      have hlt : (Lexer.nextToken st).2.chars.length < st.chars.length := by
        rcases Lexer.nextToken_progress st with h | h
        · exact absurd h he
        · exact h
      exact endsWithOneEOF_cons _ _ he (ih _ (by omega) f1 (by omega))

/-- C8: `tokenize` terminates on every finite input — each `nextToken`
call either returns the EndOfFile token or strictly consumes input — and
the returned token list ends with exactly one EndOfFile token. -/
theorem claim_C8 :
    (∀ source : String, endsWithOneEOF (Lexer.tokenize source).1 = true) ∧
    (∀ st : LexState, (Lexer.nextToken st).1.type = .EndOfFile ∨
      (Lexer.nextToken st).2.chars.length < st.chars.length) := by
  constructor
  · intro source
    unfold Lexer.tokenize Lexer.tokenizeLoop
    exact tokenizeFuel_endsOneEOF _ _ (le_refl _) _ (Nat.lt_succ_self _)
  · exact Lexer.nextToken_progress

theorem string_empty_append (s : String) : "" ++ s = s := by
  rcases s with ⟨l⟩
  rfl

/-- C1 counterexample: a `#define` whose parsing fails inside the
parameter list (`#define F(,) x`) retains no `MacroDefinition` at all —
the macro is dropped rather than kept with `valid = false`, so the
"every failing `#define` is retained invalid" reading is false. -/
theorem claim_C1_counterexample :
    (Lexer.tokenize "#define F(,) x\nint y;").2 = [] := by decide

/-- C1 (amended): only the bad-macro-name failure retains an invalid
`MacroDefinition` in the tokenizer's macro list; a `#define` failing
later — in the parameter list or before the closing parenthesis — is
skipped entirely; and generation excludes every macro with
`valid = false` from the output text. -/
theorem claim_C1 :
    (Lexer.tokenize "#define 5X bad\nint y;").2 =
      [{ name := "", isFunctionLike := false, parameters := [], body := "",
         line := 1, valid := false }] ∧
    (Lexer.tokenize "#define F(a\nint y;").2 = [] ∧
    (Lexer.tokenize "#define F(a, b\nint y;").2 = [] ∧
    (∀ (m : MacroDefinition) (rest : List MacroDefinition),
      m.valid = false →
      Transpiler.transpileMacros (m :: rest) =
        Transpiler.transpileMacros rest) := by
  refine ⟨by decide, by decide, by decide, ?_⟩
  intro m rest hv
  conv_lhs => rw [Transpiler.transpileMacros]
  rw [hv]
  simp [string_empty_append]

theorem claim_C1_witness :
    ({ valid := false : MacroDefinition }).valid = false ∧
    Transpiler.transpileMacros [{ valid := false : MacroDefinition }] =
      Transpiler.transpileMacros [] :=
  ⟨by decide, claim_C1.2.2.2 { valid := false } [] (by decide)⟩

/-- C6 counterexample: the tokenizer's escape switch has no `'0'` case,
so `\0` inside a literal passes the digit `0` through (it does not yield
the NUL character), while the parser's own `unescapeLiteralContent` does
map `\0` to NUL — the two escape tables are not the same. -/
theorem claim_C6_counterexample :
    ((Lexer.tokenize "\"a\\0b\"").1.headD Parser.defTok).value = "a0b" ∧
    Parser.unescapeLiteralContent "\\0" = "\x00" ∧
    Lexer.stringEscapeChar '0' = '0' := by decide

/-- C6 (amended): the tokenizer maps `\n \t \r \\ \" \b \f` (and, by
fall-through, leaves `\'` and any unrecognized escape as the bare
escaped character, dropping the backslash — in particular `\0` becomes
the digit `0`); the parser's `unescapeLiteralContent` instead maps
`\n \t \r \\ \' \" \0` and keeps the backslash on everything else, so
the two tables disagree on `\0`, `\b`, `\f` and on unrecognized
escapes. -/
theorem claim_C6 :
    (Lexer.stringEscapeChar 'n' = '\n' ∧ Lexer.stringEscapeChar 't' = '\t' ∧
     Lexer.stringEscapeChar 'r' = '\r' ∧ Lexer.stringEscapeChar '\\' = '\\' ∧
     Lexer.stringEscapeChar '\'' = '\'' ∧ Lexer.stringEscapeChar '"' = '"' ∧
     Lexer.stringEscapeChar '0' = '0' ∧ Lexer.stringEscapeChar 'b' = '\x08' ∧
     Lexer.stringEscapeChar 'f' = '\x0c' ∧ Lexer.stringEscapeChar 'q' = 'q') ∧
    (Lexer.charEscapeChar '\'' = '\'' ∧ Lexer.charEscapeChar '0' = '0') ∧
    (Parser.unescapeLiteralContent "\\n" = "\n" ∧
     Parser.unescapeLiteralContent "\\t" = "\t" ∧
     Parser.unescapeLiteralContent "\\r" = "\r" ∧
     Parser.unescapeLiteralContent "\\\\" = "\\" ∧
     Parser.unescapeLiteralContent "\\'" = "'" ∧
     Parser.unescapeLiteralContent "\\\"" = "\"" ∧
     Parser.unescapeLiteralContent "\\0" = "\x00" ∧
     Parser.unescapeLiteralContent "\\b" = "\\b" ∧
     Parser.unescapeLiteralContent "\\f" = "\\f" ∧
     Parser.unescapeLiteralContent "\\q" = "\\q") ∧
    ((Lexer.tokenize "\"a\\0b\"").1.headD Parser.defTok).value = "a0b" := by
  decide

/-- C4 counterexample: for `printf("%d and %.2f\n", a, b)` the precision
suffix of `%.2f` survives in the output — the `%` handler consumes
exactly one character after the `%`, so `.` is eaten as the conversion
character and the literal text `2f` remains after the placeholder. -/
theorem claim_C4_counterexample :
    occurs "2f"
      (pipeline "int a = 1;\nint b = 2;\nprintf(\"%d and %.2f\\n\", a, b);") =
      true := by rfl

/-- C4 (amended): `printf("%d and %.2f\n", a, b)` generates a single
interpolated print call with `{a}` and `{b}` placeholders and the
newline re-escaped; no raw `%d` and no full `%.2f` survives, but the
`2f` left over from the precision of `%.2f` does. -/
theorem claim_C4 :
    pipeline "int a = 1;\nint b = 2;\nprintf(\"%d and %.2f\\n\", a, b);" =
      "a = 1\nb = 2\nprint(f\"{a} and {b}2f\\n\")\n" ∧
    occurs "%d"
      (pipeline "int a = 1;\nint b = 2;\nprintf(\"%d and %.2f\\n\", a, b);") =
      false ∧
    occurs "%.2f"
      (pipeline "int a = 1;\nint b = 2;\nprintf(\"%d and %.2f\\n\", a, b);") =
      false ∧
    occurs "{a} and {b}"
      (pipeline "int a = 1;\nint b = 2;\nprintf(\"%d and %.2f\\n\", a, b);") =
      true ∧
    occurs "\\n"
      (pipeline "int a = 1;\nint b = 2;\nprintf(\"%d and %.2f\\n\", a, b);") =
      true := by
  refine ⟨by rfl, by rfl, by rfl, by rfl, by rfl⟩

/-- C5 counterexample: a scanf argument that is not an address-of
expression produces no inline diagnostic comment in the output (the
diagnostic goes to stderr only), and a call with more format specifiers
than targets also produces no comment — so neither of the two
universally claimed comment-producing situations always produces one. -/
theorem claim_C5_counterexample :
    occurs "#" (pipeline "int a = 0;\nscanf(\"%d\", a);") = false ∧
    occurs "#" (pipeline "int a = 0;\nscanf(\"%d %d\", &a);") = false := by
  refine ⟨by rfl, by rfl⟩

/-- C5 (amended): a non-address-of scanf argument is still used as the
assignment target (the complaint goes to stderr, not into the output);
the inline `# Warning` comment appears exactly when targets remain
unassigned after the specifiers run out (more targets than processed
specifiers); and generation always returns a string normally. -/
theorem claim_C5 :
    pipeline "int a = 0;\nscanf(\"%d\", a);" =
      "a = 0\na = int(input(\"Enter value for %d (a): \\n\"))\n" ∧
    pipeline "int a = 0;\nint b = 0;\nscanf(\"%d\", &a, &b);" =
      "a = 0\nb = 0\na = int(input(\"Enter value for %d (a): \\n\"))\n# Warning: Not all scanf target variables were assigned due to too few format specifiers processed.\n" ∧
    occurs "# Warning"
      (pipeline "int a = 0;\nint b = 0;\nscanf(\"%d\", &a, &b);") = true ∧
    pipeline "int a = 0;\nint b = 0;\nscanf(\"%d %d\", &a, &b);" =
      "a = 0\nb = 0\n_temp_inputs = input(\"Enter values for format '%d %d'\\n\").split()\na = int(_temp_inputs[0])\nb = int(_temp_inputs[1])\n" := by
  refine ⟨by rfl, by rfl, by rfl, by rfl⟩

/-- Shared rendering fact for the for-loop heuristic: whenever all three
stages succeed (a recognized initializer binding `v` with start text
`start`, a recognized `<`/`<=` condition giving stop text `stop`, and a
recognized simple increment with nonzero step), the fuelled
`transpileForStatement` renders the assignment line, then the range
header, then the body rendering. -/
theorem transpileForF_range_render (fuel : Nat) (ini : Option Stmt)
    (condE incE : Option Expr) (body : Option Stmt) (lvl : Nat)
    (v start fb stop condPy incPy : String) (incl : Bool) (step : Int)
    (hinit : Transpiler.forInitInfo ini lvl = Sum.inr (v, start, fb))
    (hcond : Transpiler.forCondInfo condE v = (stop, incl, condPy))
    (hinc : Transpiler.forIncInfo incE v = (step, true, incPy))
    (hv : v ≠ "") (hs : start ≠ "") (hst : stop ≠ "") (hstep : step ≠ 0) :
    Transpiler.transpileForStatementF (fuel + 1) ini condE incE body lvl =
      Transpiler.indent (v ++ " = " ++ start ++ "\n") lvl ++
      Transpiler.indent ("for " ++ v ++ " in range(" ++ start ++ ", " ++
        (if incl then
          if 0 < step then "(" ++ stop ++ " + 1)"
          else if step < 0 then "(" ++ stop ++ " - 1)"
          else stop
        else stop) ++
        (if step ≠ 1 then ", " ++ toString step else "") ++ "):\n") lvl ++
      (match body with
       | some b => Transpiler.transpileStmtF fuel b (lvl + 1)
       | none => Transpiler.indent "pass\n" (lvl + 1)) := by
  have hsucc : Transpiler.transpileForStatementF (fuel + 1) ini condE incE
      body lvl =
      Transpiler.transpileForCore ini condE incE lvl
        (match body with
         | some b => Transpiler.transpileStmtF fuel b (lvl + 1)
         | none => Transpiler.indent "pass\n" (lvl + 1)) := rfl
  rw [hsucc]
  unfold Transpiler.transpileForCore
  rw [hinit]
  dsimp only
  rw [hcond, hinc]
  dsimp only
  split
  · rfl
  · rename_i hcontra
    exact absurd ⟨hv, hs, hst, by simp, hstep⟩ hcontra

theorem transpileForF_range_render_witness :
    Transpiler.transpileForStatementF 9
      (some (.varDecl "i" "int" (some (.number "1"))))
      (some (.binary "<=" (.ident "i") (.number "10")))
      (some (.assign (.ident "i") (.binary "+" (.ident "i") (.number "2"))))
      none 0 =
      Transpiler.indent ("i" ++ " = " ++ "1" ++ "\n") 0 ++
      Transpiler.indent ("for " ++ "i" ++ " in range(" ++ "1" ++ ", " ++
        (if true then
          if (0 : Int) < 2 then "(" ++ "10" ++ " + 1)"
          else if (2 : Int) < 0 then "(" ++ "10" ++ " - 1)"
          else "10"
        else "10") ++
        (if (2 : Int) ≠ 1 then ", " ++ toString (2 : Int) else "") ++
        "):\n") 0 ++
      Transpiler.indent "pass\n" 1 :=
  transpileForF_range_render 8
    (some (.varDecl "i" "int" (some (.number "1"))))
    (some (.binary "<=" (.ident "i") (.number "10")))
    (some (.assign (.ident "i") (.binary "+" (.ident "i") (.number "2"))))
    none 0 "i" "1" "i = 1\n" "10" "(i <= 10)" "i = (i + 2)" true 2
    (by rfl) (by rfl) (by rfl) (by decide) (by decide) (by decide)
    (by decide)

/-- C3 counterexample: a for-loop whose condition uses `>` (with a
matching `--` step) is NOT rendered as a bounded-range header — the
condition stage only recognizes `<` and `<=`, so the loop falls back to
the `while` rendering. -/
theorem claim_C3_counterexample :
    pipeline "for (int i = 10; i > 0; --i) \x7b printf(\"%d\\n\", i); \x7d" =
      "i = 10\nwhile (i > 0):\n    print(f\"{i}\\n\")\n    --i\n" ∧
    occurs "range"
      (pipeline "for (int i = 10; i > 0; --i) \x7b printf(\"%d\\n\", i); \x7d") =
      false := by
  refine ⟨by rfl, by rfl⟩

/-- C3 (amended): the condition stage of the for-loop heuristic
recognizes only `<` and `<=` (with the loop variable on the left); for
`>` and `>=` it returns an empty stop value, so the loop renders through
the `while` fallback even when the step is a matching negative one. -/
theorem claim_C3 :
    (∀ (v : String) (rhs : Expr), v ≠ "" →
      (Transpiler.forCondInfo (some (.binary ">" (.ident v) rhs)) v).1 = "" ∧
      (Transpiler.forCondInfo (some (.binary ">=" (.ident v) rhs)) v).1 = "" ∧
      Transpiler.forCondInfo (some (.binary "<" (.ident v) rhs)) v =
        (Transpiler.transpileExpr rhs, false,
          Transpiler.transpileExpr (.binary "<" (.ident v) rhs)) ∧
      Transpiler.forCondInfo (some (.binary "<=" (.ident v) rhs)) v =
        (Transpiler.transpileExpr rhs, true,
          Transpiler.transpileExpr (.binary "<=" (.ident v) rhs))) ∧
    pipeline "for (int j = 0; j < 3; ++j) \x7b printf(\"%d\\n\", j); \x7d" =
      "j = 0\nfor j in range(0, 3):\n    print(f\"{j}\\n\")\n" ∧
    pipeline "for (int i = 10; i >= 1; --i) \x7b printf(\"%d\\n\", i); \x7d" =
      "i = 10\nwhile (i >= 1):\n    print(f\"{i}\\n\")\n    --i\n" := by
  refine ⟨?_, by rfl, by rfl⟩
  intro v rhs hv
  unfold Transpiler.forCondInfo
  simp [hv]

theorem claim_C3_witness :
    ("i" : String) ≠ "" ∧
    (Transpiler.forCondInfo (some (.binary ">" (.ident "i") (.number "0")))
      "i").1 = "" :=
  ⟨by decide, (claim_C3.1 "i" (.number "0") (by decide)).1⟩

/-- C7: a countable loop with a `<=` condition and a positive step is
rendered with the exclusive bound `(stop + 1)`; in particular
`for (int i = 1; i <= 10; i = i + 2)` renders
`range(1, (10 + 1), 2)`. -/
theorem claim_C7 :
    (∀ (fuel : Nat) (ini : Option Stmt) (condE incE : Option Expr)
      (body : Option Stmt) (lvl : Nat)
      (v start fb stop condPy incPy : String) (step : Int),
      Transpiler.forInitInfo ini lvl = Sum.inr (v, start, fb) →
      Transpiler.forCondInfo condE v = (stop, true, condPy) →
      Transpiler.forIncInfo incE v = (step, true, incPy) →
      v ≠ "" → start ≠ "" → stop ≠ "" → 0 < step →
      Transpiler.transpileForStatementF (fuel + 1) ini condE incE body lvl =
        Transpiler.indent (v ++ " = " ++ start ++ "\n") lvl ++
        Transpiler.indent ("for " ++ v ++ " in range(" ++ start ++ ", " ++
          ("(" ++ stop ++ " + 1)") ++
          (if step ≠ 1 then ", " ++ toString step else "") ++ "):\n") lvl ++
        (match body with
         | some b => Transpiler.transpileStmtF fuel b (lvl + 1)
         | none => Transpiler.indent "pass\n" (lvl + 1))) ∧
    pipeline "for (int i = 1; i <= 10; i = i + 2) \x7b printf(\"%d\\n\", i); \x7d" =
      "i = 1\nfor i in range(1, (10 + 1), 2):\n    print(f\"{i}\\n\")\n" := by
  constructor
  · intro fuel ini condE incE body lvl v start fb stop condPy incPy step
      hinit hcond hinc hv hs hst hstep
    rw [transpileForF_range_render fuel ini condE incE body lvl v start fb
      stop condPy incPy true step hinit hcond hinc hv hs hst
      (by omega)]
    simp only [if_pos hstep, if_true]
  · rfl

theorem claim_C7_witness :
    Transpiler.transpileForStatementF 9
      (some (.varDecl "i" "int" (some (.number "1"))))
      (some (.binary "<=" (.ident "i") (.number "10")))
      (some (.assign (.ident "i") (.binary "+" (.ident "i") (.number "2"))))
      none 0 =
      Transpiler.indent ("i" ++ " = " ++ "1" ++ "\n") 0 ++
      Transpiler.indent ("for " ++ "i" ++ " in range(" ++ "1" ++ ", " ++
        ("(" ++ "10" ++ " + 1)") ++
        (if (2 : Int) ≠ 1 then ", " ++ toString (2 : Int) else "") ++
        "):\n") 0 ++
      Transpiler.indent "pass\n" 1 :=
  claim_C7.1 8
    (some (.varDecl "i" "int" (some (.number "1"))))
    (some (.binary "<=" (.ident "i") (.number "10")))
    (some (.assign (.ident "i") (.binary "+" (.ident "i") (.number "2"))))
    none 0 "i" "1" "i = 1\n" "10" "(i <= 10)" "i = (i + 2)" 2
    (by rfl) (by rfl) (by rfl) (by decide) (by decide) (by decide)
    (by decide)

/-- C10: whenever the range heuristic succeeds, the assignment
`loopVar = startValue` is rendered on its own line immediately before
the `for loopVar in range(...)` header, both indented at the same
level. -/
theorem claim_C10 :
    (∀ (fuel : Nat) (ini : Option Stmt) (condE incE : Option Expr)
      (body : Option Stmt) (lvl : Nat)
      (v start fb stop condPy incPy : String) (incl : Bool) (step : Int),
      Transpiler.forInitInfo ini lvl = Sum.inr (v, start, fb) →
      Transpiler.forCondInfo condE v = (stop, incl, condPy) →
      Transpiler.forIncInfo incE v = (step, true, incPy) →
      v ≠ "" → start ≠ "" → stop ≠ "" → step ≠ 0 →
      ∃ rangeArgs rest,
        Transpiler.transpileForStatementF (fuel + 1) ini condE incE body
          lvl =
          Transpiler.indent (v ++ " = " ++ start ++ "\n") lvl ++
          (Transpiler.indent ("for " ++ v ++ " in range(" ++ rangeArgs ++
            "):\n") lvl ++ rest)) ∧
    pipeline "int s = 0;\nfor (int k = 2; k <= 5; k = k + 1) { s = s + k; }" =
      "s = 0\nk = 2\nfor k in range(2, (5 + 1)):\n    s = (s + k)\n" := by
  constructor
  · intro fuel ini condE incE body lvl v start fb stop condPy incPy incl
      step hinit hcond hinc hv hs hst hstep
    refine ⟨start ++ ", " ++
      ((if incl then
          if 0 < step then "(" ++ stop ++ " + 1)"
          else if step < 0 then "(" ++ stop ++ " - 1)"
          else stop
        else stop) ++
        (if step ≠ 1 then ", " ++ toString step else "")),
      (match body with
       | some b => Transpiler.transpileStmtF fuel b (lvl + 1)
       | none => Transpiler.indent "pass\n" (lvl + 1)), ?_⟩
    rw [transpileForF_range_render fuel ini condE incE body lvl v start fb
      stop condPy incPy incl step hinit hcond hinc hv hs hst hstep]
    simp [String.append_assoc]
  · rfl

theorem claim_C10_witness :
    ∃ rangeArgs rest,
      Transpiler.transpileForStatementF 9
        (some (.varDecl "k" "int" (some (.number "2"))))
        (some (.binary "<=" (.ident "k") (.number "5")))
        (some (.assign (.ident "k") (.binary "+" (.ident "k")
          (.number "1"))))
        none 0 =
        Transpiler.indent ("k" ++ " = " ++ "2" ++ "\n") 0 ++
        (Transpiler.indent ("for " ++ "k" ++ " in range(" ++ rangeArgs ++
          "):\n") 0 ++ rest) :=
  claim_C10.1 8
    (some (.varDecl "k" "int" (some (.number "2"))))
    (some (.binary "<=" (.ident "k") (.number "5")))
    (some (.assign (.ident "k") (.binary "+" (.ident "k") (.number "1"))))
    none 0 "k" "2" "k = 2\n" "5" "(k <= 5)" "k = (k + 1)" true 1
    (by rfl) (by rfl) (by rfl) (by decide) (by decide) (by decide)
    (by decide)

theorem string_append_mk_nil (s : String) : s ++ String.mk [] = s := by
  rcases s with ⟨l⟩
  show String.mk (l ++ []) = String.mk l
  rw [List.append_nil]

theorem string_push_append (s : String) (c : Char) (l : List Char) :
    s.push c ++ String.mk l = s ++ String.mk (c :: l) := by
  rcases s with ⟨sl⟩
  show String.mk ((sl ++ [c]) ++ l) = String.mk (sl ++ (c :: l))
  rw [List.append_assoc]
  rfl

theorem string_singleton_append (c : Char) (l : List Char) :
    String.singleton c ++ String.mk l = String.mk (c :: l) := rfl

/-- The closing-quote scan of `lexCharacterLiteral` collects every
character of a clean run (no quote, NUL, or newline) and stops at the
quote. -/
theorem lexCharRestGo_clean : ∀ (content : List Char) (st : LexState)
    (rest : List Char) (acc : String),
    (∀ c ∈ content, c ≠ '\'' ∧ c ≠ '\x00' ∧ c ≠ '\n') →
    st.chars = content ++ '\'' :: rest →
    ∃ st' : LexState, Lexer.lexCharRestGo st.chars st acc =
      (acc ++ String.mk content, st') ∧ Lexer.peek st' = '\'' := by
  intro content
  induction content with
  | nil =>
    intro st rest acc hclean hch
    refine ⟨st, ?_, by simp [Lexer.peek, hch]⟩
    rw [hch, List.nil_append]
    unfold Lexer.lexCharRestGo
    rw [if_neg (by decide : ¬('\'' ≠ '\'' ∧ '\'' ≠ '\x00' ∧ '\'' ≠ '\n'))]
    rw [string_append_mk_nil]
  | cons c content' ih =>
    intro st rest acc hclean hch
    have hcc := hclean c (List.mem_cons_self _ _)
    have hch' : (Lexer.get st).2.chars = content' ++ '\'' :: rest :=
      Lexer.get_chars_cons st c _ hch
    obtain ⟨st', heq, hp⟩ := ih (Lexer.get st).2 rest (acc.push c)
      (fun d hd => hclean d (List.mem_cons_of_mem _ hd)) hch'
    rw [hch'] at heq
    refine ⟨st', ?_, hp⟩
    rw [hch, List.cons_append]
    unfold Lexer.lexCharRestGo
    rw [if_pos ⟨hcc.1, hcc.2.1, hcc.2.2⟩]
    rw [heq, string_push_append]

/-- A character literal whose content is a clean run of two or more
characters closed by a quote lexes to a single CharLiteral token
carrying all of them (no Error token). -/
theorem lexCharacterLiteral_multi (st : LexState) (c1 : Char)
    (content rest : List Char)
    (h1 : c1 ≠ '\'' ∧ c1 ≠ '\x00' ∧ c1 ≠ '\\')
    (hcontent : ∀ c ∈ content, c ≠ '\'' ∧ c ≠ '\x00' ∧ c ≠ '\n')
    (hne : content ≠ [])
    (hch : st.chars = '\'' :: c1 :: (content ++ '\'' :: rest)) :
    (Lexer.lexCharacterLiteral st).1 =
      ⟨.CharLiteral, String.mk (c1 :: content), st.line, st.col⟩ := by
  have hch1 : (Lexer.get st).2.chars = c1 :: (content ++ '\'' :: rest) :=
    Lexer.get_chars_cons st _ _ hch
  have hp1 : Lexer.peek (Lexer.get st).2 = c1 := by
    simp [Lexer.peek, hch1]
  have hch2 : (Lexer.get (Lexer.get st).2).2.chars =
      content ++ '\'' :: rest :=
    Lexer.get_chars_cons _ _ _ hch1
  unfold Lexer.lexCharacterLiteral
  dsimp only
  rw [hp1]
  rw [if_neg h1.1, if_neg h1.2.1, if_neg h1.2.2]
  unfold Lexer.lexCharClose
  dsimp only
  have hp2 : Lexer.peek (Lexer.get (Lexer.get st).2).2 ≠ '\'' := by
    rcases content with _ | ⟨c2, ctl⟩
    · exact absurd rfl hne
    · have := (hcontent c2 (List.mem_cons_self _ _)).1
      simpa [Lexer.peek, hch2] using this
  rw [if_neg hp2]
  obtain ⟨st', heq, hp⟩ := lexCharRestGo_clean content
    (Lexer.get (Lexer.get st).2).2 rest "" hcontent hch2
  rw [hch2] at heq
  unfold Lexer.lexCharRest
  rw [hch2, heq]
  dsimp only
  rw [if_pos hp]
  rw [string_empty_append, string_singleton_append]

/-- C9: a character literal with two or more clean characters before the
closing quote lexes to one CharLiteral token carrying all of them, and
the parser rejects such a token with a recoverable `runtime_error`
because its unescaped content is not a single character; concretely,
`'abc'` tokenizes to CharLiteral "abc" and the statement containing it
is discarded by recovery, leaving an empty Program. -/
theorem claim_C9 :
    (∀ (st : LexState) (c1 : Char) (content rest : List Char),
      c1 ≠ '\'' ∧ c1 ≠ '\x00' ∧ c1 ≠ '\\' →
      (∀ c ∈ content, c ≠ '\'' ∧ c ≠ '\x00' ∧ c ≠ '\n') →
      content ≠ [] →
      st.chars = '\'' :: c1 :: (content ++ '\'' :: rest) →
      (Lexer.lexCharacterLiteral st).1 =
        ⟨.CharLiteral, String.mk (c1 :: content), st.line, st.col⟩) ∧
    (∀ (fuel : Nat) (v : String) (l c : Nat) (rest : List Token),
      (Parser.unescapeLiteralContent v).length ≠ 1 →
      Parser.parsePrimary (⟨.CharLiteral, v, l, c⟩ :: rest) (fuel + 1) 0 =
        (.rt ("Character literal content must resolve to a single character after unescaping. Got: '" ++
          Parser.unescapeLiteralContent v ++
          "' from original token value: " ++ v), 1)) ∧
    (Lexer.tokenize "'abc';").1.headD Parser.defTok =
      ⟨.CharLiteral, "abc", 1, 1⟩ ∧
    Parser.parse (Lexer.tokenize "'abc';").1 1000 = .ok ⟨[]⟩ := by
  refine ⟨lexCharacterLiteral_multi, ?_, by decide, by rfl⟩
  intro fuel v l c rest hlen
  have hend : Parser.isAtEnd (⟨.CharLiteral, v, l, c⟩ :: rest) 0 = false := by
    simp [Parser.isAtEnd, Parser.defTok]
  unfold Parser.parsePrimary
  simp only [Parser.check, Parser.matchT, Parser.matchV, Parser.checkV,
    hend, Parser.defTok, List.getD_cons_zero]
  simp [hlen]

theorem claim_C9_witness :
    (Lexer.lexCharacterLiteral ⟨"'ab';".toList, 1, 1, []⟩).1 =
      ⟨.CharLiteral, String.mk ['a', 'b'], 1, 1⟩ ∧
    Parser.parsePrimary [⟨.CharLiteral, "ab", 1, 1⟩] 5 0 =
      (.rt ("Character literal content must resolve to a single character after unescaping. Got: '" ++
        Parser.unescapeLiteralContent "ab" ++
        "' from original token value: " ++ "ab"), 1) :=
  ⟨claim_C9.1 ⟨"'ab';".toList, 1, 1, []⟩ 'a' ['b']
      [';'] (by decide) (by decide) (by decide) (by decide),
    claim_C9.2.1 4 "ab" 1 1 [] (by decide)⟩

/-! ### Claim C2: no exception escapes `parse` on tokenizer output

The only `std::out_of_range` sources in the parser are `peek` (safe as
soon as the token list is nonempty and ends with EndOfFile) and
`previous` at index 0 (reached only through `advance`, which the parser
always guards with a successful `check`).  `parserNoOor` proves the
absence of the `oor` outcome for every parser entry point at once, by
induction on the fuel the embedding threads through the mutual
recursion. -/

def PRes.isOor {α : Type} : PRes α → Bool
  | .oor _ => true
  | _ => false

theorem pbind_isOor_false {α β : Type} {r : PRes α × Nat}
    {k : α → Nat → PRes β × Nat} (h1 : r.1.isOor = false)
    (h2 : ∀ a c, (k a c).1.isOor = false) :
    (pbind r k).1.isOor = false := by
  rcases r with ⟨pr, c⟩
  cases pr with
  | ok a => exact h2 a c
  | rt m => rfl
  | oor m => exact absurd h1 (by simp [PRes.isOor])
  | fuelOut => rfl

theorem peekTok_isOor (tks : List Token) (H1 : tks ≠ [])
    (H2 : (tks.getLastD Parser.defTok).type = .EndOfFile) (cur off : Nat) :
    (Parser.peekTok tks cur off).isOor = false := by
  unfold Parser.peekTok
  split
  · rfl
  · split
    · rfl
    · rename_i hcontra
      exact absurd ⟨H1, H2⟩ hcontra

theorem peekTok_oor_elim (tks : List Token) (H1 : tks ≠ [])
    (H2 : (tks.getLastD Parser.defTok).type = .EndOfFile)
    {cur off : Nat} {m : String} {C : Prop}
    (heq : Parser.peekTok tks cur off = .oor m) : C := by
  have h := peekTok_isOor tks H1 H2 cur off
  rw [heq] at h
  exact absurd h (by simp [PRes.isOor])

theorem noOor_pair_elim {α : Type} {r : PRes α × Nat}
    (h : r.1.isOor = false) {m : String} {c : Nat} {C : Prop}
    (heq : r = (.oor m, c)) : C := by
  rw [heq] at h
  exact absurd h (by simp [PRes.isOor])

theorem check_isAtEnd_false (tks : List Token) {cur : Nat} {ty : TokenType}
    (h : Parser.check tks cur ty = true) :
    Parser.isAtEnd tks cur = false := by
  simp only [Parser.check, Bool.and_eq_true, Bool.not_eq_true'] at h
  exact h.1

theorem checkV_isAtEnd_false (tks : List Token) {cur : Nat}
    {ty : TokenType} {v : String}
    (h : Parser.checkV tks cur ty v = true) :
    Parser.isAtEnd tks cur = false := by
  simp only [Parser.checkV, Bool.and_eq_true, Bool.not_eq_true'] at h
  exact h.1.1

theorem checkTypeKeyword_isAtEnd_false (tks : List Token) {cur : Nat}
    (h : Parser.checkTypeKeyword tks cur = true) :
    Parser.isAtEnd tks cur = false := by
  simp only [Parser.checkTypeKeyword, Bool.or_eq_true] at h
  rcases h with ((((h | h) | h) | h) | h) | h <;>
    exact checkV_isAtEnd_false tks h

theorem advanceTok_isOor (tks : List Token) {cur : Nat}
    (h : Parser.isAtEnd tks cur = false) :
    (Parser.advanceTok tks cur).1.isOor = false := by
  unfold Parser.advanceTok Parser.previousTok
  simp [h, PRes.isOor]

theorem consumeT_isOor (tks : List Token) (cur : Nat) (ty : TokenType)
    (msg : String) : (Parser.consumeT tks cur ty msg).1.isOor = false := by
  unfold Parser.consumeT
  split <;> rfl

theorem consumeV_isOor (tks : List Token) (cur : Nat) (ty : TokenType)
    (v msg : String) :
    (Parser.consumeV tks cur ty v msg).1.isOor = false := by
  unfold Parser.consumeV
  split <;> rfl

theorem parseBreak_isOor (tks : List Token) (cur : Nat) :
    (Parser.parseBreak tks cur).1.isOor = false := by
  unfold Parser.parseBreak
  exact pbind_isOor_false (consumeV_isOor tks cur _ _ _) (fun _ _ => rfl)

theorem parseContinue_isOor (tks : List Token) (cur : Nat) :
    (Parser.parseContinue tks cur).1.isOor = false := by
  unfold Parser.parseContinue
  exact pbind_isOor_false (consumeV_isOor tks cur _ _ _) (fun _ _ => rfl)

/-- No function of the parser's recursive-descent block can produce the
`out_of_range` outcome (at any fuel) once the token list is nonempty and
ends with EndOfFile.  The three statement parsers that `advance` over an
already-checked token receive the corresponding `!isAtEnd()` fact as a
precondition (their callers establish it from the dispatch check). -/
def ParserNoOor (tks : List Token) (fuel : Nat) : Prop :=
  (∀ cur, (Parser.parseExpression tks fuel cur).1.isOor = false) ∧
  (∀ cur, (Parser.parseAssignmentExpression tks fuel cur).1.isOor = false) ∧
  (∀ cur, (Parser.parseLogicalOr tks fuel cur).1.isOor = false) ∧
  (∀ l cur, (Parser.orLoop tks fuel l cur).1.isOor = false) ∧
  (∀ cur, (Parser.parseLogicalAnd tks fuel cur).1.isOor = false) ∧
  (∀ l cur, (Parser.andLoop tks fuel l cur).1.isOor = false) ∧
  (∀ cur, (Parser.parseEquality tks fuel cur).1.isOor = false) ∧
  (∀ l cur, (Parser.eqLoop tks fuel l cur).1.isOor = false) ∧
  (∀ cur, (Parser.parseComparison tks fuel cur).1.isOor = false) ∧
  (∀ l cur, (Parser.cmpLoop tks fuel l cur).1.isOor = false) ∧
  (∀ cur, (Parser.parseTerm tks fuel cur).1.isOor = false) ∧
  (∀ l cur, (Parser.termLoop tks fuel l cur).1.isOor = false) ∧
  (∀ cur, (Parser.parseFactor tks fuel cur).1.isOor = false) ∧
  (∀ l cur, (Parser.factorLoop tks fuel l cur).1.isOor = false) ∧
  (∀ cur, (Parser.parseUnary tks fuel cur).1.isOor = false) ∧
  (∀ cur, (Parser.parseCall tks fuel cur).1.isOor = false) ∧
  (∀ l cur, (Parser.callLoop tks fuel l cur).1.isOor = false) ∧
  (∀ l cur, (Parser.callArgsLoop tks fuel l cur).1.isOor = false) ∧
  (∀ l cur, (Parser.commaArgsLoop tks fuel l cur).1.isOor = false) ∧
  (∀ cur, (Parser.parsePrimary tks fuel cur).1.isOor = false) ∧
  (∀ cur, (Parser.parseStatement tks fuel cur).1.isOor = false) ∧
  (∀ cur, (Parser.parseStmtRest tks fuel cur).1.isOor = false) ∧
  (∀ cur, Parser.isAtEnd tks cur = false →
    (Parser.parsePrintfStatement tks fuel cur).1.isOor = false) ∧
  (∀ cur, Parser.isAtEnd tks cur = false →
    (Parser.parseScanfStatement tks fuel cur).1.isOor = false) ∧
  (∀ cur, (Parser.parseExpressionStatement tks fuel cur).1.isOor = false) ∧
  (∀ cur, (Parser.parseBlock tks fuel cur).1.isOor = false) ∧
  (∀ l cur, (Parser.blockLoop tks fuel l cur).1.isOor = false) ∧
  (∀ cur, (Parser.parseIf tks fuel cur).1.isOor = false) ∧
  (∀ cur, (Parser.parseWhile tks fuel cur).1.isOor = false) ∧
  (∀ cur, (Parser.parseFor tks fuel cur).1.isOor = false) ∧
  (∀ cur, (Parser.parseReturn tks fuel cur).1.isOor = false) ∧
  (∀ cur, Parser.isAtEnd tks cur = false →
    (Parser.parseDeclaration tks fuel cur).1.isOor = false) ∧
  (∀ th idh cur,
    (Parser.parseVariableDeclaration tks fuel th idh cur).1.isOor = false) ∧
  (∀ rty idn cur,
    (Parser.parseFunctionDeclaration tks fuel rty idn cur).1.isOor =
      false) ∧
  (∀ l cur, (Parser.funcParamsLoop tks fuel l cur).1.isOor = false) ∧
  (∀ cur, (Parser.parseProgram tks fuel cur).1.isOor = false) ∧
  (∀ l cur, (Parser.programLoop tks fuel l cur).1.isOor = false)

-- Forces elaboration of the unfolding equations of the parser's mutual
-- recursion block (their one-time generation is expensive; every later
-- `unfold` of these functions then reuses them).
set_option maxHeartbeats 1000000000 in
theorem parserUnfoldReady : True := by
  have h1 : ∀ (tks : List Token) (fuel cur : Nat),
      Parser.parseExpression tks (fuel + 1) cur =
        Parser.parseExpression tks (fuel + 1) cur := by
    intro tks fuel cur
    unfold Parser.parseExpression
    rfl
  have h2 : ∀ (tks : List Token) (fuel cur : Nat),
      Parser.parseAssignmentExpression tks (fuel + 1) cur =
        Parser.parseAssignmentExpression tks (fuel + 1) cur := by
    intro tks fuel cur
    unfold Parser.parseAssignmentExpression
    rfl
  have h3 : ∀ (tks : List Token) (fuel cur : Nat),
      Parser.parseLogicalOr tks (fuel + 1) cur =
        Parser.parseLogicalOr tks (fuel + 1) cur := by
    intro tks fuel cur
    unfold Parser.parseLogicalOr
    rfl
  have h4 : ∀ (tks : List Token) (fuel cur : Nat),
      Parser.parseLogicalAnd tks (fuel + 1) cur =
        Parser.parseLogicalAnd tks (fuel + 1) cur := by
    intro tks fuel cur
    unfold Parser.parseLogicalAnd
    rfl
  have h5 : ∀ (tks : List Token) (fuel cur : Nat),
      Parser.parseEquality tks (fuel + 1) cur =
        Parser.parseEquality tks (fuel + 1) cur := by
    intro tks fuel cur
    unfold Parser.parseEquality
    rfl
  have h6 : ∀ (tks : List Token) (fuel cur : Nat),
      Parser.parseComparison tks (fuel + 1) cur =
        Parser.parseComparison tks (fuel + 1) cur := by
    intro tks fuel cur
    unfold Parser.parseComparison
    rfl
  have h7 : ∀ (tks : List Token) (fuel cur : Nat),
      Parser.parseTerm tks (fuel + 1) cur =
        Parser.parseTerm tks (fuel + 1) cur := by
    intro tks fuel cur
    unfold Parser.parseTerm
    rfl
  have h8 : ∀ (tks : List Token) (fuel cur : Nat),
      Parser.parseFactor tks (fuel + 1) cur =
        Parser.parseFactor tks (fuel + 1) cur := by
    intro tks fuel cur
    unfold Parser.parseFactor
    rfl
  have h9 : ∀ (tks : List Token) (fuel cur : Nat),
      Parser.parseUnary tks (fuel + 1) cur =
        Parser.parseUnary tks (fuel + 1) cur := by
    intro tks fuel cur
    unfold Parser.parseUnary
    rfl
  have h10 : ∀ (tks : List Token) (fuel cur : Nat),
      Parser.parseCall tks (fuel + 1) cur =
        Parser.parseCall tks (fuel + 1) cur := by
    intro tks fuel cur
    unfold Parser.parseCall
    rfl
  have h11 : ∀ (tks : List Token) (fuel cur : Nat),
      Parser.parsePrimary tks (fuel + 1) cur =
        Parser.parsePrimary tks (fuel + 1) cur := by
    intro tks fuel cur
    unfold Parser.parsePrimary
    rfl
  have h12 : ∀ (tks : List Token) (fuel cur : Nat),
      Parser.parseStatement tks (fuel + 1) cur =
        Parser.parseStatement tks (fuel + 1) cur := by
    intro tks fuel cur
    unfold Parser.parseStatement
    rfl
  have h13 : ∀ (tks : List Token) (fuel cur : Nat),
      Parser.parseStmtRest tks (fuel + 1) cur =
        Parser.parseStmtRest tks (fuel + 1) cur := by
    intro tks fuel cur
    unfold Parser.parseStmtRest
    rfl
  have h14 : ∀ (tks : List Token) (fuel cur : Nat),
      Parser.parsePrintfStatement tks (fuel + 1) cur =
        Parser.parsePrintfStatement tks (fuel + 1) cur := by
    intro tks fuel cur
    unfold Parser.parsePrintfStatement
    rfl
  have h15 : ∀ (tks : List Token) (fuel cur : Nat),
      Parser.parseScanfStatement tks (fuel + 1) cur =
        Parser.parseScanfStatement tks (fuel + 1) cur := by
    intro tks fuel cur
    unfold Parser.parseScanfStatement
    rfl
  have h16 : ∀ (tks : List Token) (fuel cur : Nat),
      Parser.parseExpressionStatement tks (fuel + 1) cur =
        Parser.parseExpressionStatement tks (fuel + 1) cur := by
    intro tks fuel cur
    unfold Parser.parseExpressionStatement
    rfl
  have h17 : ∀ (tks : List Token) (fuel cur : Nat),
      Parser.parseBlock tks (fuel + 1) cur =
        Parser.parseBlock tks (fuel + 1) cur := by
    intro tks fuel cur
    unfold Parser.parseBlock
    rfl
  have h18 : ∀ (tks : List Token) (fuel cur : Nat),
      Parser.parseIf tks (fuel + 1) cur =
        Parser.parseIf tks (fuel + 1) cur := by
    intro tks fuel cur
    unfold Parser.parseIf
    rfl
  have h19 : ∀ (tks : List Token) (fuel cur : Nat),
      Parser.parseWhile tks (fuel + 1) cur =
        Parser.parseWhile tks (fuel + 1) cur := by
    intro tks fuel cur
    unfold Parser.parseWhile
    rfl
  have h20 : ∀ (tks : List Token) (fuel cur : Nat),
      Parser.parseFor tks (fuel + 1) cur =
        Parser.parseFor tks (fuel + 1) cur := by
    intro tks fuel cur
    unfold Parser.parseFor
    rfl
  have h21 : ∀ (tks : List Token) (fuel cur : Nat),
      Parser.parseReturn tks (fuel + 1) cur =
        Parser.parseReturn tks (fuel + 1) cur := by
    intro tks fuel cur
    unfold Parser.parseReturn
    rfl
  have h22 : ∀ (tks : List Token) (fuel cur : Nat),
      Parser.parseDeclaration tks (fuel + 1) cur =
        Parser.parseDeclaration tks (fuel + 1) cur := by
    intro tks fuel cur
    unfold Parser.parseDeclaration
    rfl
  have h23 : ∀ (tks : List Token) (fuel cur : Nat),
      Parser.parseProgram tks (fuel + 1) cur =
        Parser.parseProgram tks (fuel + 1) cur := by
    intro tks fuel cur
    unfold Parser.parseProgram
    rfl
  have h24 : ∀ (tks : List Token) (fuel : Nat) (a : Expr) (cur : Nat),
      Parser.orLoop tks (fuel + 1) a cur =
        Parser.orLoop tks (fuel + 1) a cur := by
    intro tks fuel a cur
    unfold Parser.orLoop
    rfl
  have h25 : ∀ (tks : List Token) (fuel : Nat) (a : Expr) (cur : Nat),
      Parser.andLoop tks (fuel + 1) a cur =
        Parser.andLoop tks (fuel + 1) a cur := by
    intro tks fuel a cur
    unfold Parser.andLoop
    rfl
  have h26 : ∀ (tks : List Token) (fuel : Nat) (a : Expr) (cur : Nat),
      Parser.eqLoop tks (fuel + 1) a cur =
        Parser.eqLoop tks (fuel + 1) a cur := by
    intro tks fuel a cur
    unfold Parser.eqLoop
    rfl
  have h27 : ∀ (tks : List Token) (fuel : Nat) (a : Expr) (cur : Nat),
      Parser.cmpLoop tks (fuel + 1) a cur =
        Parser.cmpLoop tks (fuel + 1) a cur := by
    intro tks fuel a cur
    unfold Parser.cmpLoop
    rfl
  have h28 : ∀ (tks : List Token) (fuel : Nat) (a : Expr) (cur : Nat),
      Parser.termLoop tks (fuel + 1) a cur =
        Parser.termLoop tks (fuel + 1) a cur := by
    intro tks fuel a cur
    unfold Parser.termLoop
    rfl
  have h29 : ∀ (tks : List Token) (fuel : Nat) (a : Expr) (cur : Nat),
      Parser.factorLoop tks (fuel + 1) a cur =
        Parser.factorLoop tks (fuel + 1) a cur := by
    intro tks fuel a cur
    unfold Parser.factorLoop
    rfl
  have h30 : ∀ (tks : List Token) (fuel : Nat) (a : Expr) (cur : Nat),
      Parser.callLoop tks (fuel + 1) a cur =
        Parser.callLoop tks (fuel + 1) a cur := by
    intro tks fuel a cur
    unfold Parser.callLoop
    rfl
  have h31 : ∀ (tks : List Token) (fuel : Nat) (a : List Expr) (cur : Nat),
      Parser.callArgsLoop tks (fuel + 1) a cur =
        Parser.callArgsLoop tks (fuel + 1) a cur := by
    intro tks fuel a cur
    unfold Parser.callArgsLoop
    rfl
  have h32 : ∀ (tks : List Token) (fuel : Nat) (a : List Expr) (cur : Nat),
      Parser.commaArgsLoop tks (fuel + 1) a cur =
        Parser.commaArgsLoop tks (fuel + 1) a cur := by
    intro tks fuel a cur
    unfold Parser.commaArgsLoop
    rfl
  have h33 : ∀ (tks : List Token) (fuel : Nat) (a : List Stmt) (cur : Nat),
      Parser.blockLoop tks (fuel + 1) a cur =
        Parser.blockLoop tks (fuel + 1) a cur := by
    intro tks fuel a cur
    unfold Parser.blockLoop
    rfl
  have h34 : ∀ (tks : List Token) (fuel : Nat) (a : List Param) (cur : Nat),
      Parser.funcParamsLoop tks (fuel + 1) a cur =
        Parser.funcParamsLoop tks (fuel + 1) a cur := by
    intro tks fuel a cur
    unfold Parser.funcParamsLoop
    rfl
  have h35 : ∀ (tks : List Token) (fuel : Nat) (a : List Stmt) (cur : Nat),
      Parser.programLoop tks (fuel + 1) a cur =
        Parser.programLoop tks (fuel + 1) a cur := by
    intro tks fuel a cur
    unfold Parser.programLoop
    rfl
  have h36 : ∀ (tks : List Token) (fuel : Nat) (a b : String) (cur : Nat),
      Parser.parseVariableDeclaration tks (fuel + 1) a b cur =
        Parser.parseVariableDeclaration tks (fuel + 1) a b cur := by
    intro tks fuel a b cur
    unfold Parser.parseVariableDeclaration
    rfl
  have h37 : ∀ (tks : List Token) (fuel : Nat) (a b : String) (cur : Nat),
      Parser.parseFunctionDeclaration tks (fuel + 1) a b cur =
        Parser.parseFunctionDeclaration tks (fuel + 1) a b cur := by
    intro tks fuel a b cur
    unfold Parser.parseFunctionDeclaration
    rfl
  exact trivial

set_option maxHeartbeats 4000000

/-- At fuel 0 every parser function returns `fuelOut`, hence no
`out_of_range`. -/
theorem parserNoOor_zero (tks : List Token) : ParserNoOor tks 0 := by
  unfold ParserNoOor
  repeat' apply And.intro
  all_goals intros
  all_goals rfl

-- Projections of the `ParserNoOor` conjunction, for readable step proofs.

theorem ParserNoOor.expr {tks : List Token} {fuel : Nat}
    (h : ParserNoOor tks fuel) (cur : Nat) :
    (Parser.parseExpression tks fuel cur).1.isOor = false := h.1 cur

theorem ParserNoOor.asg {tks : List Token} {fuel : Nat}
    (h : ParserNoOor tks fuel) (cur : Nat) :
    (Parser.parseAssignmentExpression tks fuel cur).1.isOor = false := h.2.1 cur

theorem ParserNoOor.lor {tks : List Token} {fuel : Nat}
    (h : ParserNoOor tks fuel) (cur : Nat) :
    (Parser.parseLogicalOr tks fuel cur).1.isOor = false := h.2.2.1 cur

theorem ParserNoOor.orL {tks : List Token} {fuel : Nat}
    (h : ParserNoOor tks fuel) (l : Expr) (cur : Nat) :
    (Parser.orLoop tks fuel l cur).1.isOor = false := h.2.2.2.1 l cur

theorem ParserNoOor.land {tks : List Token} {fuel : Nat}
    (h : ParserNoOor tks fuel) (cur : Nat) :
    (Parser.parseLogicalAnd tks fuel cur).1.isOor = false := h.2.2.2.2.1 cur

theorem ParserNoOor.andL {tks : List Token} {fuel : Nat}
    (h : ParserNoOor tks fuel) (l : Expr) (cur : Nat) :
    (Parser.andLoop tks fuel l cur).1.isOor = false := h.2.2.2.2.2.1 l cur

theorem ParserNoOor.eq {tks : List Token} {fuel : Nat}
    (h : ParserNoOor tks fuel) (cur : Nat) :
    (Parser.parseEquality tks fuel cur).1.isOor = false := h.2.2.2.2.2.2.1 cur

theorem ParserNoOor.eqL {tks : List Token} {fuel : Nat}
    (h : ParserNoOor tks fuel) (l : Expr) (cur : Nat) :
    (Parser.eqLoop tks fuel l cur).1.isOor = false := h.2.2.2.2.2.2.2.1 l cur

theorem ParserNoOor.cmp {tks : List Token} {fuel : Nat}
    (h : ParserNoOor tks fuel) (cur : Nat) :
    (Parser.parseComparison tks fuel cur).1.isOor = false := h.2.2.2.2.2.2.2.2.1 cur

theorem ParserNoOor.cmpL {tks : List Token} {fuel : Nat}
    (h : ParserNoOor tks fuel) (l : Expr) (cur : Nat) :
    (Parser.cmpLoop tks fuel l cur).1.isOor = false := h.2.2.2.2.2.2.2.2.2.1 l cur

theorem ParserNoOor.term {tks : List Token} {fuel : Nat}
    (h : ParserNoOor tks fuel) (cur : Nat) :
    (Parser.parseTerm tks fuel cur).1.isOor = false := h.2.2.2.2.2.2.2.2.2.2.1 cur

theorem ParserNoOor.termL {tks : List Token} {fuel : Nat}
    (h : ParserNoOor tks fuel) (l : Expr) (cur : Nat) :
    (Parser.termLoop tks fuel l cur).1.isOor = false := h.2.2.2.2.2.2.2.2.2.2.2.1 l cur

theorem ParserNoOor.fac {tks : List Token} {fuel : Nat}
    (h : ParserNoOor tks fuel) (cur : Nat) :
    (Parser.parseFactor tks fuel cur).1.isOor = false := h.2.2.2.2.2.2.2.2.2.2.2.2.1 cur

theorem ParserNoOor.facL {tks : List Token} {fuel : Nat}
    (h : ParserNoOor tks fuel) (l : Expr) (cur : Nat) :
    (Parser.factorLoop tks fuel l cur).1.isOor = false := h.2.2.2.2.2.2.2.2.2.2.2.2.2.1 l cur

theorem ParserNoOor.un {tks : List Token} {fuel : Nat}
    (h : ParserNoOor tks fuel) (cur : Nat) :
    (Parser.parseUnary tks fuel cur).1.isOor = false := h.2.2.2.2.2.2.2.2.2.2.2.2.2.2.1 cur

theorem ParserNoOor.call {tks : List Token} {fuel : Nat}
    (h : ParserNoOor tks fuel) (cur : Nat) :
    (Parser.parseCall tks fuel cur).1.isOor = false := h.2.2.2.2.2.2.2.2.2.2.2.2.2.2.2.1 cur

theorem ParserNoOor.callL {tks : List Token} {fuel : Nat}
    (h : ParserNoOor tks fuel) (l : Expr) (cur : Nat) :
    (Parser.callLoop tks fuel l cur).1.isOor = false := h.2.2.2.2.2.2.2.2.2.2.2.2.2.2.2.2.1 l cur

theorem ParserNoOor.cargs {tks : List Token} {fuel : Nat}
    (h : ParserNoOor tks fuel) (l : List Expr) (cur : Nat) :
    (Parser.callArgsLoop tks fuel l cur).1.isOor = false := h.2.2.2.2.2.2.2.2.2.2.2.2.2.2.2.2.2.1 l cur

theorem ParserNoOor.comma {tks : List Token} {fuel : Nat}
    (h : ParserNoOor tks fuel) (l : List Expr) (cur : Nat) :
    (Parser.commaArgsLoop tks fuel l cur).1.isOor = false := h.2.2.2.2.2.2.2.2.2.2.2.2.2.2.2.2.2.2.1 l cur

theorem ParserNoOor.prim {tks : List Token} {fuel : Nat}
    (h : ParserNoOor tks fuel) (cur : Nat) :
    (Parser.parsePrimary tks fuel cur).1.isOor = false := h.2.2.2.2.2.2.2.2.2.2.2.2.2.2.2.2.2.2.2.1 cur

theorem ParserNoOor.stmt {tks : List Token} {fuel : Nat}
    (h : ParserNoOor tks fuel) (cur : Nat) :
    (Parser.parseStatement tks fuel cur).1.isOor = false := h.2.2.2.2.2.2.2.2.2.2.2.2.2.2.2.2.2.2.2.2.1 cur

theorem ParserNoOor.rest {tks : List Token} {fuel : Nat}
    (h : ParserNoOor tks fuel) (cur : Nat) :
    (Parser.parseStmtRest tks fuel cur).1.isOor = false := h.2.2.2.2.2.2.2.2.2.2.2.2.2.2.2.2.2.2.2.2.2.1 cur

theorem ParserNoOor.printf {tks : List Token} {fuel : Nat}
    (h : ParserNoOor tks fuel) (cur : Nat) (hAt : Parser.isAtEnd tks cur = false) :
    (Parser.parsePrintfStatement tks fuel cur).1.isOor = false := h.2.2.2.2.2.2.2.2.2.2.2.2.2.2.2.2.2.2.2.2.2.2.1 cur hAt

theorem ParserNoOor.scanf {tks : List Token} {fuel : Nat}
    (h : ParserNoOor tks fuel) (cur : Nat) (hAt : Parser.isAtEnd tks cur = false) :
    (Parser.parseScanfStatement tks fuel cur).1.isOor = false := h.2.2.2.2.2.2.2.2.2.2.2.2.2.2.2.2.2.2.2.2.2.2.2.1 cur hAt

theorem ParserNoOor.exprSt {tks : List Token} {fuel : Nat}
    (h : ParserNoOor tks fuel) (cur : Nat) :
    (Parser.parseExpressionStatement tks fuel cur).1.isOor = false := h.2.2.2.2.2.2.2.2.2.2.2.2.2.2.2.2.2.2.2.2.2.2.2.2.1 cur

theorem ParserNoOor.block {tks : List Token} {fuel : Nat}
    (h : ParserNoOor tks fuel) (cur : Nat) :
    (Parser.parseBlock tks fuel cur).1.isOor = false := h.2.2.2.2.2.2.2.2.2.2.2.2.2.2.2.2.2.2.2.2.2.2.2.2.2.1 cur

theorem ParserNoOor.blockL {tks : List Token} {fuel : Nat}
    (h : ParserNoOor tks fuel) (l : List Stmt) (cur : Nat) :
    (Parser.blockLoop tks fuel l cur).1.isOor = false := h.2.2.2.2.2.2.2.2.2.2.2.2.2.2.2.2.2.2.2.2.2.2.2.2.2.2.1 l cur

theorem ParserNoOor.ifS {tks : List Token} {fuel : Nat}
    (h : ParserNoOor tks fuel) (cur : Nat) :
    (Parser.parseIf tks fuel cur).1.isOor = false := h.2.2.2.2.2.2.2.2.2.2.2.2.2.2.2.2.2.2.2.2.2.2.2.2.2.2.2.1 cur

theorem ParserNoOor.whileS {tks : List Token} {fuel : Nat}
    (h : ParserNoOor tks fuel) (cur : Nat) :
    (Parser.parseWhile tks fuel cur).1.isOor = false := h.2.2.2.2.2.2.2.2.2.2.2.2.2.2.2.2.2.2.2.2.2.2.2.2.2.2.2.2.1 cur

theorem ParserNoOor.forS {tks : List Token} {fuel : Nat}
    (h : ParserNoOor tks fuel) (cur : Nat) :
    (Parser.parseFor tks fuel cur).1.isOor = false := h.2.2.2.2.2.2.2.2.2.2.2.2.2.2.2.2.2.2.2.2.2.2.2.2.2.2.2.2.2.1 cur

theorem ParserNoOor.ret {tks : List Token} {fuel : Nat}
    (h : ParserNoOor tks fuel) (cur : Nat) :
    (Parser.parseReturn tks fuel cur).1.isOor = false := h.2.2.2.2.2.2.2.2.2.2.2.2.2.2.2.2.2.2.2.2.2.2.2.2.2.2.2.2.2.2.1 cur

theorem ParserNoOor.decl {tks : List Token} {fuel : Nat}
    (h : ParserNoOor tks fuel) (cur : Nat) (hAt : Parser.isAtEnd tks cur = false) :
    (Parser.parseDeclaration tks fuel cur).1.isOor = false := h.2.2.2.2.2.2.2.2.2.2.2.2.2.2.2.2.2.2.2.2.2.2.2.2.2.2.2.2.2.2.2.1 cur hAt

theorem ParserNoOor.var {tks : List Token} {fuel : Nat}
    (h : ParserNoOor tks fuel) (th idh : String) (cur : Nat) :
    (Parser.parseVariableDeclaration tks fuel th idh cur).1.isOor = false := h.2.2.2.2.2.2.2.2.2.2.2.2.2.2.2.2.2.2.2.2.2.2.2.2.2.2.2.2.2.2.2.2.1 th idh cur

theorem ParserNoOor.fn {tks : List Token} {fuel : Nat}
    (h : ParserNoOor tks fuel) (rty idn : String) (cur : Nat) :
    (Parser.parseFunctionDeclaration tks fuel rty idn cur).1.isOor = false := h.2.2.2.2.2.2.2.2.2.2.2.2.2.2.2.2.2.2.2.2.2.2.2.2.2.2.2.2.2.2.2.2.2.1 rty idn cur

theorem ParserNoOor.params {tks : List Token} {fuel : Nat}
    (h : ParserNoOor tks fuel) (l : List Param) (cur : Nat) :
    (Parser.funcParamsLoop tks fuel l cur).1.isOor = false := h.2.2.2.2.2.2.2.2.2.2.2.2.2.2.2.2.2.2.2.2.2.2.2.2.2.2.2.2.2.2.2.2.2.2.1 l cur

theorem ParserNoOor.prog {tks : List Token} {fuel : Nat}
    (h : ParserNoOor tks fuel) (cur : Nat) :
    (Parser.parseProgram tks fuel cur).1.isOor = false := h.2.2.2.2.2.2.2.2.2.2.2.2.2.2.2.2.2.2.2.2.2.2.2.2.2.2.2.2.2.2.2.2.2.2.2.1 cur

theorem ParserNoOor.progL {tks : List Token} {fuel : Nat}
    (h : ParserNoOor tks fuel) (l : List Stmt) (cur : Nat) :
    (Parser.programLoop tks fuel l cur).1.isOor = false := h.2.2.2.2.2.2.2.2.2.2.2.2.2.2.2.2.2.2.2.2.2.2.2.2.2.2.2.2.2.2.2.2.2.2.2.2 l cur

section

attribute [local irreducible] Parser.parseExpression
  Parser.parseAssignmentExpression Parser.parseLogicalOr Parser.orLoop
  Parser.parseLogicalAnd Parser.andLoop Parser.parseEquality Parser.eqLoop
  Parser.parseComparison Parser.cmpLoop Parser.parseTerm Parser.termLoop
  Parser.parseFactor Parser.factorLoop Parser.parseUnary Parser.parseCall
  Parser.callLoop Parser.callArgsLoop Parser.commaArgsLoop
  Parser.parsePrimary Parser.parseStatement Parser.parseStmtRest
  Parser.parsePrintfStatement Parser.parseScanfStatement
  Parser.parseExpressionStatement Parser.parseBlock Parser.blockLoop
  Parser.parseIf Parser.parseWhile Parser.parseFor Parser.parseReturn
  Parser.parseDeclaration Parser.parseVariableDeclaration
  Parser.parseFunctionDeclaration Parser.funcParamsLoop Parser.parseProgram
  Parser.programLoop

theorem noOorStep_parseExpression (tks : List Token) (fuel : Nat)
    (ih : ParserNoOor tks fuel) (cur : Nat) :
    (Parser.parseExpression tks (fuel + 1) cur).1.isOor = false := by
  unfold Parser.parseExpression
  exact ih.asg cur

theorem noOorStep_parseAssignmentExpression (tks : List Token) (fuel : Nat)
    (ih : ParserNoOor tks fuel) (cur : Nat) :
    (Parser.parseAssignmentExpression tks (fuel + 1) cur).1.isOor = false := by
  unfold Parser.parseAssignmentExpression
  apply pbind_isOor_false (ih.lor cur)
  intro a c
  dsimp only
  split
  · apply pbind_isOor_false (ih.asg _)
    intro b c2
    dsimp only
    split <;> rfl
  · rfl

theorem noOorStep_parseLogicalOr (tks : List Token) (fuel : Nat)
    (ih : ParserNoOor tks fuel) (cur : Nat) :
    (Parser.parseLogicalOr tks (fuel + 1) cur).1.isOor = false := by
  unfold Parser.parseLogicalOr
  exact pbind_isOor_false (ih.land cur) fun a c => ih.orL a c

theorem noOorStep_orLoop (tks : List Token) (fuel : Nat)
    (ih : ParserNoOor tks fuel) (l : Expr) (cur : Nat) :
    (Parser.orLoop tks (fuel + 1) l cur).1.isOor = false := by
  unfold Parser.orLoop
  split
  · rfl
  · exact pbind_isOor_false (ih.land _) fun a c => ih.orL _ c

theorem noOorStep_parseLogicalAnd (tks : List Token) (fuel : Nat)
    (ih : ParserNoOor tks fuel) (cur : Nat) :
    (Parser.parseLogicalAnd tks (fuel + 1) cur).1.isOor = false := by
  unfold Parser.parseLogicalAnd
  exact pbind_isOor_false (ih.eq cur) fun a c => ih.andL a c

theorem noOorStep_andLoop (tks : List Token) (fuel : Nat)
    (ih : ParserNoOor tks fuel) (l : Expr) (cur : Nat) :
    (Parser.andLoop tks (fuel + 1) l cur).1.isOor = false := by
  unfold Parser.andLoop
  split
  · rfl
  · exact pbind_isOor_false (ih.eq _) fun a c => ih.andL _ c

theorem noOorStep_parseEquality (tks : List Token) (fuel : Nat)
    (ih : ParserNoOor tks fuel) (cur : Nat) :
    (Parser.parseEquality tks (fuel + 1) cur).1.isOor = false := by
  unfold Parser.parseEquality
  exact pbind_isOor_false (ih.cmp cur) fun a c => ih.eqL a c

theorem noOorStep_eqLoop (tks : List Token) (fuel : Nat)
    (ih : ParserNoOor tks fuel) (l : Expr) (cur : Nat) :
    (Parser.eqLoop tks (fuel + 1) l cur).1.isOor = false := by
  unfold Parser.eqLoop
  split
  · rfl
  · exact pbind_isOor_false (ih.cmp _) fun a c => ih.eqL _ c

theorem noOorStep_parseComparison (tks : List Token) (fuel : Nat)
    (ih : ParserNoOor tks fuel) (cur : Nat) :
    (Parser.parseComparison tks (fuel + 1) cur).1.isOor = false := by
  unfold Parser.parseComparison
  exact pbind_isOor_false (ih.term cur) fun a c => ih.cmpL a c

theorem noOorStep_cmpLoop (tks : List Token) (fuel : Nat)
    (ih : ParserNoOor tks fuel) (l : Expr) (cur : Nat) :
    (Parser.cmpLoop tks (fuel + 1) l cur).1.isOor = false := by
  unfold Parser.cmpLoop
  split
  · rfl
  · exact pbind_isOor_false (ih.term _) fun a c => ih.cmpL _ c

theorem noOorStep_parseTerm (tks : List Token) (fuel : Nat)
    (ih : ParserNoOor tks fuel) (cur : Nat) :
    (Parser.parseTerm tks (fuel + 1) cur).1.isOor = false := by
  unfold Parser.parseTerm
  exact pbind_isOor_false (ih.fac cur) fun a c => ih.termL a c

theorem noOorStep_termLoop (tks : List Token) (fuel : Nat)
    (ih : ParserNoOor tks fuel) (l : Expr) (cur : Nat) :
    (Parser.termLoop tks (fuel + 1) l cur).1.isOor = false := by
  unfold Parser.termLoop
  split
  · rfl
  · exact pbind_isOor_false (ih.fac _) fun a c => ih.termL _ c

theorem noOorStep_parseFactor (tks : List Token) (fuel : Nat)
    (ih : ParserNoOor tks fuel) (cur : Nat) :
    (Parser.parseFactor tks (fuel + 1) cur).1.isOor = false := by
  unfold Parser.parseFactor
  exact pbind_isOor_false (ih.un cur) fun a c => ih.facL a c

theorem noOorStep_factorLoop (tks : List Token) (fuel : Nat)
    (ih : ParserNoOor tks fuel) (l : Expr) (cur : Nat) :
    (Parser.factorLoop tks (fuel + 1) l cur).1.isOor = false := by
  unfold Parser.factorLoop
  split
  · rfl
  · exact pbind_isOor_false (ih.un _) fun a c => ih.facL _ c

theorem noOorStep_parseUnary (tks : List Token) (fuel : Nat)
    (ih : ParserNoOor tks fuel) (cur : Nat) :
    (Parser.parseUnary tks (fuel + 1) cur).1.isOor = false := by
  unfold Parser.parseUnary
  split
  · exact pbind_isOor_false (ih.un _) fun a c => rfl
  · exact ih.call cur

theorem noOorStep_parseCall (tks : List Token) (fuel : Nat)
    (ih : ParserNoOor tks fuel) (cur : Nat) :
    (Parser.parseCall tks (fuel + 1) cur).1.isOor = false := by
  unfold Parser.parseCall
  exact pbind_isOor_false (ih.prim cur) fun e c => ih.callL e c

theorem noOorStep_callLoop (tks : List Token) (fuel : Nat)
    (ih : ParserNoOor tks fuel) (e : Expr) (cur : Nat) :
    (Parser.callLoop tks (fuel + 1) e cur).1.isOor = false := by
  unfold Parser.callLoop
  dsimp only
  split
  · split
    · apply pbind_isOor_false
      · split
        · exact ih.cargs _ _
        · rfl
      · intro args c2
        dsimp only
        apply pbind_isOor_false (consumeV_isOor tks c2 _ _ _)
        intro _ c3
        exact ih.callL _ c3
    · rfl
  · split
    · apply pbind_isOor_false (ih.expr _)
      intro idx c2
      dsimp only
      apply pbind_isOor_false (consumeV_isOor tks c2 _ _ _)
      intro _ c3
      exact ih.callL _ c3
    · split
      · exact ih.callL _ _
      · split
        · exact ih.callL _ _
        · rfl

theorem noOorStep_callArgsLoop (tks : List Token) (fuel : Nat)
    (ih : ParserNoOor tks fuel) (l : List Expr) (cur : Nat) :
    (Parser.callArgsLoop tks (fuel + 1) l cur).1.isOor = false := by
  unfold Parser.callArgsLoop
  apply pbind_isOor_false (ih.expr cur)
  intro a c
  dsimp only
  split
  · exact ih.cargs _ _
  · rfl

theorem noOorStep_commaArgsLoop (tks : List Token) (fuel : Nat)
    (ih : ParserNoOor tks fuel) (l : List Expr) (cur : Nat) :
    (Parser.commaArgsLoop tks (fuel + 1) l cur).1.isOor = false := by
  unfold Parser.commaArgsLoop
  dsimp only
  split
  · exact pbind_isOor_false (ih.expr _) fun a c => ih.comma _ c
  · rfl

theorem noOorStep_parsePrimary (tks : List Token) (H1 : tks ≠ [])
    (H2 : (tks.getLastD Parser.defTok).type = .EndOfFile) (fuel : Nat)
    (ih : ParserNoOor tks fuel) (cur : Nat) :
    (Parser.parsePrimary tks (fuel + 1) cur).1.isOor = false := by
  unfold Parser.parsePrimary
  repeat' first
  | rfl
  | exact peekTok_oor_elim tks H1 H2 (by assumption)
  | (apply pbind_isOor_false (ih.expr _)
     intro e c2
     exact pbind_isOor_false (consumeV_isOor tks c2 _ _ _) fun _ _ => rfl)
  | dsimp only
  | split

theorem noOorStep_parseStatement (tks : List Token) (H1 : tks ≠ [])
    (H2 : (tks.getLastD Parser.defTok).type = .EndOfFile) (fuel : Nat)
    (ih : ParserNoOor tks fuel) (cur : Nat) :
    (Parser.parseStatement tks (fuel + 1) cur).1.isOor = false := by
  unfold Parser.parseStatement
  repeat' first
  | rfl
  | exact peekTok_oor_elim tks H1 H2 (by assumption)
  | exact ih.ifS _
  | exact ih.whileS _
  | exact ih.forS _
  | exact ih.ret _
  | exact parseBreak_isOor tks _
  | exact parseContinue_isOor tks _
  | exact ih.printf _ (checkV_isAtEnd_false tks (by assumption))
  | exact ih.scanf _ (checkV_isAtEnd_false tks (by assumption))
  | exact ih.rest _
  | (apply pbind_isOor_false (ih.block _)
     intro s c
     rfl)
  | dsimp only
  | split

theorem noOorStep_parseStmtRest (tks : List Token) (fuel : Nat)
    (ih : ParserNoOor tks fuel) (cur : Nat) :
    (Parser.parseStmtRest tks (fuel + 1) cur).1.isOor = false := by
  unfold Parser.parseStmtRest
  split
  · exact ih.decl _ (checkTypeKeyword_isAtEnd_false tks (by assumption))
  · exact ih.exprSt _

theorem noOorStep_parsePrintfStatement (tks : List Token) (H1 : tks ≠ [])
    (H2 : (tks.getLastD Parser.defTok).type = .EndOfFile) (fuel : Nat)
    (ih : ParserNoOor tks fuel) (cur : Nat)
    (hAt : Parser.isAtEnd tks cur = false) :
    (Parser.parsePrintfStatement tks (fuel + 1) cur).1.isOor = false := by
  unfold Parser.parsePrintfStatement
  apply pbind_isOor_false (advanceTok_isOor tks hAt)
  intro _ cur1
  dsimp only
  apply pbind_isOor_false (consumeV_isOor tks cur1 _ _ _)
  intro _ cur2
  dsimp only
  split
  · apply pbind_isOor_false (ih.prim _)
    intro fmt cur3
    dsimp only
    apply pbind_isOor_false (ih.comma _ _)
    intro args cur4
    dsimp only
    apply pbind_isOor_false (consumeV_isOor tks cur4 _ _ _)
    intro _ cur5
    dsimp only
    exact pbind_isOor_false (consumeV_isOor tks cur5 _ _ _) fun _ _ => rfl
  · split
    · rfl
    · exact peekTok_oor_elim tks H1 H2 (by assumption)
    · rfl
    · rfl

theorem noOorStep_parseScanfStatement (tks : List Token) (H1 : tks ≠ [])
    (H2 : (tks.getLastD Parser.defTok).type = .EndOfFile) (fuel : Nat)
    (ih : ParserNoOor tks fuel) (cur : Nat)
    (hAt : Parser.isAtEnd tks cur = false) :
    (Parser.parseScanfStatement tks (fuel + 1) cur).1.isOor = false := by
  unfold Parser.parseScanfStatement
  apply pbind_isOor_false (advanceTok_isOor tks hAt)
  intro _ cur1
  dsimp only
  apply pbind_isOor_false (consumeV_isOor tks cur1 _ _ _)
  intro _ cur2
  dsimp only
  split
  · apply pbind_isOor_false (ih.prim _)
    intro fmt cur3
    dsimp only
    apply pbind_isOor_false (ih.comma _ _)
    intro args cur4
    dsimp only
    apply pbind_isOor_false (consumeV_isOor tks cur4 _ _ _)
    intro _ cur5
    dsimp only
    exact pbind_isOor_false (consumeV_isOor tks cur5 _ _ _) fun _ _ => rfl
  · split
    · rfl
    · exact peekTok_oor_elim tks H1 H2 (by assumption)
    · rfl
    · rfl

theorem noOorStep_parseExpressionStatement (tks : List Token) (fuel : Nat)
    (ih : ParserNoOor tks fuel) (cur : Nat) :
    (Parser.parseExpressionStatement tks (fuel + 1) cur).1.isOor = false := by
  unfold Parser.parseExpressionStatement
  apply pbind_isOor_false (ih.expr cur)
  intro e c
  dsimp only
  exact pbind_isOor_false (consumeV_isOor tks c _ _ _) fun _ _ => rfl

theorem noOorStep_parseBlock (tks : List Token) (fuel : Nat)
    (ih : ParserNoOor tks fuel) (cur : Nat) :
    (Parser.parseBlock tks (fuel + 1) cur).1.isOor = false := by
  unfold Parser.parseBlock
  exact ih.blockL [] cur

theorem noOorStep_blockLoop (tks : List Token) (fuel : Nat)
    (ih : ParserNoOor tks fuel) (l : List Stmt) (cur : Nat) :
    (Parser.blockLoop tks (fuel + 1) l cur).1.isOor = false := by
  unfold Parser.blockLoop
  split
  · exact pbind_isOor_false (ih.stmt _) fun s c => ih.blockL _ c
  · exact pbind_isOor_false (consumeV_isOor tks _ _ _ _) fun _ _ => rfl

theorem noOorStep_parseIf (tks : List Token) (fuel : Nat)
    (ih : ParserNoOor tks fuel) (cur : Nat) :
    (Parser.parseIf tks (fuel + 1) cur).1.isOor = false := by
  unfold Parser.parseIf
  apply pbind_isOor_false (consumeV_isOor tks cur _ _ _)
  intro _ cur1
  dsimp only
  apply pbind_isOor_false (ih.expr _)
  intro cond cur2
  dsimp only
  apply pbind_isOor_false (consumeV_isOor tks cur2 _ _ _)
  intro _ cur3
  dsimp only
  apply pbind_isOor_false (ih.stmt _)
  intro thenB cur4
  dsimp only
  split
  · exact pbind_isOor_false (ih.stmt _) fun e c => rfl
  · rfl

theorem noOorStep_parseWhile (tks : List Token) (fuel : Nat)
    (ih : ParserNoOor tks fuel) (cur : Nat) :
    (Parser.parseWhile tks (fuel + 1) cur).1.isOor = false := by
  unfold Parser.parseWhile
  apply pbind_isOor_false (consumeV_isOor tks cur _ _ _)
  intro _ cur1
  dsimp only
  apply pbind_isOor_false (ih.expr _)
  intro cond cur2
  dsimp only
  apply pbind_isOor_false (consumeV_isOor tks cur2 _ _ _)
  intro _ cur3
  dsimp only
  exact pbind_isOor_false (ih.stmt _) fun b c => rfl

theorem noOorStep_parseFor (tks : List Token) (fuel : Nat)
    (ih : ParserNoOor tks fuel) (cur : Nat) :
    (Parser.parseFor tks (fuel + 1) cur).1.isOor = false := by
  unfold Parser.parseFor
  apply pbind_isOor_false (consumeV_isOor tks cur _ _ _)
  intro _ cur1
  dsimp only
  apply pbind_isOor_false
  · split
    · split
      · exact pbind_isOor_false (ih.var _ _ _) fun d c => rfl
      · exact pbind_isOor_false (ih.exprSt _) fun s c => rfl
    · exact pbind_isOor_false (consumeV_isOor tks cur1 _ _ _) fun _ c => rfl
  · intro ini cur2
    dsimp only
    apply pbind_isOor_false
    · split
      · exact pbind_isOor_false (ih.expr _) fun e c => rfl
      · rfl
    · intro condE cur3
      dsimp only
      apply pbind_isOor_false (consumeV_isOor tks cur3 _ _ _)
      intro _ cur4
      dsimp only
      apply pbind_isOor_false
      · split
        · exact pbind_isOor_false (ih.expr _) fun e c => rfl
        · rfl
      · intro incE cur5
        dsimp only
        apply pbind_isOor_false (consumeV_isOor tks cur5 _ _ _)
        intro _ cur6
        dsimp only
        exact pbind_isOor_false (ih.stmt _) fun b c => rfl

theorem noOorStep_parseReturn (tks : List Token) (fuel : Nat)
    (ih : ParserNoOor tks fuel) (cur : Nat) :
    (Parser.parseReturn tks (fuel + 1) cur).1.isOor = false := by
  unfold Parser.parseReturn
  apply pbind_isOor_false
  · split
    · exact pbind_isOor_false (ih.expr _) fun e c => rfl
    · rfl
  · intro v cur1
    dsimp only
    exact pbind_isOor_false (consumeV_isOor tks cur1 _ _ _) fun _ _ => rfl

theorem noOorStep_parseDeclaration (tks : List Token) (fuel : Nat)
    (ih : ParserNoOor tks fuel) (cur : Nat)
    (hAt : Parser.isAtEnd tks cur = false) :
    (Parser.parseDeclaration tks (fuel + 1) cur).1.isOor = false := by
  unfold Parser.parseDeclaration
  apply pbind_isOor_false (advanceTok_isOor tks hAt)
  intro tTok cur1
  dsimp only
  apply pbind_isOor_false (consumeT_isOor tks cur1 _ _)
  intro idTok cur2
  dsimp only
  split
  · apply pbind_isOor_false
      (advanceTok_isOor tks (checkV_isAtEnd_false tks (by assumption)))
    intro _ cur3
    dsimp only
    apply pbind_isOor_false (ih.expr _)
    intro size cur4
    dsimp only
    apply pbind_isOor_false (consumeV_isOor tks cur4 _ _ _)
    intro _ cur5
    dsimp only
    exact pbind_isOor_false (consumeV_isOor tks _ _ _ _) fun _ _ => rfl
  · split
    · exact ih.fn _ _ _
    · exact ih.var _ _ _

theorem noOorStep_parseVariableDeclaration (tks : List Token)
    (H1 : tks ≠ [])
    (H2 : (tks.getLastD Parser.defTok).type = .EndOfFile) (fuel : Nat)
    (ih : ParserNoOor tks fuel) (th idh : String) (cur : Nat) :
    (Parser.parseVariableDeclaration tks (fuel + 1) th idh cur).1.isOor =
      false := by
  unfold Parser.parseVariableDeclaration
  apply pbind_isOor_false
  · split
    · split
      · split
        · rfl
        · exact peekTok_oor_elim tks H1 H2 (by assumption)
        · rfl
        · rfl
      · exact pbind_isOor_false
          (advanceTok_isOor tks (checkTypeKeyword_isAtEnd_false tks
            (not_not.mp (by assumption)))) fun t c => rfl
    · rfl
  · intro actualType cur1
    dsimp only
    apply pbind_isOor_false
    · split
      · exact pbind_isOor_false (consumeT_isOor tks cur1 _ _) fun t c => rfl
      · rfl
    · intro actualIdent cur2
      dsimp only
      apply pbind_isOor_false
      · split
        · exact pbind_isOor_false (ih.expr _) fun e c => rfl
        · rfl
      · intro ini cur3
        dsimp only
        exact pbind_isOor_false (consumeV_isOor tks cur3 _ _ _) fun _ _ => rfl

theorem noOorStep_parseFunctionDeclaration (tks : List Token) (fuel : Nat)
    (ih : ParserNoOor tks fuel) (rty idn : String) (cur : Nat) :
    (Parser.parseFunctionDeclaration tks (fuel + 1) rty idn cur).1.isOor =
      false := by
  unfold Parser.parseFunctionDeclaration
  apply pbind_isOor_false (consumeV_isOor tks cur _ _ _)
  intro _ cur1
  dsimp only
  apply pbind_isOor_false
  · split
    · exact ih.params _ _
    · rfl
  · intro params cur2
    dsimp only
    apply pbind_isOor_false (consumeV_isOor tks cur2 _ _ _)
    intro _ cur3
    dsimp only
    split
    · exact pbind_isOor_false (ih.block _) fun ss c => rfl
    · exact pbind_isOor_false (consumeV_isOor tks cur3 _ _ _) fun _ _ => rfl

theorem noOorStep_funcParamsLoop (tks : List Token) (H1 : tks ≠ [])
    (H2 : (tks.getLastD Parser.defTok).type = .EndOfFile) (fuel : Nat)
    (ih : ParserNoOor tks fuel) (l : List Param) (cur : Nat) :
    (Parser.funcParamsLoop tks (fuel + 1) l cur).1.isOor = false := by
  unfold Parser.funcParamsLoop
  split
  · split
    · rfl
    · exact peekTok_oor_elim tks H1 H2 (by assumption)
    · rfl
    · rfl
  · apply pbind_isOor_false
      (advanceTok_isOor tks (checkTypeKeyword_isAtEnd_false tks
        (not_not.mp (by assumption))))
    intro tTok cur1
    dsimp only
    apply pbind_isOor_false (consumeT_isOor tks cur1 _ _)
    intro nTok cur2
    dsimp only
    apply pbind_isOor_false
    · split
      · exact pbind_isOor_false (consumeV_isOor tks _ _ _ _) fun _ c => rfl
      · rfl
    · intro isArr cur3
      dsimp only
      split
      · exact ih.params _ _
      · rfl

theorem noOorStep_parseProgram (tks : List Token) (fuel : Nat)
    (ih : ParserNoOor tks fuel) (cur : Nat) :
    (Parser.parseProgram tks (fuel + 1) cur).1.isOor = false := by
  unfold Parser.parseProgram
  exact ih.progL [] cur

theorem noOorStep_programLoop (tks : List Token) (fuel : Nat)
    (ih : ParserNoOor tks fuel) (l : List Stmt) (cur : Nat) :
    (Parser.programLoop tks (fuel + 1) l cur).1.isOor = false := by
  unfold Parser.programLoop
  split
  · rfl
  · split
    · exact ih.progL _ _
    · dsimp only
      split
      · rfl
      · exact ih.progL _ _
    · exact noOor_pair_elim (ih.stmt _) (by assumption)
    · rfl

/-- Main induction: once the token list is nonempty and EndOfFile-terminated,
no parser function produces `out_of_range`, at any fuel. -/
theorem parserNoOor (tks : List Token) (H1 : tks ≠ [])
    (H2 : (tks.getLastD Parser.defTok).type = .EndOfFile) :
    ∀ fuel, ParserNoOor tks fuel := by
  intro fuel
  induction fuel with
  | zero => exact parserNoOor_zero tks
  | succ fuel ih =>
    exact ⟨noOorStep_parseExpression tks fuel ih,
      noOorStep_parseAssignmentExpression tks fuel ih,
      noOorStep_parseLogicalOr tks fuel ih,
      noOorStep_orLoop tks fuel ih,
      noOorStep_parseLogicalAnd tks fuel ih,
      noOorStep_andLoop tks fuel ih,
      noOorStep_parseEquality tks fuel ih,
      noOorStep_eqLoop tks fuel ih,
      noOorStep_parseComparison tks fuel ih,
      noOorStep_cmpLoop tks fuel ih,
      noOorStep_parseTerm tks fuel ih,
      noOorStep_termLoop tks fuel ih,
      noOorStep_parseFactor tks fuel ih,
      noOorStep_factorLoop tks fuel ih,
      noOorStep_parseUnary tks fuel ih,
      noOorStep_parseCall tks fuel ih,
      noOorStep_callLoop tks fuel ih,
      noOorStep_callArgsLoop tks fuel ih,
      noOorStep_commaArgsLoop tks fuel ih,
      noOorStep_parsePrimary tks H1 H2 fuel ih,
      noOorStep_parseStatement tks H1 H2 fuel ih,
      noOorStep_parseStmtRest tks fuel ih,
      noOorStep_parsePrintfStatement tks H1 H2 fuel ih,
      noOorStep_parseScanfStatement tks H1 H2 fuel ih,
      noOorStep_parseExpressionStatement tks fuel ih,
      noOorStep_parseBlock tks fuel ih,
      noOorStep_blockLoop tks fuel ih,
      noOorStep_parseIf tks fuel ih,
      noOorStep_parseWhile tks fuel ih,
      noOorStep_parseFor tks fuel ih,
      noOorStep_parseReturn tks fuel ih,
      noOorStep_parseDeclaration tks fuel ih,
      noOorStep_parseVariableDeclaration tks H1 H2 fuel ih,
      noOorStep_parseFunctionDeclaration tks fuel ih,
      noOorStep_funcParamsLoop tks H1 H2 fuel ih,
      noOorStep_parseProgram tks fuel ih,
      noOorStep_programLoop tks fuel ih⟩


/-- `Parser::parse` never propagates `out_of_range` when the token list is
nonempty and EndOfFile-terminated: the `runtime_error` outcome of
`parseProgram` is caught (empty Program), and `parserNoOor` rules the
`oor` outcome out. -/
theorem parse_noOor (tks : List Token) (H1 : tks ≠ [])
    (H2 : (tks.getLastD Parser.defTok).type = .EndOfFile) (fuel : Nat) :
    (Parser.parse tks fuel).isOor = false := by
  have h := (parserNoOor tks H1 H2 fuel).prog 0
  unfold Parser.parse
  split
  · rfl
  · rfl
  · exact noOor_pair_elim h (by assumption)
  · rfl

end

theorem endsWithOneEOF_props (ts : List Token)
    (h : endsWithOneEOF ts = true) :
    ts ≠ [] ∧ (ts.getLastD Parser.defTok).type = .EndOfFile := by
  unfold endsWithOneEOF at h
  cases hgl : ts.getLast? with
  | none => rw [hgl] at h; exact absurd h (by simp)
  | some e =>
    rw [hgl] at h
    simp only [Bool.and_eq_true, decide_eq_true_eq] at h
    have hne : ts ≠ [] := by
      intro hnil
      rw [hnil] at hgl
      simp at hgl
    refine ⟨hne, ?_⟩
    have hlast : ts.getLastD Parser.defTok = e := by
      rw [List.getLastD_eq_getLast?, hgl]
      rfl
    rw [hlast]
    exact h.1

/-- Every tokenizer output is nonempty and EndOfFile-terminated — the
hypotheses under which the parser can never raise `out_of_range`. -/
theorem tokenize_endsEOF (source : String) :
    (Lexer.tokenize source).1 ≠ [] ∧
    ((Lexer.tokenize source).1.getLastD Parser.defTok).type =
      .EndOfFile := by
  apply endsWithOneEOF_props
  unfold Lexer.tokenize Lexer.tokenizeLoop
  exact tokenizeFuel_endsOneEOF _ _ (le_refl _) _ (Nat.lt_succ_self _)

/-- C2 counterexample: on a raw token sequence that is not
EndOfFile-terminated (here a single `!` operator token, which cannot come
from the lexer), `Parser::parse` propagates the `std::out_of_range` thrown
by `peek` to its caller — so "never throws an exception to its caller for
any token sequence" is too strong. -/
theorem claim_C2_counterexample :
    Parser.parse [⟨.Operator, "!", 1, 1⟩] 1000 =
      .oor
        "Peek offset out of bounds for token stream (index: 1, size: 1)." :=
  rfl

/-- C2: on every token sequence the lexer can actually produce, `parse`
throws nothing to its caller — `runtime_error` is caught inside
`parseProgram`/`parse` and `out_of_range` cannot arise (first conjunct,
via `parserNoOor`); and for `int 5 = x; int y = 2;` exactly the offending
statement is discarded via `synchronize` and the subsequent valid
declaration appears in the returned Program (second conjunct).  The
"any token sequence" wording of the claim is refuted by
`claim_C2_counterexample`. -/
theorem claim_C2 :
    (∀ (source : String) (fuel : Nat),
      (Parser.parse (Lexer.tokenize source).1 fuel).isOor = false) ∧
    Parser.parse (Lexer.tokenize "int 5 = x; int y = 2;").1 1000 =
      .ok ⟨[.varDecl "y" "int" (some (.number "2"))]⟩ := by
  refine ⟨fun source fuel => ?_, rfl⟩
  exact parse_noOor _ (tokenize_endsEOF source).1 (tokenize_endsEOF source).2
    fuel

end CtoPy
